import Mathlib

/-!
# dbdeployer `sandbox` package: node lists, partitions and directory checks

A shallow embedding of the Go package `sandbox`
(`multi-source-replication.go`, `sandbox.go`).

Conventions of the embedding:

* Go `int` values are `Int`; list lengths are `Nat` and are cast where the source adds or
  compares them with an `int`.
* Go `string` values are `String`; they are taken apart with `String.data`.
* A call of `common.Exitf` / `common.Exit` / a failing `common.ErrCheckExitf` ends the
  process: the embedding returns `Except.error` carrying the message, and nothing after it
  happens.
* `fmt.Printf` output and external commands are recorded, in order, in an explicit trace.
-/

deriving instance DecidableEq for Except

namespace Sandbox

/-! ## Standard-library pieces the source relies on -/

/-- The value of a decimal digit byte, as in `ch -= '0'; if ch > 9 { error }` of
`strconv.Atoi`. -/
def digitVal (c : Char) : Option Nat :=
  if 48 ≤ c.toNat ∧ c.toNat ≤ 57 then some (c.toNat - 48) else none

/-- The digit loop of `strconv.Atoi`: `n = n*10 + int(ch)`; a byte that is not a decimal
digit is a syntax error (`none`). -/
def parseDigits : List Char → Nat → Option Nat
  | [], n => some n
  | c :: cs, n =>
    match digitVal c with
    | none => none
    | some d => parseDigits cs (n * 10 + d)

/-- The function `strconv.Atoi` for a 64-bit `int`: an optional sign `+` or `-`, then at
least one decimal digit; `none` stands for a non-nil error (syntax error, or a value
outside `-2^63 .. 2^63-1`). -/
def Atoi (s : String) : Option Int :=
  let body : List Char :=
    match s.data with
    | '-' :: r => r
    | '+' :: r => r
    | r => r
  let neg : Bool :=
    match s.data with
    | '-' :: _ => true
    | _ => false
  if body = [] then none
  else
    match parseDigits body 0 with
    | none => none
    | some n =>
      if neg then (if n ≤ 2 ^ 63 then some (-(n : Int)) else none)
      else (if n < 2 ^ 63 then some (n : Int) else none)

/-- The verb `%d` of `fmt.Sprintf` applied to an `int`. -/
def Itoa (n : Int) : String :=
  match n with
  | Int.ofNat k => String.mk (Nat.toDigits 10 k)
  | Int.negSucc k => String.mk ('-' :: Nat.toDigits 10 (k + 1))

/-- The function `strings.Split(s, sep)` for a separator of one byte (every separator of
the source is one of `","`, `":"`, `";"`, `"."`, `" "`). -/
def strings_Split (s : String) (sep : Char) : List String :=
  (s.data.splitOn sep).map String.mk

/-- The function `strings.Join(elems, sep)` for a separator of one byte. -/
def strings_Join (elems : List String) (sep : Char) : String :=
  String.mk ([sep].intercalate (elems.map String.data))

/-! ## `common.Includes` -/

/-- One position of a search pattern: a literal character or the wildcard `.`. -/
inductive Atom where
  | lit (c : Char)
  | any
  deriving DecidableEq, Repr

/-- Reading of a pattern: a backslash makes the next character literal, an unescaped
period is the wildcard, every other character stands for itself. -/
def parsePattern : List Char → List Atom
  | [] => []
  | [c] => if c = '.' then [Atom.any] else [Atom.lit c]
  | c :: d :: rest =>
    if c = '\\' then Atom.lit d :: parsePattern rest
    else if c = '.' then Atom.any :: parsePattern (d :: rest)
    else Atom.lit c :: parsePattern (d :: rest)

/-- Does the atom accept the character (the wildcard accepts all but a newline). -/
def Atom.accepts : Atom → Char → Bool
  | Atom.lit c, d => c == d
  | Atom.any, d => d != '\n'

/-- The pattern matches a prefix of the text. -/
def matchPrefix : List Atom → List Char → Bool
  | [], _ => true
  | _ :: _, [] => false
  | a :: as, c :: cs => a.accepts c && matchPrefix as cs

/-- The pattern matches somewhere in the text. -/
def matchAnywhere (p : List Atom) : List Char → Bool
  | [] => matchPrefix p []
  | c :: cs => matchPrefix p (c :: cs) || matchAnywhere p cs

/-- Modelled from the spec: `common.Includes(main_string, contained)` is not under `src/`.
The spec has the separator of a node list be the first one "found" in the expression, and a
plugin-load directive be "contained" in option text: `Includes` tells whether the pattern
occurs in the text. The patterns the source passes are `","`, `":"`, `";"`, the escaped
period and `"plugin.load"`, so the pattern language is literals, the wildcard period and
backslash escapes. -/
def Includes (main_string contained : String) : Bool :=
  matchAnywhere (parsePattern contained.data) main_string.data

/-! ## `multi-source-replication.go` -/

/-- The loops `for _, N := range list { if N > nodes { common.Exitf(...) } }`
of `check_node_lists`; `role` is `"Master"` or `"Slave"`. -/
def check_greater (role : String) (nodes : Int) : List Int → Except String Unit
  | [] => Except.ok ()
  | N :: rest =>
    if N > nodes then
      Except.error (role ++ " num '" ++ Itoa N ++ "' greater than number of nodes ("
        ++ Itoa nodes ++ ")")
    else check_greater role nodes rest

/-- The inner loop `for _, S := range slist { if S == M { common.Exitf(...) } }`. -/
def check_overlap_inner (M : Int) : List Int → Except String Unit
  | [] => Except.ok ()
  | S :: rest =>
    if S = M then
      Except.error ("Overlapping values: " ++ Itoa M ++ " is in both master and slave list")
    else check_overlap_inner M rest

/-- The outer loop `for _, M := range mlist { for _, S := range slist { ... } }`. -/
def check_overlap (slist : List Int) : List Int → Except String Unit
  | [] => Except.ok ()
  | M :: rest =>
    match check_overlap_inner M slist with
    | Except.error e => Except.error e
    | Except.ok () => check_overlap slist rest

/-- The function `check_node_lists(nodes, mlist, slist)`: `Except.error` is a fatal exit,
`Except.ok ()` a normal return. -/
def check_node_lists (nodes : Int) (mlist slist : List Int) : Except String Unit :=
  match check_greater "Master" nodes mlist with
  | Except.error e => Except.error e
  | Except.ok () =>
    match check_greater "Slave" nodes slist with
    | Except.error e => Except.error e
    | Except.ok () =>
      match check_overlap slist mlist with
      | Except.error e => Except.error e
      | Except.ok () =>
        let total_nodes : Int := (mlist.length : Int) + (slist.length : Int)
        if total_nodes ≠ nodes then
          Except.error ("Mismatched values: masters (" ++ Itoa mlist.length ++ ") + slaves ("
            ++ Itoa slist.length ++ ") = " ++ Itoa total_nodes ++ ". Expected: " ++ Itoa nodes)
        else Except.ok ()

/-- The separator chosen by the `if / else if` chain at the head of
`nodes_list_to_int_slice`. -/
def choose_separator (nodes_list : String) : Char :=
  if Includes nodes_list "," then ','
  else if Includes nodes_list ":" then ':'
  else if Includes nodes_list ";" then ';'
  else if Includes nodes_list "\\." then '.'
  else ' '

/-- The loop `for _, s := range list` of `nodes_list_to_int_slice`: empty tokens are
skipped, a token `strconv.Atoi` rejects is fatal, every other token is appended. -/
def convert_tokens : List String → List Int → Except String (List Int)
  | [], int_list => Except.ok int_list
  | s :: rest, int_list =>
    if s ≠ "" then
      match Atoi s with
      | none => Except.error ("Error converting node number '" ++ s ++ "' to int")
      | some num => convert_tokens rest (int_list ++ [num])
    else convert_tokens rest int_list

/-- The lines the tail of `nodes_list_to_int_slice` prints for a parsed list. -/
def list_warnings (nodes_list : String) (nodes : Int) (int_list : List Int) : List String :=
  (if int_list.length = 0 then ["List '" ++ nodes_list ++ "' is empty\n"] else [])
  ++ (if (int_list.length : Int) > nodes then
        ["List '" ++ nodes_list ++ "' is greater than the expected number of nodes ("
          ++ Itoa nodes ++ ")\n"]
      else [])

/-- The function `nodes_list_to_int_slice(nodes_list, nodes)`: a fatal exit is
`Except.error`; a normal return carries `int_list` and the lines printed. -/
def nodes_list_to_int_slice (nodes_list : String) (nodes : Int) :
    Except String (List Int × List String) :=
  let separator := choose_separator nodes_list
  let list := strings_Split nodes_list separator
  if list.length = 0 then
    Except.error ("Empty nodes list given (" ++ nodes_list ++ ")")
  else
    match convert_tokens list [] with
    | Except.error e => Except.error e
    | Except.ok int_list => Except.ok (int_list, list_warnings nodes_list nodes int_list)

/-- The loop `for N := 1; N <= nodes; N++ { nodes_list += fmt.Sprintf("%d ", N) }` started
at counter `N`, with an explicit bound on the number of iterations. The counter is not
wrapped: it never exceeds `nodes + 1`, which leaves the range of a 64-bit `int` only when
`nodes` is the largest `int`, after `2^63 - 1` appended entries. -/
def make_nodes_list_loop (nodes : Int) : Nat → Int → String → String
  | 0, _, nodes_list => nodes_list
  | fuel + 1, N, nodes_list =>
    if N ≤ nodes then make_nodes_list_loop nodes fuel (N + 1) (nodes_list ++ (Itoa N ++ " "))
    else nodes_list

/-- The function `make_nodes_list(nodes)`; the loop body runs at most `nodes` times. -/
def make_nodes_list (nodes : Int) : String :=
  make_nodes_list_loop nodes nodes.toNat 1 ""

/-- The function `normalize_node_list(list)`: every match of the character class
of comma, colon and period is replaced by one space. -/
def normalize_node_list (list : String) : String :=
  String.mk (list.data.map fun c => if c = ',' ∨ c = ':' ∨ c = '.' then ' ' else c)

/-! ## `sandbox.go` -/

/-- The struct `SandboxDef` (the `Logger` pointer, which carries no data of the
definition, is left out). -/
structure SandboxDef where
  DirName : String
  SBType : String
  Multi : Bool
  NodeNum : Int
  Version : String
  Basedir : String
  BasedirName : String
  SandboxDir : String
  LoadGrants : Bool
  SkipReportHost : Bool
  SkipReportPort : Bool
  SkipStart : Bool
  InstalledPorts : List Int
  Port : Int
  MysqlXPort : Int
  UserPort : Int
  BasePort : Int
  MorePorts : List Int
  Prompt : String
  DbUser : String
  RplUser : String
  DbPassword : String
  RplPassword : String
  RemoteAccess : String
  BindAddress : String
  CustomMysqld : String
  ServerId : Int
  ReplOptions : String
  GtidOptions : String
  ReplCrashSafeOptions : String
  SemiSyncOptions : String
  InitOptions : List String
  MyCnfOptions : List String
  PreGrantsSql : List String
  PreGrantsSqlFile : String
  PostGrantsSql : List String
  PostGrantsSqlFile : String
  MyCnfFile : String
  HistoryDir : String
  LogFileName : String
  InitGeneralLog : Bool
  EnableGeneralLog : Bool
  NativeAuthPlugin : Bool
  DisableMysqlX : Bool
  EnableMysqlX : Bool
  KeepUuid : Bool
  SinglePrimary : Bool
  Force : Bool
  ExposeDdTables : Bool
  RunConcurrently : Bool
  deriving DecidableEq, Repr

/-- The host as the package `common` (not under `src/`) lets the code see it: the
file-system predicates, the persisted sandbox description, the path helpers, and whether
an external command run through `common.Run_cmd_with_args` returns a nil error. -/
structure Host where
  DirExists : String → Bool
  FileExists : String → Bool
  ExecExists : String → Bool
  GetInstalledPorts : String → List Int
  ReadSandboxDescription_LogFile : String → String
  ReplaceHomeVar : String → String
  DirName : String → String
  Run_cmd_with_args_ok : String → List String → Bool

/-- What a call leaves behind on the outside, in order. -/
inductive Event where
  | printed (text : String)
  | Run_cmd (command : String)
  | Run_cmd_with_args (command : String) (args : List String)
  deriving DecidableEq, Repr

/-- Is the event the launch of an external command. -/
def Event.isCommand : Event → Bool
  | Event.printed _ => false
  | Event.Run_cmd _ => true
  | Event.Run_cmd_with_args _ _ => true

/-- The function `is_locked(sb_dir)`. -/
def is_locked (h : Host) (sb_dir : String) : Bool :=
  h.FileExists (sb_dir ++ "/no_clear") || h.FileExists (sb_dir ++ "/no_clear_all")

/-- The function `getLogDirFromSbDescription(full_path)`. -/
def getLogDirFromSbDescription (h : Host) (full_path : String) : String :=
  let sbdescription := full_path ++ "/sbdescription.json"
  if h.FileExists sbdescription then
    let log_file := h.ReadSandboxDescription_LogFile full_path
    if log_file ≠ "" then
      let log_file := h.ReplaceHomeVar log_file
      let log_directory := h.DirName log_file
      if !h.DirExists log_directory then "" else log_directory
    else ""
  else ""

/-- The loop of `CheckDirectory` that rebuilds the installed ports:
`for _, port := range sdef.InstalledPorts { if !my_used_ports[port] { append } }`,
where `my_used_ports` is the set of the entries of `used_ports_list`. -/
def new_installed_ports_loop (used_ports_list : List Int) :
    List Int → List Int → List Int
  | [], new_installed_ports => new_installed_ports
  | port :: rest, new_installed_ports =>
    if !(used_ports_list.contains port) then
      new_installed_ports_loop used_ports_list rest (new_installed_ports ++ [port])
    else new_installed_ports_loop used_ports_list rest new_installed_ports

/-- The function `CheckDirectory(sdef)`: the trace of what was printed and run, and either
the fatal message or the returned definition. The result of `common.Run_cmd(stop_command)`
is discarded by the source, so the stop command is only recorded. -/
def CheckDirectory (h : Host) (sdef : SandboxDef) : List Event × Except String SandboxDef :=
  let sandbox_dir := sdef.SandboxDir
  if h.DirExists sandbox_dir then
    if sdef.Force then
      if is_locked h sandbox_dir then
        ([], Except.error ("Sandbox in " ++ sandbox_dir ++ " is locked. Cannot be overwritten\n"
          ++ "You can unlock it with 'dbdeployer admin unlock " ++ h.DirName sandbox_dir
          ++ "'\n"))
      else
        let t1 := [Event.printed ("Overwriting directory " ++ sandbox_dir ++ "\n")]
        let stop_command := sandbox_dir ++ "/stop"
        let stop_command :=
          if !h.ExecExists stop_command then sandbox_dir ++ "/stop_all" else stop_command
        let t2 := t1 ++
          (if !h.ExecExists stop_command then
            [Event.printed ("Neither 'stop' or 'stop_all' found in " ++ sandbox_dir ++ "\n")]
           else [])
        let used_ports_list := h.GetInstalledPorts sandbox_dir
        let log_directory := getLogDirFromSbDescription h sandbox_dir
        let t3 := t2 ++ [Event.Run_cmd stop_command,
          Event.Run_cmd_with_args "rm" ["-rf", sandbox_dir]]
        if !h.Run_cmd_with_args_ok "rm" ["-rf", sandbox_dir] then
          (t3, Except.error ("Error while deleting sandbox " ++ sandbox_dir))
        else
          let t4 := t3 ++
            (if log_directory ≠ "" then [Event.Run_cmd_with_args "rm" ["-rf", log_directory]]
             else [])
          if log_directory ≠ "" ∧ !h.Run_cmd_with_args_ok "rm" ["-rf", log_directory] then
            (t4, Except.error ("Error while deleting log directory " ++ log_directory))
          else
            let new_installed_ports :=
              new_installed_ports_loop used_ports_list sdef.InstalledPorts []
            (t4, Except.ok { sdef with InstalledPorts := new_installed_ports })
    else
      ([], Except.error ("Directory " ++ sandbox_dir
        ++ " already exists. Use --force to override."))
  else ([], Except.ok sdef)

/-! ## Specification-side notions -/

/-- Is the character one of the ten decimal digits. -/
def isDecimal (c : Char) : Prop := 48 ≤ c.toNat ∧ c.toNat ≤ 57

/-- The number a string of decimal digits denotes. -/
def decimalValue (ds : List Char) : Nat :=
  ds.foldl (fun n c => n * 10 + (c.toNat - 48)) 0

/-- A valid integer literal for a 64-bit `int`: an optional sign `+` or `-` followed by
at least one decimal digit, denoting a number in `-2^63 .. 2^63-1`. -/
def IsIntLiteral (s : String) : Prop :=
  ∃ sign ds : List Char, s.data = sign ++ ds ∧ (sign = [] ∨ sign = ['+'] ∨ sign = ['-']) ∧
    ds ≠ [] ∧ (∀ c ∈ ds, isDecimal c) ∧
    (sign = ['-'] → decimalValue ds ≤ 2 ^ 63) ∧ (sign ≠ ['-'] → decimalValue ds < 2 ^ 63)

/-- The list `"1 2 ... N "` in the words of the specification: the decimal rendering of
each `i = 1..N`, in ascending order, each followed by one space, all concatenated. -/
def nodes_enumeration (N : Nat) : String :=
  String.join ((List.range' 1 N).map fun i : Nat => Itoa (i : Int) ++ " ")

/-- The zero value of the struct `SandboxDef`. -/
def zeroSandboxDef : SandboxDef where
  DirName := ""
  SBType := ""
  Multi := false
  NodeNum := 0
  Version := ""
  Basedir := ""
  BasedirName := ""
  SandboxDir := ""
  LoadGrants := false
  SkipReportHost := false
  SkipReportPort := false
  SkipStart := false
  InstalledPorts := []
  Port := 0
  MysqlXPort := 0
  UserPort := 0
  BasePort := 0
  MorePorts := []
  Prompt := ""
  DbUser := ""
  RplUser := ""
  DbPassword := ""
  RplPassword := ""
  RemoteAccess := ""
  BindAddress := ""
  CustomMysqld := ""
  ServerId := 0
  ReplOptions := ""
  GtidOptions := ""
  ReplCrashSafeOptions := ""
  SemiSyncOptions := ""
  InitOptions := []
  MyCnfOptions := []
  PreGrantsSql := []
  PreGrantsSqlFile := ""
  PostGrantsSql := []
  PostGrantsSqlFile := ""
  MyCnfFile := ""
  HistoryDir := ""
  LogFileName := ""
  InitGeneralLog := false
  EnableGeneralLog := false
  NativeAuthPlugin := false
  DisableMysqlX := false
  EnableMysqlX := false
  KeepUuid := false
  SinglePrimary := false
  Force := false
  ExposeDdTables := false
  RunConcurrently := false

/-- A host given by the directories, plain files and executables that exist on it and the
ports its sandbox descriptions record; no description names a log file and every external
command succeeds. -/
def hostOf (dirs files execs : List String) (ports : List Int) : Host where
  DirExists := fun p => dirs.contains p
  FileExists := fun p => files.contains p
  ExecExists := fun p => execs.contains p
  GetInstalledPorts := fun _ => ports
  ReadSandboxDescription_LogFile := fun _ => ""
  ReplaceHomeVar := fun p => p
  DirName := fun p => p
  Run_cmd_with_args_ok := fun _ _ => true

/-! ## `sandbox.go`: what `CreateSingleSandbox` needs from outside -/

/-- The struct `concurrent.ExecCommand`. -/
structure ExecCommand where
  Cmd : String
  Args : List String
  deriving DecidableEq, Repr

/-- The struct `concurrent.ExecutionList` (without its `Logger` pointer). -/
structure ExecutionList where
  Priority : Int
  Command : ExecCommand
  deriving DecidableEq, Repr

/-- One `key = value` entry of a parsed options file (`common.KeyValue`). -/
structure KeyValue where
  Key : String
  Value : String
  deriving DecidableEq, Repr

/-- What `CreateSingleSandbox` uses, beyond `Host`, of code that is not under `src/`: the
helpers of the packages `common` and `defaults`, the process environment, the text of the
template `expose_dd_tables`, and how the external scripts end. An error of an external
command is its message (`none` is a nil error). `FileExists_later` is the answer of
`common.FileExists` once the sandbox directory has been created anew and the grant files
copied; `Host` describes the file system met on entry. -/
structure Externals where
  GreaterOrEqualVersion : String → List Int → Bool
  FindFreePort : Int → List Int → Int → Except String Int
  MysqlXPortDelta : Int
  SandboxPrefix : String
  VersionToName : String → String
  LogDirName : String
  NewLogger : String → String → String
  ReplaceLiteralHome : String → String
  Getenv : String → String
  expose_dd_tables : String
  ParseConfigFile : String → String → List KeyValue
  UsingDbDeployer : Bool
  Run_cmd_error : String → Option String
  Run_cmd_ctrl_error : String → Option String
  FileExists_later : String → Bool

/-- What `CreateSingleSandbox` does to the outside, in order: the events of
`CheckDirectory` and the prints, and the calls that allocate a port, open a log, create
a directory, write or copy a file, record the sandbox, or run its scripts. The lines sent
to the logger and the values of the template context are not recorded. -/
inductive Step where
  | event (e : Event)
  | NewLogger (log_dir log_name : String)
  | FindFreePort (base_port : Int) (installed_ports : List Int) (how_many : Int)
  | Mkdir (dir : String)
  | write_script (name template_name directory : String) (make_executable : Bool)
  | CopyFile (source destination : String)
  | WriteStrings (lines : List String) (file : String) (terminator : String)
  | AppendStrings (lines : List String) (file : String) (terminator : String)
  | WriteSandboxDescription (dir : String) (ports : List Int)
  | UpdateCatalog (dir : String) (ports : List Int)
  | Run_cmd_ctrl (command : String) (silent : Bool)
  deriving DecidableEq, Repr

/-- Is the step the launch of an external command. -/
def Step.isCommand : Step → Bool
  | Step.event e => e.isCommand
  | Step.Run_cmd_ctrl _ _ => true
  | _ => false

/-- Sequencing of two parts of a call: the second part runs on the value of the first
unless the first ended the process; the traces follow each other. -/
def andThen {α β : Type} (m : List Step × Except String α)
    (f : α → List Step × Except String β) : List Step × Except String β :=
  match m.2 with
  | Except.error e => (m.1, Except.error e)
  | Except.ok a => (m.1 ++ (f a).1, (f a).2)

/-- The loop of `CheckPort`: `for _, p := range installed_ports { if p == port { conflict = p } }`. -/
def CheckPort_loop (port : Int) : List Int → Int → Int
  | [], conflict => conflict
  | p :: rest, conflict =>
    if p = port then CheckPort_loop port rest p else CheckPort_loop port rest conflict

/-- The function `CheckPort(caller, sandbox_type, installed_ports, port)`. -/
def CheckPort (caller sandbox_type : String) (installed_ports : List Int) (port : Int) :
    Except String Unit :=
  let conflict := CheckPort_loop port installed_ports 0
  if conflict > 0 then
    Except.error ("Port conflict detected for " ++ sandbox_type ++ " (" ++ caller
      ++ "). Port " ++ Itoa conflict ++ " is already used")
  else Except.ok ()

/-- The map `skip_options` of `GetOptionsFromFile`, as a lookup: absent keys give `false`. -/
def skip_options (key : String) : Bool :=
  key = "user" || key = "port" || key = "socket" || key = "datadir" || key = "basedir" ||
  key = "tmpdir" || key = "pid-file" || key = "server-id" || key = "bind-address" ||
  key = "log-error"

/-- The loop `for _, kv := range config["mysqld"]` of `GetOptionsFromFile`. -/
def GetOptionsFromFile_loop : List KeyValue → List String → List String
  | [], options => options
  | kv :: rest, options =>
    if skip_options kv.Key then GetOptionsFromFile_loop rest options
    else GetOptionsFromFile_loop rest (options ++ [kv.Key ++ " = " ++ kv.Value])

/-- The function `GetOptionsFromFile(filename)`. -/
def GetOptionsFromFile (x : Externals) (filename : String) : List String :=
  let config := x.ParseConfigFile filename
  GetOptionsFromFile_loop (config "mysqld") []

/-- The loop `for _, v := range s_array { if len(v) > 0 { text += v + "\n" } }`. -/
def slice_to_text_loop : List String → String → String
  | [], text => text
  | v :: rest, text =>
    if v.length > 0 then slice_to_text_loop rest (text ++ (v ++ "\n"))
    else slice_to_text_loop rest text

/-- The function `slice_to_text(s_array)`. -/
def slice_to_text (s_array : List String) : String :=
  slice_to_text_loop s_array ""

/-- The function `set_mysqlx_properties(sdef, global_tmp_dir)`; `common.FindFreePort` may
end the process. -/
def set_mysqlx_properties (x : Externals) (sdef : SandboxDef) (global_tmp_dir : String) :
    List Step × Except String SandboxDef :=
  let finish (mysqlx_port : Int) : SandboxDef :=
    { sdef with
      MyCnfOptions := (sdef.MyCnfOptions ++ ["mysqlx-port=" ++ Itoa mysqlx_port])
        ++ ["mysqlx-socket=" ++ global_tmp_dir ++ "/mysqlx-" ++ Itoa mysqlx_port ++ ".sock"]
      MorePorts := sdef.MorePorts ++ [mysqlx_port]
      MysqlXPort := mysqlx_port }
  if sdef.MysqlXPort = 0 then
    let t := [Step.FindFreePort (sdef.Port + x.MysqlXPortDelta) sdef.InstalledPorts 1]
    match x.FindFreePort (sdef.Port + x.MysqlXPortDelta) sdef.InstalledPorts 1 with
    | Except.error e => (t, Except.error e)
    | Except.ok mysqlx_port => (t, Except.ok (finish mysqlx_port))
  else ([], Except.ok (finish sdef.MysqlXPort))

/-! ## `sandbox.go`: the version-gated rules of `CreateSingleSandbox` -/

/-- The definition together with the two local flags `using_plugins` and
`right_plugin_dir` of `CreateSingleSandbox`. -/
structure Derived where
  sdef : SandboxDef
  using_plugins : Bool
  right_plugin_dir : Bool
  deriving DecidableEq, Repr

/-- The block `if sdef.EnableMysqlX { ... }`. -/
def rule_enable_mysqlx (x : Externals) (global_tmp_dir : String) (d : Derived) :
    List Step × Except String Derived :=
  if d.sdef.EnableMysqlX then
    if !x.GreaterOrEqualVersion d.sdef.Version [5, 7, 12] then
      ([], Except.error "option --enable-mysqlx requires version 5.7.12+")
    else if !x.GreaterOrEqualVersion d.sdef.Version [8, 0, 11] then
      andThen
        (set_mysqlx_properties x
          { d.sdef with MyCnfOptions := d.sdef.MyCnfOptions ++ ["plugin_load=mysqlx=mysqlx.so"] }
          global_tmp_dir)
        fun sdef => ([], Except.ok { d with sdef := sdef, using_plugins := true })
    else ([], Except.ok { d with using_plugins := true })
  else ([], Except.ok d)

/-- The block `if GreaterOrEqualVersion(8.0.11) && !sdef.DisableMysqlX { using_plugins = true }`. -/
def rule_mysqlx_default (x : Externals) (d : Derived) : Derived :=
  if x.GreaterOrEqualVersion d.sdef.Version [8, 0, 11] && !d.sdef.DisableMysqlX then
    { d with using_plugins := true }
  else d

/-- The block `if sdef.ExposeDdTables { ... }`. -/
def rule_expose_dd_tables (x : Externals) (d : Derived) : List Step × Except String Derived :=
  if d.sdef.ExposeDdTables then
    if !x.GreaterOrEqualVersion d.sdef.Version [8, 0, 0] then
      ([], Except.error "--expose-dd-tables requires MySQL 8.0.0+")
    else if d.sdef.CustomMysqld ≠ "" ∧ d.sdef.CustomMysqld ≠ "mysqld-debug" then
      ([], Except.error ("--expose-dd-tables requires mysqld-debug. A different file was "
        ++ "indicated (--custom-mysqld=" ++ d.sdef.CustomMysqld ++ ")\n"
        ++ "Either use \"mysqld-debug\" or remove --custom-mysqld"))
    else
      ([], Except.ok { d with sdef := { d.sdef with
        PostGrantsSql := d.sdef.PostGrantsSql ++ [x.expose_dd_tables]
        CustomMysqld := "mysqld-debug" } })
  else ([], Except.ok d)

/-- The block `if sdef.CustomMysqld != "" { ... }`. -/
def rule_custom_mysqld (h : Host) (d : Derived) : List Step × Except String Derived :=
  if d.sdef.CustomMysqld ≠ "" then
    let custom_mysqld := d.sdef.Basedir ++ "/bin/" ++ d.sdef.CustomMysqld
    if !h.ExecExists custom_mysqld then
      ([], Except.error ("File " ++ custom_mysqld ++ " not found or not executable\n"
        ++ "The file \"" ++ d.sdef.CustomMysqld ++ "\" (defined with --custom-mysqld) must be "
        ++ "in the same directory as the regular mysqld"))
    else
      let plugin_debug_dir := d.sdef.Basedir ++ "/lib/plugin/debug"
      if d.sdef.CustomMysqld = "mysqld-debug" ∧ h.DirExists plugin_debug_dir then
        ([], Except.ok { d with sdef := { d.sdef with
          MyCnfOptions := d.sdef.MyCnfOptions ++ ["plugin-dir=" ++ plugin_debug_dir] } })
      else ([], Except.ok { d with right_plugin_dir := false })
  else ([], Except.ok d)

/-- The block `if GreaterOrEqualVersion(5.1.0) { general log options }`. -/
def rule_general_log (x : Externals) (sdef : SandboxDef) : SandboxDef :=
  if x.GreaterOrEqualVersion sdef.Version [5, 1, 0] then
    let sdef :=
      if sdef.EnableGeneralLog then
        { sdef with MyCnfOptions := sdef.MyCnfOptions ++ ["general_log=1"] }
      else sdef
    if sdef.InitGeneralLog then
      { sdef with InitOptions := sdef.InitOptions ++ ["--general_log=1"] }
    else sdef
  else sdef

/-- The block `if GreaterOrEqualVersion(8.0.4) { if sdef.NativeAuthPlugin == true { ... } }`. -/
def rule_native_auth (x : Externals) (sdef : SandboxDef) : SandboxDef :=
  if x.GreaterOrEqualVersion sdef.Version [8, 0, 4] then
    if sdef.NativeAuthPlugin = true then
      { sdef with
        InitOptions := sdef.InitOptions ++ ["--default_authentication_plugin=mysql_native_password"]
        MyCnfOptions := sdef.MyCnfOptions ++ ["default_authentication_plugin=mysql_native_password"] }
    else sdef
  else sdef

/-- The block `if GreaterOrEqualVersion(8.0.11) { if sdef.DisableMysqlX {...} else {...} }`. -/
def rule_mysqlx_8011 (x : Externals) (global_tmp_dir : String) (sdef : SandboxDef) :
    List Step × Except String SandboxDef :=
  if x.GreaterOrEqualVersion sdef.Version [8, 0, 11] then
    if sdef.DisableMysqlX then
      ([], Except.ok { sdef with MyCnfOptions := sdef.MyCnfOptions ++ ["mysqlx=OFF"] })
    else set_mysqlx_properties x sdef global_tmp_dir
  else ([], Except.ok sdef)

/-- The block `if sdef.MyCnfFile != "" { ... }`. -/
def rule_my_cnf_file (x : Externals) (sdef : SandboxDef) : SandboxDef :=
  if sdef.MyCnfFile ≠ "" then
    let options := GetOptionsFromFile x sdef.MyCnfFile
    let sdef :=
      if options.length > 0 then
        { sdef with MyCnfOptions :=
            sdef.MyCnfOptions ++ ["# options retrieved from " ++ sdef.MyCnfFile] }
      else sdef
    { sdef with MyCnfOptions := sdef.MyCnfOptions ++ options }
  else sdef

/-- The two blocks `if common.Includes(..., "plugin.load") { using_plugins = true }`. -/
def rule_plugin_load (d : Derived) : Derived :=
  let d :=
    if Includes (slice_to_text d.sdef.MyCnfOptions) "plugin.load" then
      { d with using_plugins := true }
    else d
  if Includes d.sdef.SemiSyncOptions "plugin.load" then { d with using_plugins := true }
  else d

/-- The block `if using_plugins { if !right_plugin_dir { common.Exit(...) } }`. -/
def rule_plugin_check (d : Derived) : List Step × Except String Derived :=
  if d.using_plugins then
    if !d.right_plugin_dir then
      ([], Except.error ("The request of using mysqld-debug can't be honored.\n"
        ++ "This deployment is using a plugin, but the debug\n"
        ++ "directory for plugins was not found"))
    else ([], Except.ok d)
  else ([], Except.ok d)

/-- The version-gated part of `CreateSingleSandbox`, from `using_plugins := false` to the
plugin check, in the order of the source. -/
def derive_options (h : Host) (x : Externals) (global_tmp_dir : String) (sdef : SandboxDef) :
    List Step × Except String Derived :=
  andThen (rule_enable_mysqlx x global_tmp_dir
    { sdef := sdef, using_plugins := false, right_plugin_dir := true }) fun d =>
  andThen (rule_expose_dd_tables x (rule_mysqlx_default x d)) fun d =>
  andThen (rule_custom_mysqld h d) fun d =>
  andThen (rule_mysqlx_8011 x global_tmp_dir (rule_native_auth x (rule_general_log x d.sdef)))
    fun sdef =>
  rule_plugin_check (rule_plugin_load { d with sdef := rule_my_cnf_file x sdef })

/-! ## `sandbox.go`: `CreateSingleSandbox` -/

/-- The definition and the locals `sandbox_dir` and `global_tmp_dir` of
`CreateSingleSandbox` once its first checks are passed. -/
structure Prepared where
  sdef : SandboxDef
  sandbox_dir : String
  global_tmp_dir : String
  deriving DecidableEq, Repr

/-- The name `sdef.DirName` gets when it is empty. -/
def default_DirName (x : Externals) (sdef : SandboxDef) : String :=
  if sdef.DirName = "" then
    if sdef.Version ≠ sdef.BasedirName then x.SandboxPrefix ++ sdef.BasedirName
    else x.SandboxPrefix ++ x.VersionToName sdef.Version
  else sdef.DirName

/-- The head of `CreateSingleSandbox`, up to the call of `common.FindFreePort`: defaults
of `SBType`, `Prompt`, `DirName`, the logger, the checks of `Basedir`, `Port` and the
temporary directory. The assignments to the fields of `sdef` that the source makes one by
one are gathered in the one update at the end; none of them is read by a check before. -/
def prepare (h : Host) (x : Externals) (sdef : SandboxDef) :
    List Step × Except String Prepared :=
  let SBType := if sdef.SBType = "" then "single" else sdef.SBType
  let log_name := if sdef.NodeNum > 0 then SBType ++ "-" ++ Itoa sdef.NodeNum else SBType
  let fname := x.NewLogger x.LogDirName log_name
  let t := [Step.NewLogger x.LogDirName log_name]
  if !h.DirExists sdef.Basedir then
    (t, Except.error ("Base directory " ++ sdef.Basedir ++ " does not exist"))
  else if sdef.Port ≤ 1024 then
    (t, Except.error ("Port for sandbox must be > 1024 (given:" ++ Itoa sdef.Port ++ ")"))
  else
    let Prompt := if sdef.Prompt = "" then "mysql" else sdef.Prompt
    let DirName := default_DirName x sdef
    let sandbox_dir := sdef.SandboxDir ++ "/" ++ DirName
    let global_tmp_dir := if x.Getenv "TMPDIR" = "" then "/tmp" else x.Getenv "TMPDIR"
    let prepared (port : Int) : Prepared :=
      { sdef := { sdef with
          SBType := SBType
          LogFileName := x.ReplaceLiteralHome fname
          Prompt := Prompt
          DirName := DirName
          SandboxDir := sandbox_dir
          Port := port },
        sandbox_dir := sandbox_dir,
        global_tmp_dir := global_tmp_dir }
    if !h.DirExists global_tmp_dir then
      (t, Except.error ("TMP directory " ++ global_tmp_dir ++ " does not exist"))
    else if sdef.NodeNum = 0 ∧ !sdef.Force then
      match x.FindFreePort sdef.Port sdef.InstalledPorts 1 with
      | Except.error e =>
        (t ++ [Step.FindFreePort sdef.Port sdef.InstalledPorts 1], Except.error e)
      | Except.ok port =>
        (t ++ [Step.FindFreePort sdef.Port sdef.InstalledPorts 1], Except.ok (prepared port))
    else (t, Except.ok (prepared sdef.Port))

/-- The calls `if common.DirExists(sandbox_dir) { sdef = CheckDirectory(sdef) }` and
`CheckPort(...)`. -/
def check_stage (h : Host) (sdef : SandboxDef) (sandbox_dir : String) :
    List Step × Except String SandboxDef :=
  andThen
    (if h.DirExists sandbox_dir then
      ((CheckDirectory h sdef).1.map Step.event, (CheckDirectory h sdef).2)
     else ([], Except.ok sdef))
    fun sdef =>
      match CheckPort "CreateSingleSandbox" sdef.SBType sdef.InstalledPorts sdef.Port with
      | Except.error e => ([], Except.error e)
      | Except.ok () => ([], Except.ok sdef)

/-- From `common.Mkdir(sandbox_dir)` to the first use of `init_db`: the directories, the
check of the initialisation script, the script `init_db`, and either the first item of
the execution list or the synchronous run of `init_db`. The value is `exec_list`. -/
def init_stage (h : Host) (x : Externals) (sdef : SandboxDef) (sandbox_dir : String) :
    List Step × Except String (List ExecutionList) :=
  let datadir := sandbox_dir ++ "/data"
  let tmpdir := sandbox_dir ++ "/tmp"
  let t := [Step.Mkdir sandbox_dir, Step.Mkdir datadir, Step.Mkdir tmpdir]
  let script :=
    if x.GreaterOrEqualVersion sdef.Version [5, 7, 0] then sdef.Basedir ++ "/bin/mysqld"
    else sdef.Basedir ++ "/scripts/mysql_install_db"
  if !h.ExecExists script then
    (t, Except.error ("Script '" ++ script ++ "' not found"))
  else
    let t := t ++ [Step.write_script "init_db" "init_db_template" sandbox_dir true]
    if sdef.RunConcurrently then
      (t, Except.ok [{ Priority := 0,
                       Command := { Cmd := sandbox_dir ++ "/init_db", Args := [] } }])
    else
      let t := t ++ [Step.Run_cmd_ctrl (sandbox_dir ++ "/init_db") true]
      match x.Run_cmd_ctrl_error (sandbox_dir ++ "/init_db") with
      | none =>
        if !sdef.Multi then
          if x.UsingDbDeployer then
            (t ++ [Step.event (Event.printed ("Database installed in "
                    ++ x.ReplaceLiteralHome sandbox_dir ++ "\n")),
                   Step.event (Event.printed
                    "run 'dbdeployer usage single' for basic instructions'\n")],
              Except.ok [])
          else (t, Except.ok [])
        else (t, Except.ok [])
      | some err => (t ++ [Step.event (Event.printed ("err: " ++ err ++ "\n"))], Except.ok [])

/-- From `common.WriteSandboxDescription` to the grant files: the description, the
catalog entry, the scripts and the SQL files of the sandbox. -/
def scripts_stage (x : Externals) (sdef : SandboxDef) (sandbox_dir : String) : List Step :=
  let ports := sdef.Port :: sdef.MorePorts
  let pre_grant_sql_file := sandbox_dir ++ "/pre_grants.sql"
  let post_grant_sql_file := sandbox_dir ++ "/post_grants.sql"
  [Step.WriteSandboxDescription sandbox_dir ports]
  ++ (if sdef.SBType = "single" then [Step.UpdateCatalog sandbox_dir ports] else [])
  ++ [Step.write_script "start" "start_template" sandbox_dir true,
      Step.write_script "status" "status_template" sandbox_dir true,
      Step.write_script "stop" "stop_template" sandbox_dir true,
      Step.write_script "clear" "clear_template" sandbox_dir true,
      Step.write_script "use" "use_template" sandbox_dir true]
  ++ (if sdef.MysqlXPort ≠ 0 then
        [Step.write_script "mysqlsh" "mysqlsh_template" sandbox_dir true]
      else [])
  ++ [Step.write_script "show_log" "show_log_template" sandbox_dir true,
      Step.write_script "send_kill" "send_kill_template" sandbox_dir true,
      Step.write_script "restart" "restart_template" sandbox_dir true,
      Step.write_script "load_grants" "load_grants_template" sandbox_dir true,
      Step.write_script "add_option" "add_option_template" sandbox_dir true,
      Step.write_script "my" "my_template" sandbox_dir true,
      Step.write_script "show_binlog" "show_binlog_template" sandbox_dir true,
      Step.write_script "show_relaylog" "show_relaylog_template" sandbox_dir true,
      Step.write_script "test_sb" "test_sb_template" sandbox_dir true,
      Step.write_script "my.sandbox.cnf" "my_cnf_template" sandbox_dir false,
      Step.write_script "grants.mysql"
        (if x.GreaterOrEqualVersion sdef.Version [8, 0, 0] then "grants_template8x"
         else if x.GreaterOrEqualVersion sdef.Version [5, 7, 6] then "grants_template57"
         else "grants_template5x") sandbox_dir false,
      Step.write_script "sb_include" "sb_include_template" sandbox_dir false]
  ++ (if sdef.PreGrantsSqlFile ≠ "" then
        [Step.CopyFile sdef.PreGrantsSqlFile pre_grant_sql_file]
      else [])
  ++ (if sdef.PostGrantsSqlFile ≠ "" then
        [Step.CopyFile sdef.PostGrantsSqlFile post_grant_sql_file]
      else [])
  ++ (if sdef.PreGrantsSql.length > 0 then
        (if x.FileExists_later pre_grant_sql_file then
          [Step.AppendStrings sdef.PreGrantsSql pre_grant_sql_file ";"]
         else [Step.WriteStrings sdef.PreGrantsSql pre_grant_sql_file ";"])
      else [])
  ++ (if sdef.PostGrantsSql.length > 0 then
        (if x.FileExists_later post_grant_sql_file then
          [Step.AppendStrings sdef.PostGrantsSql post_grant_sql_file ";"]
         else [Step.WriteStrings sdef.PostGrantsSql post_grant_sql_file ";"])
      else [])

/-- The tail of `CreateSingleSandbox`: `start` and the three `load_grants` calls, either
added to the execution list or run at once; the results of the runs are discarded by the
source. -/
def start_stage (sdef : SandboxDef) (sandbox_dir : String) (exec_list : List ExecutionList) :
    List Step × List ExecutionList :=
  if !sdef.SkipStart && sdef.RunConcurrently then
    let exec_list := exec_list ++
      [{ Priority := 2, Command := { Cmd := sandbox_dir ++ "/start", Args := [] } }]
    if sdef.LoadGrants then
      ([], ((exec_list ++
        [{ Priority := 3,
           Command := { Cmd := sandbox_dir ++ "/load_grants", Args := ["pre_grants.sql"] } }])
        ++ [{ Priority := 4,
              Command := { Cmd := sandbox_dir ++ "/load_grants", Args := [] } }])
        ++ [{ Priority := 5,
              Command := { Cmd := sandbox_dir ++ "/load_grants",
                           Args := ["post_grants.sql"] } }])
    else ([], exec_list)
  else
    if !sdef.SkipStart then
      let t := [Step.event (Event.Run_cmd (sandbox_dir ++ "/start"))]
      if sdef.LoadGrants then
        (t ++ [Step.event (Event.Run_cmd_with_args (sandbox_dir ++ "/load_grants")
                  ["pre_grants.sql"]),
               Step.event (Event.Run_cmd (sandbox_dir ++ "/load_grants")),
               Step.event (Event.Run_cmd_with_args (sandbox_dir ++ "/load_grants")
                  ["post_grants.sql"])],
          exec_list)
      else (t, exec_list)
    else ([], exec_list)

/-- The function `CreateSingleSandbox(sdef)`: the trace of what it did, and either the
fatal message or the returned `exec_list`. The template context `data`, the name of the
`mysqlsh` executable and `FixServerUuid`, which only feed the text of the files written,
are left out, as are the lines sent to the logger. -/
def CreateSingleSandbox (h : Host) (x : Externals) (sdef : SandboxDef) :
    List Step × Except String (List ExecutionList) :=
  andThen (prepare h x sdef) fun p =>
  andThen (derive_options h x p.global_tmp_dir p.sdef) fun d =>
  andThen (check_stage h d.sdef p.sandbox_dir) fun sdef =>
  andThen (init_stage h x sdef p.sandbox_dir) fun exec_list =>
  ((scripts_stage x sdef p.sandbox_dir) ++ (start_stage sdef p.sandbox_dir exec_list).1,
    Except.ok (start_stage sdef p.sandbox_dir exec_list).2)

/-! ## Concrete externals for examples -/

/-- Modelled from the spec: `common.GreaterOrEqualVersion` is not under `src/`. The spec
compares a version `major.minor.revision` with a threshold ("version ≥ 5.7.12"): the three
numbers are compared in that order; a text that is not three numbers is below every
threshold. -/
def GreaterOrEqualVersion_model (version : String) (compared_to : List Int) : Bool :=
  match (strings_Split version '.').map Atoi, compared_to with
  | [some major, some minor, some rev], [cmajor, cminor, crev] =>
    decide (major > cmajor ∨ (major = cmajor ∧ (minor > cminor ∨
      (minor = cminor ∧ rev ≥ crev))))
  | _, _ => false

/-- Modelled from the spec: `common.FindFreePort` is not under `src/`. The spec gives the
smallest port not below the base and not excluded, and a fatal end when a bounded window
holds none; the window here is the given number of candidates. -/
def FindFreePort_model : Nat → Int → List Int → Except String Int
  | 0, _, _ => Except.error "No free port found"
  | window + 1, base_port, installed_ports =>
    if installed_ports.contains base_port then
      FindFreePort_model window (base_port + 1) installed_ports
    else Except.ok base_port

/-- Externals for examples: versions and ports as the spec describes them, an empty
environment, the commands listed in `failing` end with an error, and every options file
has the given `mysqld` section. -/
def externalsOf (failing : List String) (mysqld_section : List KeyValue) : Externals where
  GreaterOrEqualVersion := GreaterOrEqualVersion_model
  FindFreePort := fun base_port installed_ports _ =>
    FindFreePort_model 100 base_port installed_ports
  MysqlXPortDelta := 10000
  SandboxPrefix := "msb_"
  VersionToName := fun v => String.mk (v.data.map fun c => if c = '.' then '_' else c)
  LogDirName := "/logs"
  NewLogger := fun dir name => dir ++ "/" ++ name ++ ".log"
  ReplaceLiteralHome := fun p => p
  Getenv := fun _ => ""
  expose_dd_tables := "set persist debug='+d,skip_dd_table_access_check';"
  ParseConfigFile := fun _ sect => if sect = "mysqld" then mysqld_section else []
  UsingDbDeployer := true
  Run_cmd_error := fun c => if failing.contains c then some "exit status 1" else none
  Run_cmd_ctrl_error := fun c => if failing.contains c then some "exit status 1" else none
  FileExists_later := fun _ => false

/-! ## Specification-side notions for `CreateSingleSandbox` -/

/-- The directory of the sandbox: `sdef.SandboxDir + "/" + sdef.DirName`, with the default
name when `DirName` is empty. -/
def sandbox_dir_of (x : Externals) (sdef : SandboxDef) : String :=
  sdef.SandboxDir ++ "/" ++ default_DirName x sdef

/-- The definitions agree on every field but those the version-gated rules may set:
`MyCnfOptions`, `InitOptions`, `PostGrantsSql`, `MorePorts`, `MysqlXPort`, `CustomMysqld`. -/
def SameExceptDerived (s t : SandboxDef) : Prop :=
  t = { s with
    MyCnfOptions := t.MyCnfOptions
    InitOptions := t.InitOptions
    PostGrantsSql := t.PostGrantsSql
    MorePorts := t.MorePorts
    MysqlXPort := t.MysqlXPort
    CustomMysqld := t.CustomMysqld }

/-- The definitions agree on every field but those the head of `CreateSingleSandbox` and
`CheckDirectory` may set: `SBType`, `LogFileName`, `Prompt`, `DirName`, `SandboxDir`,
`Port`, `InstalledPorts`. -/
def SameExceptPrepared (s t : SandboxDef) : Prop :=
  t = { s with
    SBType := t.SBType
    LogFileName := t.LogFileName
    Prompt := t.Prompt
    DirName := t.DirName
    SandboxDir := t.SandboxDir
    Port := t.Port
    InstalledPorts := t.InstalledPorts }

/-- Each of the four option lists of the first definition is a prefix of the same list of
the second. -/
def OptionsExtended (s t : SandboxDef) : Prop :=
  s.MyCnfOptions <+: t.MyCnfOptions ∧ s.InitOptions <+: t.InitOptions ∧
    s.PostGrantsSql <+: t.PostGrantsSql ∧ s.MorePorts <+: t.MorePorts

/-- The execution list the source builds with `RunConcurrently` set. -/
def planned_list (sandbox_dir : String) (SkipStart LoadGrants : Bool) : List ExecutionList :=
  [{ Priority := 0, Command := { Cmd := sandbox_dir ++ "/init_db", Args := [] } }]
  ++ (if SkipStart then []
      else
        [{ Priority := 2, Command := { Cmd := sandbox_dir ++ "/start", Args := [] } }]
        ++ (if LoadGrants then
              [{ Priority := 3, Command := { Cmd := sandbox_dir ++ "/load_grants",
                                             Args := ["pre_grants.sql"] } },
               { Priority := 4, Command := { Cmd := sandbox_dir ++ "/load_grants",
                                             Args := [] } },
               { Priority := 5, Command := { Cmd := sandbox_dir ++ "/load_grants",
                                             Args := ["post_grants.sql"] } }]
            else []))

/-- The scripts `CreateSingleSandbox` runs itself with `RunConcurrently` unset. -/
def synchronous_commands (sandbox_dir : String) (SkipStart LoadGrants : Bool) : List Step :=
  [Step.Run_cmd_ctrl (sandbox_dir ++ "/init_db") true]
  ++ (if SkipStart then []
      else
        [Step.event (Event.Run_cmd (sandbox_dir ++ "/start"))]
        ++ (if LoadGrants then
              [Step.event (Event.Run_cmd_with_args (sandbox_dir ++ "/load_grants")
                  ["pre_grants.sql"]),
               Step.event (Event.Run_cmd (sandbox_dir ++ "/load_grants")),
               Step.event (Event.Run_cmd_with_args (sandbox_dir ++ "/load_grants")
                  ["post_grants.sql"])]
            else []))

/-- A host for examples: the binaries of version 8.0.11 under `/opt/mysql/8.0.11`, a
temporary directory `/tmp`, and no sandbox yet. -/
def host_8_0_11 : Host :=
  hostOf ["/opt/mysql/8.0.11", "/tmp"] [] ["/opt/mysql/8.0.11/bin/mysqld"] []

/-- A request for examples: a single sandbox of version 8.0.11 on port 8011 under `/sb`,
with grants to load. -/
def sdef_8_0_11 : SandboxDef :=
  { zeroSandboxDef with
    Version := "8.0.11"
    Basedir := "/opt/mysql/8.0.11"
    BasedirName := "8.0.11"
    SandboxDir := "/sb"
    Port := 8011
    LoadGrants := true }


/-! ## `multi-source-replication.go`: the two multi-source topologies -/

/-- A value stored in the template context: the topologies store texts and node numbers. -/
inductive SmapValue where
  | str (s : String)
  | int (n : Int)
  deriving DecidableEq, Repr

/-- The map type `common.Smap`, as the list of its assignments, the latest first. -/
abbrev Smap := List (String × SmapValue)

/-- The read `data[key]`: the latest assignment of the key, if there is one. -/
def Smap.get (data : Smap) (key : String) : Option SmapValue :=
  match data with
  | [] => none
  | (k, v) :: rest => if k = key then some v else Smap.get rest key

/-- The assignment `data[key] = value`. -/
def Smap.set (data : Smap) (key : String) (value : SmapValue) : Smap :=
  (key, value) :: data

/-- What the two topologies use, beyond `Host` and `Externals`, of code that is not under
`src/`: the values of `defaults.Defaults()`, the contents of two entries of
`SingleTemplates`, and the function `CreateMultipleSandbox` of this package, which either
ends the process or returns the template context of the deployed nodes. Nothing is assumed
of any of them. -/
structure MultiExternals where
  FanInPrefix : String
  AllMastersPrefix : String
  FanInReplicationBasePort : Int
  AllMastersReplicationBasePort : Int
  MasterAbbr : String
  SlaveAbbr : String
  MasterName : String
  SlavePrefix : String
  NodePrefix : String
  gtid_options_57 : String
  repl_crash_safe_options : String
  CreateMultipleSandbox : SandboxDef → String → Int → Except String Smap

/-- What a topology constructor does to the outside, in order: the log it opens, the lines
it prints, the call that deploys the nodes, the scripts it writes (each with the context
its text is rendered from), and the command it runs. The lines sent to the logger are not
recorded. -/
inductive TopologyStep where
  | NewLogger (log_dir log_name : String)
  | printed (text : String)
  | CreateMultipleSandbox (sdef : SandboxDef) (origin : String) (nodes : Int)
  | write_script (name template_name directory : String) (data : Smap)
      (make_executable : Bool)
  | Run_cmd (command : String)
  deriving DecidableEq, Repr

/-- Is the step the call of `CreateMultipleSandbox`. -/
def TopologyStep.isCreate : TopologyStep → Bool
  | TopologyStep.CreateMultipleSandbox _ _ _ => true
  | _ => false

/-- Is the step the writing of a script. -/
def TopologyStep.isScript : TopologyStep → Bool
  | TopologyStep.write_script _ _ _ _ _ => true
  | _ => false

/-- The function `write_script(logger, temp_var, name, template_name, directory, data,
make_executable)` as the topologies call it: the template name is stored in the context,
which the caller shares, and the rendered text is written to `directory/name`. The result
is the step and the context after the call. -/
def write_script (name template_name directory : String) (data : Smap)
    (make_executable : Bool) : List TopologyStep × Smap :=
  let data := data.set "TemplateName" (SmapValue.str template_name)
  ([TopologyStep.write_script name template_name directory data make_executable], data)

/-- The loops `for _, slave := range slist` and `for _, master := range mlist` of
`CreateFanInReplication`: the node is stored in the context and the script
`fmt.Sprintf("s%d", slave)`, or `"m%d"`, is written from `slave_template`; `letter` is
the `s` or the `m` of the name. -/
def write_alias_scripts (letter sandbox_dir : String) :
    List Int → Smap → List TopologyStep × Smap
  | [], data => ([], data)
  | node :: rest, data =>
    let data := data.set "Node" (SmapValue.int node)
    let w := write_script (letter ++ Itoa node) "slave_template" sandbox_dir data true
    let r := write_alias_scripts letter sandbox_dir rest w.2
    (w.1 ++ r.1, r.2)

/-- The loop `for _, node := range slist` of `CreateAllMastersReplication`: the node is
stored in the context and both `s<node>` and `m<node>` are written from
`slave_template`. -/
def write_both_alias_scripts (sandbox_dir : String) :
    List Int → Smap → List TopologyStep × Smap
  | [], data => ([], data)
  | node :: rest, data =>
    let data := data.set "Node" (SmapValue.int node)
    let w1 := write_script ("s" ++ Itoa node) "slave_template" sandbox_dir data true
    let w2 := write_script ("m" ++ Itoa node) "slave_template" sandbox_dir w1.2 true
    let r := write_both_alias_scripts sandbox_dir rest w2.2
    (w1.1 ++ w2.1 ++ r.1, r.2)

/-- A run of consecutive `write_script` calls on the same directory and context, given as
the pairs of script name and template name, all executable. -/
def write_scripts (sandbox_dir : String) :
    List (String × String) → Smap → List TopologyStep × Smap
  | [], data => ([], data)
  | (name, template_name) :: rest, data =>
    let w := write_script name template_name sandbox_dir data true
    let r := write_scripts sandbox_dir rest w.2
    (w.1 ++ r.1, r.2)

/-- The end of both constructors: `if !sdef.SkipStart { fmt.Println(...);
common.Run_cmd(sandbox_dir + "/initialize_ms_nodes") }`; the result of the command is not
looked at. -/
def start_nodes (x : Externals) (SkipStart : Bool) (sandbox_dir : String) :
    List TopologyStep :=
  if !SkipStart then
    [TopologyStep.printed (x.ReplaceLiteralHome sandbox_dir ++ "/initialize_ms_nodes" ++ "\n"),
     TopologyStep.Run_cmd (sandbox_dir ++ "/initialize_ms_nodes")]
  else []

/-- The assignments `CreateFanInReplication` makes to its definition before it deploys
the nodes: the type, the log file, the two option texts, the name and base port when they
were left empty, and the directory reduced by `common.DirName`. -/
def fan_in_definition (h : Host) (x : Externals) (m : MultiExternals) (sdef : SandboxDef)
    (origin : String) : SandboxDef :=
  { sdef with
    SBType := "fan-in"
    LogFileName := x.NewLogger x.LogDirName "fan-in"
    GtidOptions := m.gtid_options_57
    ReplCrashSafeOptions := m.repl_crash_safe_options
    DirName :=
      if sdef.DirName = "" then m.FanInPrefix ++ x.VersionToName origin else sdef.DirName
    BasePort := if sdef.BasePort = 0 then m.FanInReplicationBasePort else sdef.BasePort
    SandboxDir := h.DirName sdef.SandboxDir }

/-- The function `CreateFanInReplication(sdef, origin, nodes, master_ip, master_list,
slave_list)`: the trace of what it did, and either the fatal message or a normal return.
The type assertion `data["SandboxDir"].(string)` ends the process when the context holds
no text under that key. -/
def CreateFanInReplication (h : Host) (x : Externals) (m : MultiExternals) (sdef : SandboxDef)
    (origin : String) (nodes : Int) (master_ip master_list slave_list : String) :
    List TopologyStep × Except String Unit :=
  let sandbox_dir := sdef.SandboxDir
  let sdef := fan_in_definition h x m sdef origin
  let t0 := [TopologyStep.NewLogger x.LogDirName "fan-in"]
  match nodes_list_to_int_slice master_list nodes with
  | Except.error e => (t0, Except.error e)
  | Except.ok (mlist, printed_m) =>
    let t1 := t0 ++ printed_m.map TopologyStep.printed
    match nodes_list_to_int_slice slave_list nodes with
    | Except.error e => (t1, Except.error e)
    | Except.ok (slist, printed_s) =>
      let t2 := t1 ++ printed_s.map TopologyStep.printed
      match check_node_lists nodes mlist slist with
      | Except.error e => (t2, Except.error e)
      | Except.ok () =>
        let t3 := t2 ++ [TopologyStep.CreateMultipleSandbox sdef origin nodes]
        match m.CreateMultipleSandbox sdef origin nodes with
        | Except.error e => (t3, Except.error e)
        | Except.ok data =>
          match data.get "SandboxDir" with
          | some (SmapValue.str _) =>
            let data := data.set "MasterList" (SmapValue.str (normalize_node_list master_list))
            let data := data.set "SlaveList" (SmapValue.str (normalize_node_list slave_list))
            let data := data.set "MasterAbbr" (SmapValue.str m.MasterAbbr)
            let data := data.set "MasterLabel" (SmapValue.str m.MasterName)
            let data := data.set "SlaveAbbr" (SmapValue.str m.SlaveAbbr)
            let data := data.set "SlaveLabel" (SmapValue.str m.SlavePrefix)
            let data := data.set "RplUser" (SmapValue.str sdef.RplUser)
            let data := data.set "RplPassword" (SmapValue.str sdef.RplPassword)
            let data := data.set "NodeLabel" (SmapValue.str m.NodePrefix)
            let data := data.set "MasterIp" (SmapValue.str master_ip)
            let ws := write_alias_scripts "s" sandbox_dir slist data
            let wm := write_alias_scripts "m" sandbox_dir mlist ws.2
            let wt := write_scripts sandbox_dir
              [("test_replication", "multi_source_test_template"),
               ("check_ms_nodes", "check_multi_source_template"),
               ("use_all_slaves", "multi_source_use_slaves_template"),
               ("use_all_masters", "multi_source_use_masters_template"),
               ("initialize_ms_nodes", "multi_source_template")] wm.2
            (t3 ++ ws.1 ++ wm.1 ++ wt.1 ++ start_nodes x sdef.SkipStart sandbox_dir,
              Except.ok ())
          | _ => (t3, Except.error "interface conversion: interface \x7b\x7d is not string")

/-- The assignments `CreateAllMastersReplication` makes to its definition before it
deploys the nodes. -/
def all_masters_definition (h : Host) (x : Externals) (m : MultiExternals)
    (sdef : SandboxDef) (origin : String) : SandboxDef :=
  { sdef with
    SBType := "all-masters"
    LogFileName := x.ReplaceLiteralHome (x.NewLogger x.LogDirName "all-masters")
    GtidOptions := m.gtid_options_57
    ReplCrashSafeOptions := m.repl_crash_safe_options
    DirName :=
      if sdef.DirName = "" then
        sdef.DirName ++ (m.AllMastersPrefix ++ x.VersionToName origin)
      else sdef.DirName
    SandboxDir := h.DirName sdef.SandboxDir
    BasePort :=
      if sdef.BasePort = 0 then m.AllMastersReplicationBasePort else sdef.BasePort }

/-- The function `CreateAllMastersReplication(sdef, origin, nodes, master_ip)`: the trace
of what it did, and either the fatal message or a normal return. The nodes are deployed
first; the list of all nodes is built and parsed afterwards, and `check_node_lists` is not
called. -/
def CreateAllMastersReplication (h : Host) (x : Externals) (m : MultiExternals)
    (sdef : SandboxDef) (origin : String) (nodes : Int) (master_ip : String) :
    List TopologyStep × Except String Unit :=
  let sandbox_dir := sdef.SandboxDir
  let sdef := all_masters_definition h x m sdef origin
  let t0 := [TopologyStep.NewLogger x.LogDirName "all-masters",
    TopologyStep.CreateMultipleSandbox sdef origin nodes]
  match m.CreateMultipleSandbox sdef origin nodes with
  | Except.error e => (t0, Except.error e)
  | Except.ok data =>
    match data.get "SandboxDir" with
    | some (SmapValue.str _) =>
      let master_list := make_nodes_list nodes
      match nodes_list_to_int_slice master_list nodes with
      | Except.error e => (t0, Except.error e)
      | Except.ok (slist, printed_s) =>
        let t1 := t0 ++ printed_s.map TopologyStep.printed
        let data := data.set "MasterIp" (SmapValue.str master_ip)
        let data := data.set "MasterAbbr" (SmapValue.str m.MasterAbbr)
        let data := data.set "MasterLabel" (SmapValue.str m.MasterName)
        let data := data.set "MasterList" (SmapValue.str (normalize_node_list master_list))
        let data := data.set "SlaveAbbr" (SmapValue.str m.SlaveAbbr)
        let data := data.set "SlaveLabel" (SmapValue.str m.SlavePrefix)
        let data := data.set "SlaveList" (SmapValue.str (normalize_node_list master_list))
        let data := data.set "RplUser" (SmapValue.str sdef.RplUser)
        let data := data.set "RplPassword" (SmapValue.str sdef.RplPassword)
        let data := data.set "NodeLabel" (SmapValue.str m.NodePrefix)
        let wn := write_both_alias_scripts sandbox_dir slist data
        let wt := write_scripts sandbox_dir
          [("test_replication", "multi_source_test_template"),
           ("use_all_slaves", "multi_source_use_slaves_template"),
           ("use_all_masters", "multi_source_use_masters_template"),
           ("check_ms_nodes", "check_multi_source_template"),
           ("initialize_ms_nodes", "multi_source_template")] wn.2
        (t1 ++ wn.1 ++ wt.1 ++ start_nodes x sdef.SkipStart sandbox_dir, Except.ok ())
    | _ => (t0, Except.error "interface conversion: interface \x7b\x7d is not string")

/-- The loop `for _, target := range rm_targets` of `RemoveSandbox`: an empty target is
skipped; a target is planned at priority 1 when the removal runs concurrently, and removed
on the spot otherwise, which ends the process when `rm` returns an error. -/
def remove_targets (h : Host) (x : Externals) (run_concurrently : Bool)
    (log_directory : String) :
    List String → List ExecutionList → List Event × Except String (List ExecutionList)
  | [], exec_list => ([], Except.ok exec_list)
  | target :: rest, exec_list =>
    if target = "" then remove_targets h x run_concurrently log_directory rest exec_list
    else
      let cmd_str := "rm"
      let rm_args := ["-rf", target]
      if run_concurrently then
        remove_targets h x run_concurrently log_directory rest
          (exec_list ++ [{ Priority := 1, Command := { Cmd := cmd_str, Args := rm_args } }])
      else
        let cmd_str := rm_args.foldl (fun c item => c ++ (" " ++ item)) cmd_str
        let t1 :=
          (if x.UsingDbDeployer ∧ target ≠ log_directory then
            [Event.printed ("Running " ++ cmd_str ++ "\n")]
           else []) ++ [Event.Run_cmd_with_args "rm" rm_args]
        if !h.Run_cmd_with_args_ok "rm" rm_args then
          (t1, Except.error ("Error while deleting directory " ++ target))
        else
          let t2 := t1 ++
            (if x.UsingDbDeployer ∧ target ≠ log_directory then
              [Event.printed ("Directory " ++ target ++ " deleted\n")]
             else [])
          let r := remove_targets h x run_concurrently log_directory rest exec_list
          (t2 ++ r.1, r.2)

/-- The function `RemoveSandbox(sandbox_dir, sandbox, run_concurrently)`: the trace of
what was printed and run, and either the fatal message or the returned execution list. A
command run here ends the process when it returns an error. -/
def RemoveSandbox (h : Host) (x : Externals) (sandbox_dir sandbox : String)
    (run_concurrently : Bool) : List Event × Except String (List ExecutionList) :=
  let full_path := sandbox_dir ++ "/" ++ sandbox
  if !h.DirExists full_path then
    ([], Except.error ("Directory '" ++ full_path ++ "' not found"))
  else
    let preserve := full_path ++ "/no_clear_all"
    let preserve := if !h.ExecExists preserve then full_path ++ "/no_clear" else preserve
    if h.ExecExists preserve then
      ([Event.printed ("The sandbox " ++ sandbox ++ " is locked\n"),
        Event.printed "You need to unlock it with \"dbdeployer admin unlock\"\n"],
       Except.ok [])
    else
      let log_directory := getLogDirFromSbDescription h full_path
      let stop := full_path ++ "/stop_all"
      let stop := if !h.ExecExists stop then full_path ++ "/stop" else stop
      if !h.ExecExists stop then
        ([], Except.error ("Executable '" ++ stop ++ "' not found"))
      else
        let stopped : List Event × Except String (List ExecutionList) :=
          if run_concurrently then
            ([], Except.ok [{ Priority := 0, Command := { Cmd := stop, Args := [] } }])
          else
            ((if x.UsingDbDeployer then [Event.printed ("Running " ++ stop ++ "\n")] else [])
              ++ [Event.Run_cmd stop],
             match x.Run_cmd_error stop with
             | some _ => Except.error ("Error while stopping sandbox " ++ full_path)
             | none => Except.ok [])
        match stopped.2 with
        | Except.error e => (stopped.1, Except.error e)
        | Except.ok exec_list =>
          let r := remove_targets h x run_concurrently log_directory
            [full_path, log_directory] exec_list
          (stopped.1 ++ r.1, r.2)

/-! ## Examples and specification-side notions for the topologies and the removal -/

/-- Collaborators for examples: the names and ports of a default installation, and a
deployment of the nodes that returns a context holding the directory of the topology. -/
def multiExternalsOf : MultiExternals where
  FanInPrefix := "fan_in_msb_"
  AllMastersPrefix := "all_masters_msb_"
  FanInReplicationBasePort := 14000
  AllMastersReplicationBasePort := 15000
  MasterAbbr := "m"
  SlaveAbbr := "s"
  MasterName := "master"
  SlavePrefix := "slave"
  NodePrefix := "node"
  gtid_options_57 := "gtid_mode=ON"
  repl_crash_safe_options := "relay-log-recovery=on"
  CreateMultipleSandbox := fun sdef _ _ =>
    Except.ok [("SandboxDir", SmapValue.str (sdef.SandboxDir ++ "/" ++ sdef.DirName))]

/-- The alias scripts of a trace, in order: of every script written from `slave_template`,
its name and the node its context holds. -/
def alias_scripts : List TopologyStep → List (String × Option SmapValue)
  | [] => []
  | TopologyStep.write_script name template_name _ data _ :: rest =>
    if template_name = "slave_template" then (name, data.get "Node") :: alias_scripts rest
    else alias_scripts rest
  | _ :: rest => alias_scripts rest

/-- The contexts of the scripts of a trace, in order. -/
def script_contexts : List TopologyStep → List Smap
  | [] => []
  | TopologyStep.write_script _ _ _ data _ :: rest => data :: script_contexts rest
  | _ :: rest => script_contexts rest

/-- The list `[1, 2, ..., N]` of node numbers. -/
def all_nodes (N : Nat) : List Int :=
  (List.range' 1 N).map fun i : Nat => (i : Int)

/-- The stop command of a removal: `stop_all` when it is executable, `stop` otherwise. -/
def removal_stop (h : Host) (full_path : String) : String :=
  if h.ExecExists (full_path ++ "/stop_all") then full_path ++ "/stop_all"
  else full_path ++ "/stop"

/-- The plan of a concurrent removal: the stop command at priority 0, the removal of the
sandbox at priority 1, and the removal of the log directory at priority 1 when one was
recovered from the description of the sandbox. -/
def removal_plan (h : Host) (full_path : String) : List ExecutionList :=
  [{ Priority := 0, Command := { Cmd := removal_stop h full_path, Args := [] } },
   { Priority := 1, Command := { Cmd := "rm", Args := ["-rf", full_path] } }] ++
  (if getLogDirFromSbDescription h full_path ≠ "" then
    [{ Priority := 1,
       Command := { Cmd := "rm", Args := ["-rf", getLogDirFromSbDescription h full_path] } }]
   else [])

/-! ## Specification-side notions for the derivation applied twice -/

/-- The port `set_mysqlx_properties` settles on: `sdef.MysqlXPort` when that is not 0, and
otherwise the port `common.FindFreePort` allocates, which may end the process. -/
def mysqlx_port (x : Externals) (sdef : SandboxDef) : Except String Int :=
  if sdef.MysqlXPort = 0 then
    x.FindFreePort (sdef.Port + x.MysqlXPortDelta) sdef.InstalledPorts 1
  else Except.ok sdef.MysqlXPort

/-- The four lists of the second definition are the lists of the first, each followed by
the given entries. -/
def Appended (s r : SandboxDef) (cnf init post : List String) (ports : List Int) : Prop :=
  r.MyCnfOptions = s.MyCnfOptions ++ cnf ∧ r.InitOptions = s.InitOptions ++ init ∧
    r.PostGrantsSql = s.PostGrantsSql ++ post ∧ r.MorePorts = s.MorePorts ++ ports

/-- The entries the general-log and native-authentication rules append to `InitOptions`
for a definition. -/
def appended_InitOptions (x : Externals) (sdef : SandboxDef) : List String :=
  (if x.GreaterOrEqualVersion sdef.Version [5, 1, 0] = true ∧ sdef.InitGeneralLog = true then
    ["--general_log=1"] else []) ++
  (if x.GreaterOrEqualVersion sdef.Version [8, 0, 4] = true ∧ sdef.NativeAuthPlugin = true then
    ["--default_authentication_plugin=mysql_native_password"] else [])

/-- The entries the expose-tables rule appends to `PostGrantsSql` for a definition. -/
def appended_PostGrantsSql (x : Externals) (sdef : SandboxDef) : List String :=
  if sdef.ExposeDdTables = true then [x.expose_dd_tables] else []

/-- A host for examples: the binaries of version 8.0.11 with the debug server, the debug
plugin directory present or not. -/
def host_debug (plugin_debug_dir : Bool) : Host :=
  hostOf
    (["/opt/mysql/8.0.11", "/tmp"] ++
      (if plugin_debug_dir then ["/opt/mysql/8.0.11/lib/plugin/debug"] else []))
    [] ["/opt/mysql/8.0.11/bin/mysqld", "/opt/mysql/8.0.11/bin/mysqld-debug",
        "/opt/mysql/8.0.11/bin/mysqld-mine"] []

/-- A request for examples: version 8.0.11 with the data dictionary tables exposed. -/
def sdef_expose : SandboxDef := { sdef_8_0_11 with ExposeDdTables := true }

/-- The custom executable in force once the expose-tables rule has run: `mysqld-debug` when
`ExposeDdTables` is requested, else the `CustomMysqld` of the request. -/
def forced_CustomMysqld (sdef : SandboxDef) : String :=
  if sdef.ExposeDdTables = true then "mysqld-debug" else sdef.CustomMysqld

/-- A request for examples: version 8.0.11 without the extension interface, with a plugin
loaded by an explicit option. -/
def sdef_plugin : SandboxDef :=
  { sdef_8_0_11 with MyCnfOptions := ["plugin-load=foo.so"], DisableMysqlX := true }

/-! # Theorems -/

/-! ## Lemmas on `check_node_lists` -/

theorem except_unit_error_iff (r : Except String Unit) :
    (∃ e, r = Except.error e) ↔ r ≠ Except.ok () := by
  cases r with
  | error e => simp
  | ok u => cases u; simp

theorem check_greater_ok_iff (role : String) (nodes : Int) (l : List Int) :
    check_greater role nodes l = Except.ok () ↔ ∀ N ∈ l, N ≤ nodes := by
  induction l with
  | nil => simp [check_greater]
  | cons a rest ih =>
    by_cases h : a > nodes
    · simp only [check_greater, if_pos h, List.mem_cons, forall_eq_or_imp]
      constructor
      · intro hc; cases hc
      · intro hc; omega
    · simp only [check_greater, if_neg h, List.mem_cons, forall_eq_or_imp, ih]
      constructor
      · intro hc; exact ⟨by omega, hc⟩
      · intro hc; exact hc.2

theorem check_overlap_inner_ok_iff (M : Int) (slist : List Int) :
    check_overlap_inner M slist = Except.ok () ↔ M ∉ slist := by
  induction slist with
  | nil => simp [check_overlap_inner]
  | cons a rest ih =>
    by_cases h : a = M
    · simp [check_overlap_inner, h]
    · have h2 : ¬ M = a := fun e => h e.symm
      simp [check_overlap_inner, h, h2, ih]

theorem check_overlap_ok_iff (slist mlist : List Int) :
    check_overlap slist mlist = Except.ok () ↔ ∀ M ∈ mlist, M ∉ slist := by
  induction mlist with
  | nil => simp [check_overlap]
  | cons a rest ih =>
    simp only [check_overlap, List.mem_cons, forall_eq_or_imp]
    cases hin : check_overlap_inner a slist with
    | error e =>
      have : ¬ a ∉ slist := by
        rw [← check_overlap_inner_ok_iff, hin]; simp
      simp [this]
    | ok u =>
      cases u
      have : a ∉ slist := (check_overlap_inner_ok_iff a slist).1 hin
      simp [this, ih]

theorem check_node_lists_ok_iff (nodes : Int) (mlist slist : List Int) :
    check_node_lists nodes mlist slist = Except.ok () ↔
      (∀ N ∈ mlist, N ≤ nodes) ∧ (∀ N ∈ slist, N ≤ nodes) ∧ (∀ M ∈ mlist, M ∉ slist) ∧
        (mlist.length : Int) + (slist.length : Int) = nodes := by
  rw [← check_greater_ok_iff "Master", ← check_greater_ok_iff "Slave",
    ← check_overlap_ok_iff]
  unfold check_node_lists
  cases h1 : check_greater "Master" nodes mlist with
  | error e => simp
  | ok u1 =>
    cases u1
    cases h2 : check_greater "Slave" nodes slist with
    | error e => simp
    | ok u2 =>
      cases u2
      cases h3 : check_overlap slist mlist with
      | error e => simp
      | ok u3 =>
        cases u3
        by_cases h4 : (mlist.length : Int) + (slist.length : Int) = nodes
        · simp [h4]
        · simp [h4]

/-- C1: `check_node_lists(nodes, mlist, slist)` ends fatally if and only if some entry of
`mlist` is greater than `nodes`, or some entry of `slist` is greater than `nodes`, or some
value occurs in both lists, or `len(mlist)+len(slist) != nodes`; on every other input it
returns normally. -/
theorem check_node_lists_fatal_iff (nodes : Int) (mlist slist : List Int) :
    ((∃ e, check_node_lists nodes mlist slist = Except.error e) ↔
      ((∃ N ∈ mlist, N > nodes) ∨ (∃ N ∈ slist, N > nodes) ∨ (∃ v, v ∈ mlist ∧ v ∈ slist) ∨
        (mlist.length : Int) + (slist.length : Int) ≠ nodes)) ∧
    (check_node_lists nodes mlist slist = Except.ok () ↔
      ¬ ((∃ N ∈ mlist, N > nodes) ∨ (∃ N ∈ slist, N > nodes) ∨
        (∃ v, v ∈ mlist ∧ v ∈ slist) ∨
        (mlist.length : Int) + (slist.length : Int) ≠ nodes)) := by
  have key : check_node_lists nodes mlist slist = Except.ok () ↔
      ¬ ((∃ N ∈ mlist, N > nodes) ∨ (∃ N ∈ slist, N > nodes) ∨
        (∃ v, v ∈ mlist ∧ v ∈ slist) ∨
        (mlist.length : Int) + (slist.length : Int) ≠ nodes) := by
    rw [check_node_lists_ok_iff]
    simp only [not_or, not_exists, not_and, gt_iff_lt, not_lt, ne_eq, not_not]
  refine ⟨?_, key⟩
  rw [except_unit_error_iff, Ne, key, not_not]

/-! ## Partitions of the node numbers -/

/-- Two duplicate-free disjoint lists whose entries are exactly the numbers `1..N` have
`N` entries in all. -/
theorem partition_length (N : Int) (masters slaves : List Int)
    (hm : masters.Nodup) (hs : slaves.Nodup) (hd : ∀ v ∈ masters, v ∉ slaves)
    (hu : ∀ v, (v ∈ masters ∨ v ∈ slaves) ↔ (1 ≤ v ∧ v ≤ N)) (hN : 0 ≤ N) :
    (masters.length : Int) + (slaves.length : Int) = N := by
  have hnd : (masters ++ slaves).Nodup := by
    rw [List.nodup_append]
    exact ⟨hm, hs, fun a ha hb => hd a ha hb⟩
  have hfin : (masters ++ slaves).toFinset = Finset.Icc 1 N := by
    ext v
    simp only [List.mem_toFinset, List.mem_append, Finset.mem_Icc]
    exact hu v
  have hcard : (masters ++ slaves).length = (N + 1 - 1).toNat := by
    rw [← List.toFinset_card_of_nodup hnd, hfin, Int.card_Icc]
  rw [List.length_append] at hcard
  have h2 : ((masters.length + slaves.length : Nat) : Int) = N := by
    rw [hcard]
    simp only [add_sub_cancel_right]
    exact Int.toNat_of_nonneg hN
  push_cast at h2
  exact h2

/-- Two duplicate-free disjoint lists with entries in `1..N` and `N` entries in all
cover `1..N`. -/
theorem covers_of_length (N : Int) (masters slaves : List Int)
    (hm : masters.Nodup) (hs : slaves.Nodup) (hd : ∀ v ∈ masters, v ∉ slaves)
    (hlow : ∀ v, v ∈ masters ∨ v ∈ slaves → 1 ≤ v)
    (hup : ∀ v, v ∈ masters ∨ v ∈ slaves → v ≤ N)
    (hlen : (masters.length : Int) + (slaves.length : Int) = N) :
    ∀ v, (v ∈ masters ∨ v ∈ slaves) ↔ (1 ≤ v ∧ v ≤ N) := by
  have hnd : (masters ++ slaves).Nodup := by
    rw [List.nodup_append]
    exact ⟨hm, hs, fun a ha hb => hd a ha hb⟩
  have hsub : (masters ++ slaves).toFinset ⊆ Finset.Icc 1 N := by
    intro v hv
    simp only [List.mem_toFinset, List.mem_append] at hv
    simp only [Finset.mem_Icc]
    exact ⟨hlow v hv, hup v hv⟩
  have hcard : (Finset.Icc 1 N).card ≤ (masters ++ slaves).toFinset.card := by
    rw [List.toFinset_card_of_nodup hnd, Int.card_Icc, List.length_append]
    omega
  have heq := Finset.eq_of_subset_of_card_le hsub hcard
  intro v
  have := congrArg (fun s => v ∈ s) heq
  simpa only [List.mem_toFinset, List.mem_append, Finset.mem_Icc, eq_iff_iff] using this

/-- C2: for every `N >= 2` and all duplicate-free lists `masters`, `slaves` that are
disjoint and whose union is exactly `{1..N}`, `check_node_lists(N, masters, slaves)`
returns without a fatal error; and on every input where the lists share a value or where
`len(masters)+len(slaves) != N` it ends fatally. -/
theorem check_node_lists_partition (N : Int) (masters slaves : List Int) :
    (2 ≤ N → masters.Nodup → slaves.Nodup → (∀ v ∈ masters, v ∉ slaves) →
      (∀ v, (v ∈ masters ∨ v ∈ slaves) ↔ (1 ≤ v ∧ v ≤ N)) →
      check_node_lists N masters slaves = Except.ok ()) ∧
    (((∃ v, v ∈ masters ∧ v ∈ slaves) ∨
        (masters.length : Int) + (slaves.length : Int) ≠ N) →
      ∃ e, check_node_lists N masters slaves = Except.error e) := by
  constructor
  · intro hN hm hs hd hu
    rw [check_node_lists_ok_iff]
    refine ⟨fun v hv => ((hu v).1 (Or.inl hv)).2, fun v hv => ((hu v).1 (Or.inr hv)).2,
      hd, partition_length N masters slaves hm hs hd hu (by omega)⟩
  · intro hbad
    rw [except_unit_error_iff, Ne, check_node_lists_ok_iff]
    rintro ⟨-, -, hd, hlen⟩
    rcases hbad with ⟨v, hv1, hv2⟩ | hne
    · exact hd v hv1 hv2
    · exact hne hlen

/-- Witness for C2: the partition `[1]`, `[2,3]` of three nodes is accepted, and the
overlapping lists `[1,2]`, `[2,3]` are rejected. -/
theorem check_node_lists_partition_witness :
    check_node_lists 3 [1] [2, 3] = Except.ok () ∧
      ∃ e, check_node_lists 3 [1, 2] [2, 3] = Except.error e :=
  ⟨(check_node_lists_partition 3 [1] [2, 3]).1 (by decide) (by decide) (by decide)
      (by decide) (by
        intro v
        simp only [List.mem_cons, List.mem_singleton, List.not_mem_nil, or_false]
        omega),
    (check_node_lists_partition 3 [1, 2] [2, 3]).2 (Or.inl ⟨2, by decide, by decide⟩)⟩

/-- C3, as stated, fails: with three nodes the lists `[1,1]` and `[3]` (the expressions
`"1,1"` and `"3"`) are accepted although node 2 is in neither list. -/
theorem check_node_lists_accepts_non_partition :
    check_node_lists 3 [1, 1] [3] = Except.ok () ∧
      ¬ (∀ v : Int, (v ∈ [1, 1] ∨ v ∈ [3]) ↔ (1 ≤ v ∧ v ≤ 3)) := by
  refine ⟨by decide, ?_⟩
  intro h
  have := (h 2).2 (by decide)
  revert this
  decide

/-- C3, amended: whenever `check_node_lists(N, masters, slaves)` accepts, no entry is
greater than `N`, no value is in both lists and the lengths add up to `N`; if moreover
neither list repeats a value and every entry is at least 1, the union of the two lists is
exactly `{1..N}`. -/
theorem check_node_lists_accepts_imp (N : Int) (masters slaves : List Int)
    (hok : check_node_lists N masters slaves = Except.ok ()) :
    (∀ v, v ∈ masters ∨ v ∈ slaves → v ≤ N) ∧
    (∀ v, ¬ (v ∈ masters ∧ v ∈ slaves)) ∧
    (masters.length : Int) + (slaves.length : Int) = N ∧
    (masters.Nodup → slaves.Nodup → (∀ v, v ∈ masters ∨ v ∈ slaves → 1 ≤ v) →
      ∀ v, (v ∈ masters ∨ v ∈ slaves) ↔ (1 ≤ v ∧ v ≤ N)) := by
  rw [check_node_lists_ok_iff] at hok
  obtain ⟨h1, h2, h3, h4⟩ := hok
  have hup : ∀ v, v ∈ masters ∨ v ∈ slaves → v ≤ N := by
    intro v hv
    rcases hv with hv | hv
    · exact h1 v hv
    · exact h2 v hv
  refine ⟨hup, fun v hv => h3 v hv.1 hv.2, h4, ?_⟩
  intro hm hs hlow
  exact covers_of_length N masters slaves hm hs h3 hlow hup h4

/-- Witness for the amended C3 at the accepted partition `[1]`, `[2,3]` of three nodes. -/
theorem check_node_lists_accepts_imp_witness :
    check_node_lists 3 [1] [2, 3] = Except.ok () ∧
      (∀ v : Int, (v ∈ [1] ∨ v ∈ [2, 3]) ↔ (1 ≤ v ∧ v ≤ 3)) :=
  ⟨by decide,
    (check_node_lists_accepts_imp 3 [1] [2, 3] (by decide)).2.2.2 (by decide) (by decide)
      (by
        intro v
        simp only [List.mem_cons, List.mem_singleton, List.not_mem_nil, or_false]
        omega)⟩

/-! ## Decimal rendering and `strconv.Atoi` -/

theorem digitVal_digitChar (d : Nat) (hd : d < 10) :
    digitVal (Nat.digitChar d) = some d ∧ isDecimal (Nat.digitChar d) := by
  unfold isDecimal
  interval_cases d <;> decide

theorem parseDigits_append (a b : List Char) (acc : Nat) :
    parseDigits (a ++ b) acc = (parseDigits a acc).bind (parseDigits b) := by
  induction a generalizing acc with
  | nil => simp [parseDigits]
  | cons c cs ih =>
    simp only [List.cons_append, parseDigits]
    cases digitVal c with
    | none => simp
    | some d => simp [ih]

theorem toDigitsCore_spec (fuel : Nat) :
    ∀ (n : Nat) (ds : List Char), n < fuel →
      ∃ pre, Nat.toDigitsCore 10 fuel n ds = pre ++ ds ∧ pre ≠ [] ∧
        (∀ c ∈ pre, isDecimal c) ∧
        ∀ acc, parseDigits pre acc = some (acc * 10 ^ pre.length + n) := by
  induction fuel with
  | zero => intro n ds h; omega
  | succ fuel ih =>
    intro n ds hn
    have hd := digitVal_digitChar (n % 10) (Nat.mod_lt _ (by decide))
    by_cases h0 : n / 10 = 0
    · refine ⟨[Nat.digitChar (n % 10)], ?_, by simp, ?_, ?_⟩
      · simp [Nat.toDigitsCore, h0]
      · intro c hc
        simp only [List.mem_singleton] at hc
        subst hc
        exact hd.2
      · intro acc
        simp only [parseDigits, hd.1, List.length_singleton, pow_one]
        congr 1
        have := Nat.div_add_mod n 10
        omega
    · have hlt : n / 10 < fuel := by omega
      obtain ⟨pre, hpre, -, hdec, hval⟩ := ih (n / 10) (Nat.digitChar (n % 10) :: ds) hlt
      refine ⟨pre ++ [Nat.digitChar (n % 10)], ?_, by simp, ?_, ?_⟩
      · simp [Nat.toDigitsCore, h0, hpre]
      · intro c hc
        simp only [List.mem_append, List.mem_singleton] at hc
        rcases hc with hc | hc
        · exact hdec c hc
        · subst hc; exact hd.2
      · intro acc
        rw [parseDigits_append, hval]
        simp only [Option.some_bind, parseDigits, hd.1, List.length_append,
          List.length_singleton]
        congr 1
        have := Nat.div_add_mod n 10
        rw [pow_succ]
        nlinarith [this]

theorem toDigits_spec (n : Nat) :
    Nat.toDigits 10 n ≠ [] ∧ (∀ c ∈ Nat.toDigits 10 n, isDecimal c) ∧
      parseDigits (Nat.toDigits 10 n) 0 = some n := by
  obtain ⟨pre, hpre, hne, hdec, hval⟩ := toDigitsCore_spec (n + 1) n [] (by omega)
  simp only [List.append_nil] at hpre
  unfold Nat.toDigits
  rw [hpre]
  refine ⟨hne, hdec, ?_⟩
  rw [hval]
  simp

/-- Characters of the rendering of a natural number are decimal digits. -/
theorem Itoa_ofNat_data (n : Nat) : (Itoa (n : Int)).data = Nat.toDigits 10 n := rfl

/-- `Atoi` undoes `Itoa` on the natural numbers that fit a 64-bit `int`. -/
theorem Atoi_Itoa_ofNat (n : Nat) (hn : n < 2 ^ 63) : Atoi (Itoa (n : Int)) = some (n : Int) := by
  obtain ⟨hne, hdec, hval⟩ := toDigits_spec n
  have hdata : (Itoa (n : Int)).data = Nat.toDigits 10 n := rfl
  unfold Atoi
  rw [hdata]
  cases hl : Nat.toDigits 10 n with
  | nil => exact absurd hl hne
  | cons c cs =>
    have hc : isDecimal c := hdec c (by rw [hl]; exact List.mem_cons_self _ _)
    have hminus : c ≠ '-' := by
      intro h; subst h; revert hc; unfold isDecimal; decide
    have hplus : c ≠ '+' := by
      intro h; subst h; revert hc; unfold isDecimal; decide
    rw [hl] at hval
    have hbody : (match c :: cs with
      | '-' :: r => r
      | '+' :: r => r
      | r => r) = c :: cs := by
      split
      · rename_i heq; cases heq; exact absurd rfl hminus
      · rename_i heq; cases heq; exact absurd rfl hplus
      · rfl
    have hneg : (match c :: cs with
      | '-' :: _ => true
      | _ => false) = false := by
      split
      · rename_i heq; cases heq; exact absurd rfl hminus
      · rfl
    have hn2 : n < 9223372036854775808 := by norm_num at hn; exact hn
    simp only [hbody, hneg, hval]
    simp [hn2]

/-! ## `strconv.Atoi` accepts exactly the integer literals -/

theorem digitVal_eq_some_iff (c : Char) (d : Nat) :
    digitVal c = some d ↔ isDecimal c ∧ d = c.toNat - 48 := by
  unfold digitVal isDecimal
  by_cases h : 48 ≤ c.toNat ∧ c.toNat ≤ 57
  · simp [h, eq_comm]
  · simp [h]

theorem parseDigits_eq_some_iff (ds : List Char) (acc v : Nat) :
    parseDigits ds acc = some v ↔
      (∀ c ∈ ds, isDecimal c) ∧ v = ds.foldl (fun n c => n * 10 + (c.toNat - 48)) acc := by
  induction ds generalizing acc with
  | nil => simp [parseDigits, eq_comm]
  | cons c cs ih =>
    simp only [parseDigits, List.mem_cons, forall_eq_or_imp, List.foldl_cons]
    cases hd : digitVal c with
    | none =>
      have : ¬ isDecimal c := by
        intro hc
        have := (digitVal_eq_some_iff c (c.toNat - 48)).2 ⟨hc, rfl⟩
        rw [hd] at this
        cases this
      simp [this]
    | some d =>
      obtain ⟨hc, rfl⟩ := (digitVal_eq_some_iff c d).1 hd
      simp [ih, hc]

/-- The body and sign `strconv.Atoi` works on, by the first character. -/
theorem Atoi_eq (s : String) :
    Atoi s =
      match s.data with
      | [] => none
      | c :: r =>
        if c = '-' then
          (if r = [] then none else
            match parseDigits r 0 with
            | none => none
            | some n => if n ≤ 2 ^ 63 then some (-(n : Int)) else none)
        else if c = '+' then
          (if r = [] then none else
            match parseDigits r 0 with
            | none => none
            | some n => if n < 2 ^ 63 then some (n : Int) else none)
        else
          match parseDigits (c :: r) 0 with
          | none => none
          | some n => if n < 2 ^ 63 then some (n : Int) else none := by
  unfold Atoi
  cases hs : s.data with
  | nil => simp
  | cons c r =>
    by_cases hm : c = '-'
    · subst hm; simp
    · by_cases hp : c = '+'
      · subst hp; simp
      · have hbody : (match c :: r with
          | '-' :: r => r
          | '+' :: r => r
          | r => r) = c :: r := by
          split
          · rename_i heq; cases heq; exact absurd rfl hm
          · rename_i heq; cases heq; exact absurd rfl hp
          · rfl
        have hneg : (match c :: r with
          | '-' :: _ => true
          | _ => false) = false := by
          split
          · rename_i heq; cases heq; exact absurd rfl hm
          · rfl
        simp only [hbody, hneg, hm, hp, if_false]
        simp

theorem not_isDecimal_sign : ¬ isDecimal '-' ∧ ¬ isDecimal '+' := by
  unfold isDecimal; decide

/-- `strconv.Atoi` returns without error exactly on the integer literals. -/
theorem Atoi_ne_none_iff (s : String) : Atoi s ≠ none ↔ IsIntLiteral s := by
  rw [Atoi_eq]
  unfold IsIntLiteral decimalValue
  cases hs : s.data with
  | nil =>
    simp only [ne_eq, not_true_eq_false, false_iff]
    rintro ⟨sign, ds, h, -, hne, -⟩
    have := List.append_eq_nil.1 h.symm
    exact hne this.2
  | cons c r =>
    simp only
    by_cases hm : c = '-'
    · subst hm
      simp only [if_true]
      constructor
      · intro h
        by_cases hr : r = []
        · simp [hr] at h
        · simp only [hr, if_false] at h
          cases hp : parseDigits r 0 with
          | none => simp [hp] at h
          | some n =>
            obtain ⟨hdec, hv⟩ := (parseDigits_eq_some_iff r 0 n).1 hp
            by_cases hn : n ≤ 2 ^ 63
            · refine ⟨['-'], r, rfl, Or.inr (Or.inr rfl), hr, hdec, ?_, ?_⟩
              · intro _; rw [← hv]; exact hn
              · intro hc; exact absurd rfl hc
            · simp [hp] at h; omega
      · rintro ⟨sign, ds, h, hsign, hne, hdec, hneg, hpos⟩
        rcases hsign with rfl | rfl | rfl
        · simp only [List.nil_append] at h
          have := hdec '-' (by rw [← h]; exact List.mem_cons_self _ _)
          exact absurd this not_isDecimal_sign.1
        · simp at h
        · simp only [List.singleton_append, List.cons.injEq, true_and] at h
          subst h
          have hp := (parseDigits_eq_some_iff r 0 _).2 ⟨hdec, rfl⟩
          have hv := hneg rfl
          simp at hv
          simp [hne, hp]
          omega
    · by_cases hp : c = '+'
      · subst hp
        simp only [hm, if_false, if_true]
        constructor
        · intro h
          by_cases hr : r = []
          · simp [hr] at h
          · simp only [hr, if_false] at h
            cases hpd : parseDigits r 0 with
            | none => simp [hpd] at h
            | some n =>
              obtain ⟨hdec, hv⟩ := (parseDigits_eq_some_iff r 0 n).1 hpd
              by_cases hn : n < 2 ^ 63
              · refine ⟨['+'], r, rfl, Or.inr (Or.inl rfl), hr, hdec, ?_, ?_⟩
                · intro hc; simp at hc
                · intro _; rw [← hv]; exact hn
              · simp [hpd] at h; omega
        · rintro ⟨sign, ds, h, hsign, hne, hdec, hneg, hpos⟩
          rcases hsign with rfl | rfl | rfl
          · simp only [List.nil_append] at h
            have := hdec '+' (by rw [← h]; exact List.mem_cons_self _ _)
            exact absurd this not_isDecimal_sign.2
          · simp only [List.singleton_append, List.cons.injEq, true_and] at h
            subst h
            have hpd := (parseDigits_eq_some_iff r 0 _).2 ⟨hdec, rfl⟩
            have hv := hpos (by simp)
            simp at hv
            simp [hne, hpd]
            omega
          · simp at h
      · simp only [hm, hp, if_false]
        constructor
        · intro h
          cases hpd : parseDigits (c :: r) 0 with
          | none => simp [hpd] at h
          | some n =>
            obtain ⟨hdec, hv⟩ := (parseDigits_eq_some_iff (c :: r) 0 n).1 hpd
            by_cases hn : n < 2 ^ 63
            · refine ⟨[], c :: r, rfl, Or.inl rfl, by simp, hdec, ?_, ?_⟩
              · intro hc; simp at hc
              · intro _; rw [← hv]; exact hn
            · simp [hpd] at h; omega
        · rintro ⟨sign, ds, h, hsign, hne, hdec, hneg, hpos⟩
          rcases hsign with rfl | rfl | rfl
          · simp only [List.nil_append] at h
            subst h
            have hpd := (parseDigits_eq_some_iff (c :: r) 0 _).2 ⟨hdec, rfl⟩
            have hv := hpos (by simp)
            simp at hv
            simp [hpd]
            omega
          · simp only [List.singleton_append, List.cons.injEq] at h
            exact absurd h.1 hp
          · simp only [List.singleton_append, List.cons.injEq] at h
            exact absurd h.1 hm

/-! ## `common.Includes` on one-character patterns, splitting and joining -/

theorem matchAnywhere_lit (c : Char) (l : List Char) :
    matchAnywhere [Atom.lit c] l = decide (c ∈ l) := by
  induction l with
  | nil => simp [matchAnywhere, matchPrefix]
  | cons d ds ih =>
    simp only [matchAnywhere, matchPrefix, Atom.accepts, ih, List.mem_cons]
    by_cases h : c = d
    · simp [h]
    · simp [h]

theorem Includes_comma (s : String) : Includes s "," = decide (',' ∈ s.data) :=
  matchAnywhere_lit ',' s.data

theorem Includes_colon (s : String) : Includes s ":" = decide (':' ∈ s.data) :=
  matchAnywhere_lit ':' s.data

theorem Includes_semicolon (s : String) : Includes s ";" = decide (';' ∈ s.data) :=
  matchAnywhere_lit ';' s.data

theorem Includes_period (s : String) : Includes s "\\." = decide ('.' ∈ s.data) :=
  matchAnywhere_lit '.' s.data

/-- The separator is the first of comma, colon, semicolon, period that occurs in the
expression, and the space when none occurs. -/
theorem choose_separator_eq (s : String) :
    choose_separator s =
      if ',' ∈ s.data then ','
      else if ':' ∈ s.data then ':'
      else if ';' ∈ s.data then ';'
      else if '.' ∈ s.data then '.'
      else ' ' := by
  unfold choose_separator
  simp only [Includes_comma, Includes_colon, Includes_semicolon, Includes_period,
    decide_eq_true_eq]

theorem mem_intercalate_sep (sep c : Char) (ls : List (List Char))
    (hc : c ∈ [sep].intercalate ls) : c = sep ∨ ∃ l ∈ ls, c ∈ l := by
  induction ls with
  | nil => simp [List.intercalate] at hc
  | cons a rest ih =>
    cases rest with
    | nil =>
      simp only [List.intercalate, List.intersperse, List.flatten, List.append_nil] at hc
      exact Or.inr ⟨a, List.mem_cons_self _ _, hc⟩
    | cons b rest2 =>
      simp only [List.intercalate, List.intersperse_cons_cons, List.flatten,
        List.mem_append, List.mem_singleton] at hc
      rcases hc with hc | hc | hc
      · exact Or.inr ⟨a, List.mem_cons_self _ _, hc⟩
      · exact Or.inl hc
      · rcases ih hc with h | ⟨l, hl, hcl⟩
        · exact Or.inl h
        · exact Or.inr ⟨l, List.mem_cons_of_mem _ hl, hcl⟩

theorem isDecimal_ne_separator (c : Char) (hc : isDecimal c) :
    c ≠ ',' ∧ c ≠ ':' ∧ c ≠ ';' ∧ c ≠ '.' ∧ c ≠ ' ' := by
  unfold isDecimal at hc
  refine ⟨?_, ?_, ?_, ?_, ?_⟩ <;> (intro h; subst h; revert hc; decide)

/-- Splitting a joined list of digit strings on the separator the source chooses gives
back the digit strings. -/
theorem splitOn_choose_separator (ls : List (List Char)) (sep : Char) (hne : ls ≠ [])
    (hdec : ∀ l ∈ ls, ∀ c ∈ l, isDecimal c)
    (hsep : sep = ',' ∨ sep = ':' ∨ sep = ';' ∨ sep = ' ') :
    ([sep].intercalate ls).splitOn (choose_separator (String.mk ([sep].intercalate ls)))
      = ls := by
  have hsepnot : ∀ l ∈ ls, sep ∉ l := by
    intro l hl hmem
    have := isDecimal_ne_separator sep (hdec l hl sep hmem)
    rcases hsep with h | h | h | h <;> simp [h] at this
  have hsplit := List.splitOn_intercalate ls sep hsepnot hne
  have hother : ∀ c, c ∈ [sep].intercalate ls → c ≠ sep → isDecimal c := by
    intro c hc hcs
    rcases mem_intercalate_sep sep c ls hc with h | ⟨l, hl, hcl⟩
    · exact absurd h hcs
    · exact hdec l hl c hcl
  have habsent : ∀ c, (c = ',' ∨ c = ':' ∨ c = ';' ∨ c = '.' ∨ c = ' ') → c ≠ sep →
      c ∉ [sep].intercalate ls := by
    intro c hc hcs hmem
    have := isDecimal_ne_separator c (hother c hmem hcs)
    rcases hc with h | h | h | h | h <;> simp [h] at this
  by_cases hin : sep ∈ [sep].intercalate ls
  · have hch : choose_separator (String.mk ([sep].intercalate ls)) = sep := by
      rw [choose_separator_eq]
      rcases hsep with h | h | h | h
      · subst h; simp [hin]
      · subst h
        have h1 := habsent ',' (by simp) (by decide)
        simp [hin, h1]
      · subst h
        have h1 := habsent ',' (by simp) (by decide)
        have h2 := habsent ':' (by simp) (by decide)
        simp [hin, h1, h2]
      · subst h
        have h1 := habsent ',' (by simp) (by decide)
        have h2 := habsent ':' (by simp) (by decide)
        have h3 := habsent ';' (by simp) (by decide)
        have h4 := habsent '.' (by simp) (by decide)
        simp [h1, h2, h3, h4]
    rw [hch, hsplit]
  · have hnone : ∀ c, (c = ',' ∨ c = ':' ∨ c = ';' ∨ c = '.' ∨ c = ' ') →
        c ∉ [sep].intercalate ls := by
      intro c hc
      by_cases hcs : c = sep
      · rw [hcs]; exact hin
      · exact habsent c hc hcs
    have hch : choose_separator (String.mk ([sep].intercalate ls)) = ' ' := by
      rw [choose_separator_eq]
      simp [hnone ',' (by simp), hnone ':' (by simp), hnone ';' (by simp),
        hnone '.' (by simp)]
    have hsingle : ∀ c, c ∉ [sep].intercalate ls →
        ([sep].intercalate ls).splitOn c = [[sep].intercalate ls] := by
      intro c hc
      refine List.splitOnP_eq_single _ _ ?_
      intro y hy H
      rw [eq_of_beq H] at hy
      exact hc hy
    rw [hch, hsingle ' ' (hnone ' ' (by simp))]
    exact (hsplit.symm.trans (hsingle sep hin)).symm

theorem convert_tokens_Itoa (xs : List Nat) (hfit : ∀ x ∈ xs, x < 2 ^ 63) (acc : List Int) :
    convert_tokens (xs.map fun x : Nat => Itoa (x : Int)) acc
      = Except.ok (acc ++ xs.map fun x : Nat => (x : Int)) := by
  induction xs generalizing acc with
  | nil => simp [convert_tokens]
  | cons x rest ih =>
    have hx : Atoi (Itoa (x : Int)) = some (x : Int) :=
      Atoi_Itoa_ofNat x (hfit x (List.mem_cons_self _ _))
    have hne : Itoa (x : Int) ≠ "" := by
      intro h
      have h2 := congrArg String.data h
      rw [Itoa_ofNat_data] at h2
      exact (toDigits_spec x).1 h2
    simp only [List.map_cons, convert_tokens, hne, ne_eq, not_false_eq_true, if_true, hx]
    rw [ih (fun y hy => hfit y (List.mem_cons_of_mem _ hy))]
    simp

/-- C4, as stated, fails: the one-entry list `[9223372036854775808]` (`2^63`) is rendered
as a token that `strconv.Atoi` rejects as out of range, and the call is fatal. -/
theorem atoi_overflow_join_fatal :
    nodes_list_to_int_slice
        (strings_Join ([9223372036854775808].map fun x : Nat => Itoa (x : Int)) ',') 5
      = Except.error "Error converting node number '9223372036854775808' to int" := by
  decide

/-- C4, amended: parsing undoes joining for numbers that fit a 64-bit `int`: for every
non-empty list `xs` of natural numbers below `2^63`, every separator among comma, colon,
semicolon and single space, and every `nodes`, `nodes_list_to_int_slice` applied to the
decimal renderings of `xs` joined by the separator returns exactly `xs`, order and
duplicates preserved. -/
theorem nodes_list_to_int_slice_join (xs : List Nat) (sep : Char) (nodes : Int)
    (hne : xs ≠ []) (hfit : ∀ x ∈ xs, x < 2 ^ 63)
    (hsep : sep = ',' ∨ sep = ':' ∨ sep = ';' ∨ sep = ' ') :
    ∃ printed, nodes_list_to_int_slice (strings_Join (xs.map fun x : Nat => Itoa (x : Int)) sep)
        nodes = Except.ok (xs.map (fun x : Nat => (x : Int)), printed) := by
  have hls : List.map String.data (xs.map fun x : Nat => Itoa (x : Int))
      = xs.map (Nat.toDigits 10) := by
    simp [List.map_map, Function.comp_def, Itoa_ofNat_data]
  have hsplit : strings_Split (strings_Join (xs.map fun x : Nat => Itoa (x : Int)) sep)
      (choose_separator (strings_Join (xs.map fun x : Nat => Itoa (x : Int)) sep))
      = xs.map fun x : Nat => Itoa (x : Int) := by
    unfold strings_Split strings_Join
    rw [hls]
    rw [splitOn_choose_separator (xs.map (Nat.toDigits 10)) sep (by simpa using hne)
      (by
        intro l hl c hc
        simp only [List.mem_map] at hl
        obtain ⟨x, -, rfl⟩ := hl
        exact (toDigits_spec x).2.1 c hc) hsep]
    simp only [List.map_map]
    rfl
  unfold nodes_list_to_int_slice
  simp only [hsplit, List.length_map, List.length_eq_zero, hne, if_false]
  rw [convert_tokens_Itoa xs hfit]
  simp

/-- Witness for the amended C4: `"1:2:3"` with five nodes. -/
theorem nodes_list_to_int_slice_join_witness :
    ∃ printed, nodes_list_to_int_slice "1:2:3" 5 = Except.ok ([1, 2, 3], printed) :=
  nodes_list_to_int_slice_join [1, 2, 3] ':' 5 (by decide) (by decide) (by decide)

/-! ## `nodes_list_to_int_slice`: failure and warnings -/

theorem strings_Split_ne_nil (s : String) (sep : Char) : strings_Split s sep ≠ [] := by
  unfold strings_Split
  intro h
  exact List.splitOnP_ne_nil _ _ (List.map_eq_nil_iff.1 h)

theorem convert_tokens_error_iff (toks : List String) (acc : List Int) :
    (∃ e, convert_tokens toks acc = Except.error e) ↔
      ∃ tok ∈ toks, tok ≠ "" ∧ Atoi tok = none := by
  induction toks generalizing acc with
  | nil => simp [convert_tokens]
  | cons t rest ih =>
    by_cases ht : t = ""
    · simp [convert_tokens, ht, ih]
    · cases ha : Atoi t with
      | none => simp [convert_tokens, ht, ha]
      | some num => simp [convert_tokens, ht, ha, ih]

theorem convert_tokens_ok (toks : List String) (acc : List Int)
    (hvalid : ∀ tok ∈ toks, tok ≠ "" → Atoi tok ≠ none) :
    ∃ l, convert_tokens toks acc = Except.ok (acc ++ l) ∧
      l.map some = (toks.filter fun t => decide (t ≠ "")).map Atoi := by
  induction toks generalizing acc with
  | nil => exact ⟨[], by simp [convert_tokens]⟩
  | cons t rest ih =>
    have hrest : ∀ tok ∈ rest, tok ≠ "" → Atoi tok ≠ none :=
      fun tok h => hvalid tok (List.mem_cons_of_mem _ h)
    by_cases ht : t = ""
    · obtain ⟨l, h1, h2⟩ := ih acc hrest
      exact ⟨l, by simp [convert_tokens, ht, h1], by simp [ht, h2]⟩
    · cases ha : Atoi t with
      | none => exact absurd ha (hvalid t (List.mem_cons_self _ _) ht)
      | some num =>
        obtain ⟨l, h1, h2⟩ := ih (acc ++ [num]) hrest
        refine ⟨num :: l, ?_, ?_⟩
        · simp [convert_tokens, ht, ha, h1]
        · simp [ht, ha, h2]

theorem list_warnings_ne_nil_iff (nodes_list : String) (nodes : Int) (int_list : List Int) :
    list_warnings nodes_list nodes int_list ≠ [] ↔
      (int_list = [] ∨ (int_list.length : Int) > nodes) := by
  unfold list_warnings
  by_cases h1 : int_list.length = 0
  · simp [h1, List.length_eq_zero.1 h1]
  · have h1b : int_list ≠ [] := fun h => h1 (by simp [h])
    by_cases h2 : (int_list.length : Int) > nodes
    · simp [h1, h2]
    · simp [h1, h1b, h2]

/-- C5: `nodes_list_to_int_slice` ends fatally if and only if at least one non-empty token,
among those obtained by splitting the expression on the chosen separator, is not a valid
integer literal; empty tokens never make it fail. -/
theorem nodes_list_to_int_slice_fatal_iff (nodes_list : String) (nodes : Int) :
    (∃ e, nodes_list_to_int_slice nodes_list nodes = Except.error e) ↔
      ∃ tok ∈ strings_Split nodes_list (choose_separator nodes_list),
        tok ≠ "" ∧ ¬ IsIntLiteral tok := by
  have hne := strings_Split_ne_nil nodes_list (choose_separator nodes_list)
  have hlen : (strings_Split nodes_list (choose_separator nodes_list)).length ≠ 0 := by
    simpa [List.length_eq_zero] using hne
  have hconv := convert_tokens_error_iff
    (strings_Split nodes_list (choose_separator nodes_list)) []
  have hlit : (∃ tok ∈ strings_Split nodes_list (choose_separator nodes_list),
        tok ≠ "" ∧ ¬ IsIntLiteral tok) ↔
      ∃ tok ∈ strings_Split nodes_list (choose_separator nodes_list),
        tok ≠ "" ∧ Atoi tok = none := by
    constructor
    · rintro ⟨tok, h1, h2, h3⟩
      refine ⟨tok, h1, h2, ?_⟩
      by_contra hc
      exact h3 ((Atoi_ne_none_iff tok).1 hc)
    · rintro ⟨tok, h1, h2, h3⟩
      exact ⟨tok, h1, h2, fun hc => (Atoi_ne_none_iff tok).2 hc h3⟩
  rw [hlit, ← hconv]
  unfold nodes_list_to_int_slice
  simp only [hlen, if_false]
  cases hc : convert_tokens (strings_Split nodes_list (choose_separator nodes_list)) [] with
  | error e => simp
  | ok l => simp

/-- C6: when every non-empty token is a valid integer literal, `nodes_list_to_int_slice`
returns (it does not fail, whatever `nodes` is) the list of the values of all non-empty
tokens, in order and in full, and it prints a warning exactly when that list is empty or
has more than `nodes` entries. -/
theorem nodes_list_to_int_slice_warning (nodes_list : String) (nodes : Int)
    (hvalid : ∀ tok ∈ strings_Split nodes_list (choose_separator nodes_list),
      tok ≠ "" → IsIntLiteral tok) :
    ∃ int_list printed,
      nodes_list_to_int_slice nodes_list nodes = Except.ok (int_list, printed) ∧
      int_list.map some =
        ((strings_Split nodes_list (choose_separator nodes_list)).filter
          fun t => decide (t ≠ "")).map Atoi ∧
      (printed ≠ [] ↔ (int_list = [] ∨ (int_list.length : Int) > nodes)) := by
  have hne := strings_Split_ne_nil nodes_list (choose_separator nodes_list)
  have hlen : (strings_Split nodes_list (choose_separator nodes_list)).length ≠ 0 := by
    simpa [List.length_eq_zero] using hne
  obtain ⟨l, h1, h2⟩ := convert_tokens_ok
    (strings_Split nodes_list (choose_separator nodes_list)) []
    (fun tok h hn => (Atoi_ne_none_iff tok).2 (hvalid tok h hn))
  simp only [List.nil_append] at h1
  refine ⟨l, list_warnings nodes_list nodes l, ?_, h2, list_warnings_ne_nil_iff _ _ _⟩
  unfold nodes_list_to_int_slice
  simp only [hlen, if_false, h1]

/-- Witness for C6: `"1,2,3"` with two nodes returns all three entries and warns. -/
theorem nodes_list_to_int_slice_warning_witness :
    ∃ int_list printed,
      nodes_list_to_int_slice "1,2,3" 2 = Except.ok (int_list, printed) ∧
      int_list.map some =
        ((strings_Split "1,2,3" (choose_separator "1,2,3")).filter
          fun t => decide (t ≠ "")).map Atoi ∧
      (printed ≠ [] ↔ (int_list = [] ∨ (int_list.length : Int) > 2)) :=
  nodes_list_to_int_slice_warning "1,2,3" 2 (by
    intro tok htok _
    rw [← Atoi_ne_none_iff]
    revert tok
    decide)

/-- C7, as stated, fails: `nodes_list_to_int_slice("7", 5)` returns `[7]` without printing
any warning. -/
theorem seven_of_five_no_warning :
    ¬ ∃ printed, printed ≠ [] ∧
      nodes_list_to_int_slice "7" 5 = Except.ok ([7], printed) := by
  rintro ⟨printed, hne, h⟩
  have h2 : nodes_list_to_int_slice "7" 5 = Except.ok ([7], []) := by decide
  rw [h2] at h
  simp only [Except.ok.injEq, Prod.mk.injEq, true_and] at h
  exact hne h.symm

/-- C7, amended: `nodes_list_to_int_slice("7", 5)` returns `[7]` and prints no warning;
more generally, whenever the list `nodes_list_to_int_slice` returns has an entry greater
than `nodes`, a warning is printed if and only if the list has more than `nodes` entries:
the size of an entry plays no part. -/
theorem nodes_list_to_int_slice_large_entry :
    nodes_list_to_int_slice "7" 5 = Except.ok ([7], []) ∧
    ∀ (nodes_list : String) (nodes : Int) (int_list : List Int) (printed : List String),
      nodes_list_to_int_slice nodes_list nodes = Except.ok (int_list, printed) →
      (∃ x ∈ int_list, x > nodes) →
      (printed ≠ [] ↔ (int_list.length : Int) > nodes) := by
  refine ⟨by decide, ?_⟩
  intro nodes_list nodes int_list printed hret hbig
  have hne := strings_Split_ne_nil nodes_list (choose_separator nodes_list)
  have hlen : (strings_Split nodes_list (choose_separator nodes_list)).length ≠ 0 := by
    simpa [List.length_eq_zero] using hne
  unfold nodes_list_to_int_slice at hret
  simp only [hlen, if_false] at hret
  cases hc : convert_tokens (strings_Split nodes_list (choose_separator nodes_list)) [] with
  | error e => rw [hc] at hret; cases hret
  | ok l =>
    rw [hc] at hret
    simp only [Except.ok.injEq, Prod.mk.injEq] at hret
    obtain ⟨rfl, rfl⟩ := hret
    rw [list_warnings_ne_nil_iff]
    obtain ⟨x, hx, -⟩ := hbig
    have : l ≠ [] := List.ne_nil_of_mem hx
    simp [this]

/-- Witness for the amended C7: `"9,8,7"` with two nodes returns three entries, each
greater than 2, and the warning is due to the three entries. -/
theorem nodes_list_to_int_slice_large_entry_witness :
    nodes_list_to_int_slice "9,8,7" 2 = Except.ok ([9, 8, 7],
        ["List '9,8,7' is greater than the expected number of nodes (2)\n"]) ∧
      ((["List '9,8,7' is greater than the expected number of nodes (2)\n"] : List String)
          ≠ [] ↔ (([9, 8, 7] : List Int).length : Int) > 2) :=
  ⟨by decide,
    nodes_list_to_int_slice_large_entry.2 "9,8,7" 2 [9, 8, 7]
      ["List '9,8,7' is greater than the expected number of nodes (2)\n"] (by decide)
      ⟨9, by decide, by decide⟩⟩

/-! ## `normalize_node_list` and `make_nodes_list` -/

theorem utf8ByteSize_go_map (f : Char → Char) (hf : ∀ c, (f c).utf8Size = c.utf8Size)
    (l : List Char) : String.utf8ByteSize.go (l.map f) = String.utf8ByteSize.go l := by
  induction l with
  | nil => rfl
  | cons c cs ih => simp only [List.map, String.utf8ByteSize.go, ih, hf]

/-- C8: `normalize_node_list` puts one space in the place of every comma, colon and period
and leaves every other character as it is: the output has the length of the input (in
characters and in bytes), position by position it is the input with those three characters
turned into a space, it contains no comma, colon or period, normalizing twice is
normalizing once, and `normalize_node_list("1,2:3.4") = "1 2 3 4"`. -/
theorem normalize_node_list_spec (list : String) :
    (normalize_node_list list).length = list.length ∧
    (normalize_node_list list).utf8ByteSize = list.utf8ByteSize ∧
    (∀ i : Nat, (normalize_node_list list).data[i]? =
      (list.data[i]?).map fun c => if c = ',' ∨ c = ':' ∨ c = '.' then ' ' else c) ∧
    (∀ c ∈ (normalize_node_list list).data, c ≠ ',' ∧ c ≠ ':' ∧ c ≠ '.') ∧
    normalize_node_list (normalize_node_list list) = normalize_node_list list ∧
    normalize_node_list "1,2:3.4" = "1 2 3 4" := by
  refine ⟨?_, ?_, ?_, ?_, ?_, by decide⟩
  · cases list with
    | mk l => exact List.length_map _ _
  · unfold normalize_node_list
    cases list with
    | mk l =>
      show String.utf8ByteSize.go _ = String.utf8ByteSize.go l
      apply utf8ByteSize_go_map
      intro c
      by_cases h : c = ',' ∨ c = ':' ∨ c = '.'
      · rw [if_pos h]
        rcases h with h | h | h <;> (subst h; decide)
      · rw [if_neg h]
  · intro i
    simp [normalize_node_list]
  · intro c hc
    simp only [normalize_node_list, List.mem_map] at hc
    obtain ⟨d, -, rfl⟩ := hc
    by_cases h : d = ',' ∨ d = ':' ∨ d = '.'
    · rw [if_pos h]; decide
    · rw [if_neg h]
      exact ⟨fun e => h (Or.inl e), fun e => h (Or.inr (Or.inl e)),
        fun e => h (Or.inr (Or.inr e))⟩
  · simp only [normalize_node_list, List.map_map]
    congr 1
    apply List.map_congr_left
    intro c _
    simp only [Function.comp]
    by_cases h : c = ',' ∨ c = ':' ∨ c = '.'
    · rw [if_pos h]; decide
    · rw [if_neg h, if_neg h]

theorem make_nodes_list_loop_stop (nodes : Int) (fuel : Nat) (N : Int) (acc : String)
    (h : nodes < N) : make_nodes_list_loop nodes fuel N acc = acc := by
  cases fuel with
  | zero => rfl
  | succ f =>
    have : ¬ N ≤ nodes := by omega
    simp [make_nodes_list_loop, this]

theorem make_nodes_list_loop_eq (nodes : Int) (fuel : Nat) :
    ∀ (k : Nat) (acc : String) (extra : Nat), (k : Int) + fuel = nodes + 1 →
      make_nodes_list_loop nodes (fuel + extra) k acc =
        (List.range' k fuel).foldl (fun a (i : Nat) => a ++ (Itoa (i : Int) ++ " ")) acc := by
  induction fuel with
  | zero =>
    intro k acc extra hk
    simp only [Nat.zero_add, List.range'_zero, List.foldl_nil]
    exact make_nodes_list_loop_stop nodes extra k acc (by omega)
  | succ f ih =>
    intro k acc extra hk
    have hle : (k : Int) ≤ nodes := by omega
    have hstep : f + 1 + extra = (f + extra) + 1 := by omega
    rw [hstep]
    simp only [make_nodes_list_loop, hle, if_true, List.range'_succ, List.foldl_cons]
    have := ih (k + 1) (acc ++ (Itoa (k : Int) ++ " ")) extra (by push_cast; omega)
    rw [← this]
    push_cast
    rfl

/-- C9: for every `N >= 1`, `make_nodes_list(N)` is the concatenation, for `i = 1..N` in
ascending order, of the decimal rendering of `i` followed by one space; for `N <= 0` it is
the empty string. The loop has then stopped by itself: more iterations allowed change
nothing. -/
theorem make_nodes_list_spec (nodes : Int) :
    (1 ≤ nodes → make_nodes_list nodes = nodes_enumeration nodes.toNat) ∧
    (nodes ≤ 0 → make_nodes_list nodes = "") ∧
    (∀ extra : Nat,
      make_nodes_list_loop nodes (nodes.toNat + extra) 1 "" = make_nodes_list nodes) := by
  have hpos : 0 ≤ nodes → ∀ extra : Nat,
      make_nodes_list_loop nodes (nodes.toNat + extra) 1 "" =
        nodes_enumeration nodes.toNat := by
    intro h0 extra
    have := make_nodes_list_loop_eq nodes nodes.toNat 1 "" extra (by
      rw [Int.toNat_of_nonneg h0]; push_cast; omega)
    simp only [Nat.cast_one] at this
    rw [this]
    unfold nodes_enumeration String.join
    rw [List.foldl_map]
  have hneg : nodes ≤ 0 → ∀ fuel : Nat, make_nodes_list_loop nodes fuel 1 "" = "" :=
    fun h fuel => make_nodes_list_loop_stop nodes fuel 1 "" (by omega)
  refine ⟨?_, ?_, ?_⟩
  · intro h
    have := hpos (by omega) 0
    simpa [make_nodes_list] using this
  · intro h
    exact hneg h _
  · intro extra
    unfold make_nodes_list
    by_cases h : 0 ≤ nodes
    · rw [hpos h extra]
      have := hpos h 0
      simpa using this.symm
    · rw [hneg (by omega), hneg (by omega)]

/-- Witness for C9: three nodes give `"1 2 3 "`. -/
theorem make_nodes_list_spec_witness :
    make_nodes_list 3 = "1 2 3 " ∧ make_nodes_list 0 = "" :=
  ⟨((make_nodes_list_spec 3).1 (by decide)).trans (by decide),
    (make_nodes_list_spec 0).2.1 (by decide)⟩

/-! ## `CheckDirectory` -/

theorem is_locked_iff (h : Host) (sb_dir : String) :
    is_locked h sb_dir = true ↔
      (h.FileExists (sb_dir ++ "/no_clear") = true ∨
        h.FileExists (sb_dir ++ "/no_clear_all") = true) := by
  simp [is_locked]

/-- C10: provided the external `rm` commands succeed, `CheckDirectory` ends fatally if and
only if the sandbox directory exists and (a lock marker `no_clear` or `no_clear_all` is in
it, or `Force` is false). In particular an existing locked directory is rejected for both
values of `Force`, with no external command launched; an existing directory is rejected
when `Force` is false; an absent directory is never rejected and the definition comes back
as it was. -/
theorem CheckDirectory_fatal_iff (h : Host) (sdef : SandboxDef)
    (hrm : ∀ args, h.Run_cmd_with_args_ok "rm" args = true) :
    ((∃ e, (CheckDirectory h sdef).2 = Except.error e) ↔
      (h.DirExists sdef.SandboxDir = true ∧
        ((h.FileExists (sdef.SandboxDir ++ "/no_clear") = true ∨
          h.FileExists (sdef.SandboxDir ++ "/no_clear_all") = true) ∨
          sdef.Force = false))) ∧
    (h.DirExists sdef.SandboxDir = true →
      (h.FileExists (sdef.SandboxDir ++ "/no_clear") = true ∨
        h.FileExists (sdef.SandboxDir ++ "/no_clear_all") = true) →
      ∀ force : Bool,
        (∃ e, (CheckDirectory h { sdef with Force := force }).2 = Except.error e) ∧
        ∀ ev ∈ (CheckDirectory h { sdef with Force := force }).1, ev.isCommand = false) ∧
    (h.DirExists sdef.SandboxDir = true → sdef.Force = false →
      ∃ e, (CheckDirectory h sdef).2 = Except.error e) ∧
    (h.DirExists sdef.SandboxDir = false → CheckDirectory h sdef = ([], Except.ok sdef)) := by
  refine ⟨?_, ?_, ?_, ?_⟩
  · rw [← is_locked_iff]
    unfold CheckDirectory
    by_cases hd : h.DirExists sdef.SandboxDir = true
    · by_cases hf : sdef.Force = true
      · by_cases hl : is_locked h sdef.SandboxDir = true
        · simp [hd, hf, hl]
        · simp [hd, hf, hl, hrm]
      · simp [hd, hf]
    · simp [hd]
  · intro hd hl force
    rw [← is_locked_iff] at hl
    unfold CheckDirectory
    cases force
    · simp [hd]
    · simp [hd, hl]
  · intro hd hf
    unfold CheckDirectory
    simp [hd, hf]
  · intro hd
    unfold CheckDirectory
    simp [hd]

/-- Witness for C10: the directory `/sb/msb` exists and holds `no_clear`; with `Force`
set the call is fatal and launches nothing. -/
theorem CheckDirectory_fatal_iff_witness :
    (∃ e, (CheckDirectory (hostOf ["/sb/msb"] ["/sb/msb/no_clear"] ["/sb/msb/stop"] [])
        { zeroSandboxDef with SandboxDir := "/sb/msb", Force := true }).2
          = Except.error e) ∧
      ∀ ev ∈ (CheckDirectory (hostOf ["/sb/msb"] ["/sb/msb/no_clear"] ["/sb/msb/stop"] [])
        { zeroSandboxDef with SandboxDir := "/sb/msb", Force := true }).1,
          ev.isCommand = false :=
  (CheckDirectory_fatal_iff (hostOf ["/sb/msb"] ["/sb/msb/no_clear"] ["/sb/msb/stop"] [])
    { zeroSandboxDef with SandboxDir := "/sb/msb" } (fun _ => rfl)).2.1
    (by decide) (by decide) true

/-! ## `CheckDirectory`: the installed ports; `CheckPort`; `GetOptionsFromFile` -/

theorem new_installed_ports_loop_eq (used : List Int) (ports acc : List Int) :
    new_installed_ports_loop used ports acc
      = acc ++ ports.filter fun p => decide (p ∉ used) := by
  induction ports generalizing acc with
  | nil => simp [new_installed_ports_loop]
  | cons p rest ih =>
    by_cases hp : p ∈ used
    · simp [new_installed_ports_loop, hp, ih]
    · simp [new_installed_ports_loop, hp, ih]

/-- C11: when `CheckDirectory` overwrites an existing unlocked sandbox with `Force` set
(the external `rm` commands succeeding), it returns the definition with `InstalledPorts`
replaced by the input `InstalledPorts` without the ports recorded for the removed sandbox,
the others in their original order, and with every other field unchanged; when the
directory is absent the definition is returned unchanged. -/
theorem CheckDirectory_installed_ports (h : Host) (sdef : SandboxDef) :
    (h.DirExists sdef.SandboxDir = true → sdef.Force = true →
      is_locked h sdef.SandboxDir = false →
      (∀ args, h.Run_cmd_with_args_ok "rm" args = true) →
      (CheckDirectory h sdef).2 = Except.ok { sdef with
        InstalledPorts := sdef.InstalledPorts.filter fun p =>
          decide (p ∉ h.GetInstalledPorts sdef.SandboxDir) }) ∧
    (h.DirExists sdef.SandboxDir = false → (CheckDirectory h sdef).2 = Except.ok sdef) := by
  constructor
  · intro hd hf hl hrm
    unfold CheckDirectory
    simp [hd, hf, hl, hrm, new_installed_ports_loop_eq]
  · intro hd
    unfold CheckDirectory
    simp [hd]

/-- Witness for C11: the sandbox `/sb/msb` recorded port 3306; of the installed ports
`[3306, 3307, 3308]` the overwrite keeps `[3307, 3308]`. -/
theorem CheckDirectory_installed_ports_witness :
    (CheckDirectory (hostOf ["/sb/msb"] [] ["/sb/msb/stop"] [3306])
        { zeroSandboxDef with SandboxDir := "/sb/msb", Force := true,
                               InstalledPorts := [3306, 3307, 3308] }).2
      = Except.ok { zeroSandboxDef with SandboxDir := "/sb/msb", Force := true,
                                        InstalledPorts := [3307, 3308] } :=
  (CheckDirectory_installed_ports (hostOf ["/sb/msb"] [] ["/sb/msb/stop"] [3306])
      { zeroSandboxDef with SandboxDir := "/sb/msb", Force := true,
                             InstalledPorts := [3306, 3307, 3308] }).1
    (by decide) (by decide) (by decide) (fun _ => rfl)

theorem CheckPort_loop_eq (port : Int) (ports : List Int) (conflict : Int) :
    CheckPort_loop port ports conflict = if port ∈ ports then port else conflict := by
  induction ports generalizing conflict with
  | nil => simp [CheckPort_loop]
  | cons p rest ih =>
    by_cases hp : p = port
    · subst hp
      by_cases hr : p ∈ rest <;> simp [CheckPort_loop, ih, hr]
    · have hp2 : ¬ port = p := fun e => hp e.symm
      simp [CheckPort_loop, ih, hp, hp2]

/-- C12, as stated, fails: port 0 occurs in the list `[0]` and `CheckPort` returns. -/
theorem CheckPort_zero_not_fatal :
    (0 : Int) ∈ [(0 : Int)] ∧
      CheckPort "CreateSingleSandbox" "single" [0] 0 = Except.ok () := by
  decide

/-- C12, amended: for every list `installed_ports` and every integer `port`, `CheckPort`
ends fatally if and only if `port` occurs in `installed_ports` and `port` is greater
than 0. -/
theorem CheckPort_fatal_iff (caller sandbox_type : String) (installed_ports : List Int)
    (port : Int) :
    (∃ e, CheckPort caller sandbox_type installed_ports port = Except.error e) ↔
      (port ∈ installed_ports ∧ port > 0) := by
  unfold CheckPort
  simp only [CheckPort_loop_eq]
  by_cases hp : port ∈ installed_ports
  · by_cases h0 : port > 0
    · simp [hp, h0]
    · simp [hp, h0]
  · simp [hp]

theorem GetOptionsFromFile_loop_eq (entries : List KeyValue) (options : List String) :
    GetOptionsFromFile_loop entries options
      = options ++ (entries.filter fun kv => !skip_options kv.Key).map
          fun kv => kv.Key ++ " = " ++ kv.Value := by
  induction entries generalizing options with
  | nil => simp [GetOptionsFromFile_loop]
  | cons kv rest ih =>
    by_cases hk : skip_options kv.Key = true
    · simp [GetOptionsFromFile_loop, hk, ih]
    · simp [GetOptionsFromFile_loop, hk, ih]

theorem skip_options_iff (key : String) :
    skip_options key = true ↔
      key ∈ ["user", "port", "socket", "datadir", "basedir", "tmpdir", "pid-file",
        "server-id", "bind-address", "log-error"] := by
  simp [skip_options, or_assoc]

/-- C17: for every parsed options file, `GetOptionsFromFile` returns, in file order,
exactly the entries of the `mysqld` section whose key is not one of `user`, `port`,
`socket`, `datadir`, `basedir`, `tmpdir`, `pid-file`, `server-id`, `bind-address`,
`log-error`, each rendered as `key = value`; so every returned line comes from an entry
with a key off that list, and every such entry has its line returned. -/
theorem GetOptionsFromFile_spec (x : Externals) (filename : String) :
    GetOptionsFromFile x filename
      = ((x.ParseConfigFile filename "mysqld").filter fun kv =>
          decide (kv.Key ∉ ["user", "port", "socket", "datadir", "basedir", "tmpdir",
            "pid-file", "server-id", "bind-address", "log-error"])).map
          (fun kv => kv.Key ++ " = " ++ kv.Value) ∧
    (∀ line ∈ GetOptionsFromFile x filename,
      ∃ kv ∈ x.ParseConfigFile filename "mysqld",
        kv.Key ∉ ["user", "port", "socket", "datadir", "basedir", "tmpdir",
          "pid-file", "server-id", "bind-address", "log-error"] ∧
        line = kv.Key ++ " = " ++ kv.Value) ∧
    (∀ kv ∈ x.ParseConfigFile filename "mysqld",
      kv.Key ∉ ["user", "port", "socket", "datadir", "basedir", "tmpdir",
          "pid-file", "server-id", "bind-address", "log-error"] →
      kv.Key ++ " = " ++ kv.Value ∈ GetOptionsFromFile x filename) := by
  have key : GetOptionsFromFile x filename
      = ((x.ParseConfigFile filename "mysqld").filter fun kv =>
          decide (kv.Key ∉ ["user", "port", "socket", "datadir", "basedir", "tmpdir",
            "pid-file", "server-id", "bind-address", "log-error"])).map
          (fun kv => kv.Key ++ " = " ++ kv.Value) := by
    unfold GetOptionsFromFile
    rw [GetOptionsFromFile_loop_eq, List.nil_append]
    congr 1
    apply List.filter_congr
    intro kv _
    rw [Bool.eq_iff_iff]
    simp only [Bool.not_eq_true', decide_eq_true_eq]
    rw [← skip_options_iff]
    simp
  refine ⟨key, ?_, ?_⟩
  · intro line hline
    rw [key, List.mem_map] at hline
    obtain ⟨kv, hkv, rfl⟩ := hline
    rw [List.mem_filter] at hkv
    exact ⟨kv, hkv.1, by simpa using hkv.2, rfl⟩
  · intro kv hkv hn
    rw [key, List.mem_map]
    exact ⟨kv, List.mem_filter.2 ⟨hkv, by simpa using hn⟩, rfl⟩

/-! ## Sequencing and frames -/

theorem andThen_ok_iff {α β : Type} (m : List Step × Except String α)
    (f : α → List Step × Except String β) (b : β) :
    (andThen m f).2 = Except.ok b ↔ ∃ a, m.2 = Except.ok a ∧ (f a).2 = Except.ok b := by
  unfold andThen
  cases hm : m.2 with
  | error e => simp
  | ok a => simp

theorem andThen_error_iff {α β : Type} (m : List Step × Except String α)
    (f : α → List Step × Except String β) :
    (∃ e, (andThen m f).2 = Except.error e) ↔
      ((∃ e, m.2 = Except.error e) ∨ ∃ a, m.2 = Except.ok a ∧ ∃ e, (f a).2 = Except.error e) := by
  unfold andThen
  cases hm : m.2 with
  | error e => simp
  | ok a => simp

theorem andThen_trace {α β : Type} (m : List Step × Except String α)
    (f : α → List Step × Except String β) (a : α) (hm : m.2 = Except.ok a) :
    (andThen m f).1 = m.1 ++ (f a).1 := by
  unfold andThen
  rw [hm]

theorem SameExceptDerived_refl (s : SandboxDef) : SameExceptDerived s s := by
  cases s; rfl

theorem SameExceptDerived_trans {s t u : SandboxDef} (h1 : SameExceptDerived s t)
    (h2 : SameExceptDerived t u) : SameExceptDerived s u := by
  unfold SameExceptDerived at *
  rw [h2, h1]

theorem SameExceptPrepared_refl (s : SandboxDef) : SameExceptPrepared s s := by
  cases s; rfl

theorem SameExceptPrepared_trans {s t u : SandboxDef} (h1 : SameExceptPrepared s t)
    (h2 : SameExceptPrepared t u) : SameExceptPrepared s u := by
  unfold SameExceptPrepared at *
  rw [h2, h1]

theorem OptionsExtended_refl (s : SandboxDef) : OptionsExtended s s :=
  ⟨List.prefix_refl _, List.prefix_refl _, List.prefix_refl _, List.prefix_refl _⟩

theorem OptionsExtended_trans {s t u : SandboxDef} (h1 : OptionsExtended s t)
    (h2 : OptionsExtended t u) : OptionsExtended s u :=
  ⟨h1.1.trans h2.1, h1.2.1.trans h2.2.1, h1.2.2.1.trans h2.2.2.1, h1.2.2.2.trans h2.2.2.2⟩

/-! ## The version-gated rules only append -/

theorem set_mysqlx_properties_ok (x : Externals) (sdef s : SandboxDef) (tmp : String)
    (hs : (set_mysqlx_properties x sdef tmp).2 = Except.ok s) :
    ∃ port : Int,
      s = { sdef with
        MyCnfOptions := sdef.MyCnfOptions ++ ["mysqlx-port=" ++ Itoa port,
          "mysqlx-socket=" ++ tmp ++ "/mysqlx-" ++ Itoa port ++ ".sock"]
        MorePorts := sdef.MorePorts ++ [port]
        MysqlXPort := port } ∧
      (sdef.MysqlXPort ≠ 0 → port = sdef.MysqlXPort) ∧
      (sdef.MysqlXPort = 0 →
        x.FindFreePort (sdef.Port + x.MysqlXPortDelta) sdef.InstalledPorts 1
          = Except.ok port) := by
  unfold set_mysqlx_properties at hs
  split_ifs at hs with h0
  · cases hf : x.FindFreePort (sdef.Port + x.MysqlXPortDelta) sdef.InstalledPorts 1 with
    | error e => rw [hf] at hs; cases hs
    | ok port =>
      rw [hf] at hs
      simp only [Except.ok.injEq] at hs
      refine ⟨port, ?_, fun hne => absurd h0 hne, fun _ => rfl⟩
      rw [← hs]
      simp only [List.append_assoc, List.singleton_append]
  · simp only [Except.ok.injEq] at hs
    refine ⟨sdef.MysqlXPort, ?_, fun _ => rfl, fun he => absurd he h0⟩
    rw [← hs]
    simp only [List.append_assoc, List.singleton_append]

theorem set_mysqlx_properties_frame (x : Externals) (sdef s : SandboxDef) (tmp : String)
    (hs : (set_mysqlx_properties x sdef tmp).2 = Except.ok s) :
    SameExceptDerived sdef s ∧ OptionsExtended sdef s := by
  obtain ⟨port, rfl, -, -⟩ := set_mysqlx_properties_ok x sdef s tmp hs
  refine ⟨?_, ?_⟩
  · cases sdef; rfl
  · exact ⟨List.prefix_append _ _, List.prefix_refl _, List.prefix_refl _,
      List.prefix_append _ _⟩

theorem prefix_options (s t : SandboxDef)
    (h1 : s.MyCnfOptions <+: t.MyCnfOptions) (h2 : s.InitOptions <+: t.InitOptions)
    (h3 : s.PostGrantsSql <+: t.PostGrantsSql) (h4 : s.MorePorts <+: t.MorePorts) :
    OptionsExtended s t := ⟨h1, h2, h3, h4⟩

theorem rule_enable_mysqlx_frame (x : Externals) (tmp : String) (d e : Derived)
    (hd : (rule_enable_mysqlx x tmp d).2 = Except.ok e) :
    SameExceptDerived d.sdef e.sdef ∧ OptionsExtended d.sdef e.sdef ∧
      e.right_plugin_dir = d.right_plugin_dir := by
  unfold rule_enable_mysqlx at hd
  split_ifs at hd
  all_goals first
    | (exfalso; cases hd; done)
    | (simp only [Except.ok.injEq] at hd
       subst hd
       exact ⟨SameExceptDerived_refl _, OptionsExtended_refl _, rfl⟩)
    | (rw [andThen_ok_iff] at hd
       obtain ⟨s, hs, he⟩ := hd
       simp only [Except.ok.injEq] at he
       subst he
       obtain ⟨f1, f2⟩ := set_mysqlx_properties_frame x _ s tmp hs
       refine ⟨SameExceptDerived_trans ?_ f1, OptionsExtended_trans ?_ f2, rfl⟩
       · cases d with
         | mk sdef u r => cases sdef; rfl
       · exact ⟨List.prefix_append _ _, List.prefix_refl _, List.prefix_refl _,
           List.prefix_refl _⟩)

theorem rule_mysqlx_default_sdef (x : Externals) (d : Derived) :
    (rule_mysqlx_default x d).sdef = d.sdef ∧
      (rule_mysqlx_default x d).right_plugin_dir = d.right_plugin_dir := by
  unfold rule_mysqlx_default
  split <;> exact ⟨rfl, rfl⟩

theorem rule_expose_dd_tables_frame (x : Externals) (d e : Derived)
    (hd : (rule_expose_dd_tables x d).2 = Except.ok e) :
    SameExceptDerived d.sdef e.sdef ∧ OptionsExtended d.sdef e.sdef ∧
      e.right_plugin_dir = d.right_plugin_dir := by
  unfold rule_expose_dd_tables at hd
  split_ifs at hd
  all_goals first
    | (exfalso; cases hd; done)
    | (simp only [Except.ok.injEq] at hd
       subst hd
       exact ⟨SameExceptDerived_refl _, OptionsExtended_refl _, rfl⟩)
    | (simp only [Except.ok.injEq] at hd
       subst hd
       refine ⟨?_, ⟨List.prefix_refl _, List.prefix_refl _, List.prefix_append _ _,
         List.prefix_refl _⟩, rfl⟩
       cases d with
       | mk sdef u r => cases sdef; rfl)

theorem rule_custom_mysqld_frame (h : Host) (d e : Derived)
    (hd : (rule_custom_mysqld h d).2 = Except.ok e) :
    SameExceptDerived d.sdef e.sdef ∧ OptionsExtended d.sdef e.sdef := by
  unfold rule_custom_mysqld at hd
  dsimp only at hd
  split_ifs at hd
  all_goals first
    | (exfalso; cases hd; done)
    | (simp only [Except.ok.injEq] at hd
       subst hd
       exact ⟨SameExceptDerived_refl _, OptionsExtended_refl _⟩)
    | (simp only [Except.ok.injEq] at hd
       subst hd
       refine ⟨?_, ⟨List.prefix_append _ _, List.prefix_refl _, List.prefix_refl _,
         List.prefix_refl _⟩⟩
       cases d with
       | mk sdef u r => cases sdef; rfl)

theorem rule_general_log_frame (x : Externals) (sdef : SandboxDef) :
    SameExceptDerived sdef (rule_general_log x sdef) ∧
      OptionsExtended sdef (rule_general_log x sdef) := by
  unfold rule_general_log
  dsimp only
  split_ifs
  all_goals
    refine ⟨by cases sdef; rfl, prefix_options _ _ ?_ ?_ ?_ ?_⟩
  all_goals first
    | exact List.prefix_refl _
    | exact List.prefix_append _ _

theorem rule_native_auth_frame (x : Externals) (sdef : SandboxDef) :
    SameExceptDerived sdef (rule_native_auth x sdef) ∧
      OptionsExtended sdef (rule_native_auth x sdef) := by
  unfold rule_native_auth
  split_ifs
  all_goals
    refine ⟨by cases sdef; rfl, prefix_options _ _ ?_ ?_ ?_ ?_⟩
  all_goals first
    | exact List.prefix_refl _
    | exact List.prefix_append _ _

theorem rule_mysqlx_8011_frame (x : Externals) (tmp : String) (sdef s : SandboxDef)
    (hs : (rule_mysqlx_8011 x tmp sdef).2 = Except.ok s) :
    SameExceptDerived sdef s ∧ OptionsExtended sdef s := by
  unfold rule_mysqlx_8011 at hs
  split_ifs at hs
  all_goals first
    | exact set_mysqlx_properties_frame x sdef s tmp hs
    | (simp only [Except.ok.injEq] at hs
       subst hs
       exact ⟨by cases sdef; rfl, List.prefix_append _ _, List.prefix_refl _,
         List.prefix_refl _, List.prefix_refl _⟩)
    | (simp only [Except.ok.injEq] at hs
       subst hs
       exact ⟨SameExceptDerived_refl _, OptionsExtended_refl _⟩)

theorem rule_my_cnf_file_frame (x : Externals) (sdef : SandboxDef) :
    SameExceptDerived sdef (rule_my_cnf_file x sdef) ∧
      OptionsExtended sdef (rule_my_cnf_file x sdef) := by
  unfold rule_my_cnf_file
  dsimp only
  split_ifs
  all_goals
    refine ⟨by cases sdef; rfl, prefix_options _ _ ?_ ?_ ?_ ?_⟩
  all_goals first
    | exact List.prefix_refl _
    | exact List.prefix_append _ _
    | exact (List.prefix_append _ _).trans (List.prefix_append _ _)

theorem rule_plugin_load_sdef (d : Derived) :
    (rule_plugin_load d).sdef = d.sdef ∧
      (rule_plugin_load d).right_plugin_dir = d.right_plugin_dir := by
  unfold rule_plugin_load
  dsimp only
  split_ifs <;> exact ⟨rfl, rfl⟩

theorem rule_plugin_check_ok (d e : Derived)
    (hd : (rule_plugin_check d).2 = Except.ok e) : e = d := by
  unfold rule_plugin_check at hd
  split_ifs at hd
  all_goals first
    | (exfalso; cases hd; done)
    | (simp only [Except.ok.injEq] at hd
       exact hd.symm)

/-- What `derive_options` returns differs from its input only in the fields the rules
set, and the four option lists have only grown at their end. -/
theorem derive_options_frame (h : Host) (x : Externals) (tmp : String) (sdef : SandboxDef)
    (e : Derived) (he : (derive_options h x tmp sdef).2 = Except.ok e) :
    SameExceptDerived sdef e.sdef ∧ OptionsExtended sdef e.sdef := by
  unfold derive_options at he
  rw [andThen_ok_iff] at he
  obtain ⟨d1, h1, he⟩ := he
  rw [andThen_ok_iff] at he
  obtain ⟨d2, h2, he⟩ := he
  rw [andThen_ok_iff] at he
  obtain ⟨d3, h3, he⟩ := he
  rw [andThen_ok_iff] at he
  obtain ⟨s4, h4, he⟩ := he
  have he2 := rule_plugin_check_ok _ _ he
  have f1 := rule_enable_mysqlx_frame x tmp _ d1 h1
  have f2 := rule_expose_dd_tables_frame x _ d2 h2
  rw [(rule_mysqlx_default_sdef x d1).1] at f2
  have f3 := rule_custom_mysqld_frame h d2 d3 h3
  have f4 := rule_mysqlx_8011_frame x tmp _ s4 h4
  have f5 := rule_native_auth_frame x (rule_general_log x d3.sdef)
  have f6 := rule_general_log_frame x d3.sdef
  have f7 := rule_my_cnf_file_frame x s4
  have hsdef : e.sdef = rule_my_cnf_file x s4 := by
    rw [he2, (rule_plugin_load_sdef _).1]
  rw [hsdef]
  exact ⟨SameExceptDerived_trans f1.1 (SameExceptDerived_trans f2.1
      (SameExceptDerived_trans f3.1 (SameExceptDerived_trans f6.1
        (SameExceptDerived_trans f5.1 (SameExceptDerived_trans f4.1 f7.1))))),
    OptionsExtended_trans f1.2.1 (OptionsExtended_trans f2.2.1
      (OptionsExtended_trans f3.2 (OptionsExtended_trans f6.2
        (OptionsExtended_trans f5.2 (OptionsExtended_trans f4.2 f7.2)))))⟩

/-! ## The stages of `CreateSingleSandbox` -/

theorem prepare_ok (h : Host) (x : Externals) (sdef : SandboxDef) (p : Prepared)
    (hp : (prepare h x sdef).2 = Except.ok p) :
    SameExceptPrepared sdef p.sdef ∧ p.sandbox_dir = sandbox_dir_of x sdef ∧
      p.sdef.SandboxDir = p.sandbox_dir ∧ h.DirExists sdef.Basedir = true ∧
      1024 < sdef.Port := by
  unfold prepare at hp
  dsimp only at hp
  split_ifs at hp with h1 h2 h3 h4 h5 h6 h7
  all_goals first
    | (exfalso; cases hp; done)
    | (simp only [Except.ok.injEq] at hp
       subst hp
       refine ⟨by cases sdef; rfl, rfl, rfl, ?_, ?_⟩
       · simpa using h1
       · simpa using h2)
    | (split at hp
       · exfalso; cases hp
       · simp only [Except.ok.injEq] at hp
         subst hp
         refine ⟨by cases sdef; rfl, rfl, rfl, ?_, ?_⟩
         · simpa using h1
         · simpa using h2)

theorem prepare_no_command (h : Host) (x : Externals) (sdef : SandboxDef) :
    (prepare h x sdef).1.filter Step.isCommand = [] := by
  unfold prepare
  dsimp only
  split_ifs
  all_goals first
    | rfl
    | (split <;> rfl)

theorem andThen_no_command {α β : Type} (m : List Step × Except String α)
    (f : α → List Step × Except String β)
    (hm : m.1.filter Step.isCommand = [])
    (hf : ∀ a, (f a).1.filter Step.isCommand = []) :
    (andThen m f).1.filter Step.isCommand = [] := by
  unfold andThen
  cases m.2 with
  | error e => exact hm
  | ok a => simp only [List.filter_append, hm, hf a, List.append_nil]

theorem set_mysqlx_properties_no_command (x : Externals) (sdef : SandboxDef) (tmp : String) :
    (set_mysqlx_properties x sdef tmp).1.filter Step.isCommand = [] := by
  unfold set_mysqlx_properties
  dsimp only
  split_ifs
  · split <;> rfl
  · rfl

theorem derive_options_no_command (h : Host) (x : Externals) (tmp : String)
    (sdef : SandboxDef) :
    (derive_options h x tmp sdef).1.filter Step.isCommand = [] := by
  unfold derive_options
  refine andThen_no_command _ _ ?_ (fun d1 => andThen_no_command _ _ ?_
    (fun d2 => andThen_no_command _ _ ?_ (fun d3 => andThen_no_command _ _ ?_ ?_)))
  · unfold rule_enable_mysqlx
    split_ifs
    all_goals first
      | rfl
      | exact andThen_no_command _ _ (set_mysqlx_properties_no_command _ _ _) (fun _ => rfl)
  · unfold rule_expose_dd_tables
    split_ifs <;> rfl
  · unfold rule_custom_mysqld
    dsimp only
    split_ifs <;> rfl
  · unfold rule_mysqlx_8011
    split_ifs
    all_goals first
      | rfl
      | exact set_mysqlx_properties_no_command _ _ _
  · intro s4
    unfold rule_plugin_check
    split_ifs <;> rfl

theorem CheckDirectory_ok (h : Host) (sdef s : SandboxDef)
    (hs : (CheckDirectory h sdef).2 = Except.ok s) :
    ∃ ports, s = { sdef with InstalledPorts := ports } := by
  unfold CheckDirectory at hs
  dsimp only at hs
  split_ifs at hs
  all_goals first
    | (exfalso; cases hs; done)
    | (simp only [Except.ok.injEq] at hs
       exact ⟨_, hs.symm⟩)

theorem check_stage_ok (h : Host) (sdef s : SandboxDef) (dir : String)
    (hs : (check_stage h sdef dir).2 = Except.ok s) :
    SameExceptPrepared sdef s := by
  unfold check_stage at hs
  rw [andThen_ok_iff] at hs
  obtain ⟨s1, h1, h2⟩ := hs
  have hs1 : SameExceptPrepared sdef s1 := by
    split_ifs at h1
    · obtain ⟨ports, rfl⟩ := CheckDirectory_ok h sdef s1 h1
      cases sdef; rfl
    · simp only [Except.ok.injEq] at h1
      subst h1
      exact SameExceptPrepared_refl _
  split at h2
  · cases h2
  · simp only [Except.ok.injEq] at h2
    subst h2
    exact hs1

theorem check_stage_absent (h : Host) (sdef : SandboxDef) (dir : String)
    (hd : h.DirExists dir = false) : (check_stage h sdef dir).1 = [] := by
  unfold check_stage andThen
  simp only [hd, Bool.false_eq_true, if_false]
  split <;> rfl

theorem init_stage_ok (h : Host) (x : Externals) (sdef : SandboxDef) (dir : String)
    (l : List ExecutionList) (hl : (init_stage h x sdef dir).2 = Except.ok l) :
    l = (if sdef.RunConcurrently then
          [{ Priority := 0, Command := { Cmd := dir ++ "/init_db", Args := [] } }]
         else []) ∧
    (init_stage h x sdef dir).1.filter Step.isCommand
      = (if sdef.RunConcurrently then [] else [Step.Run_cmd_ctrl (dir ++ "/init_db") true]) := by
  unfold init_stage at hl ⊢
  dsimp only at hl ⊢
  split_ifs at hl ⊢
  all_goals first
    | (exfalso; cases hl; done)
    | (simp only [Except.ok.injEq] at hl
       exact ⟨hl.symm, rfl⟩)
    | (split at hl
       all_goals
         simp only [Except.ok.injEq] at hl
         exact ⟨hl.symm, rfl⟩)

theorem scripts_stage_no_command (x : Externals) (sdef : SandboxDef) (dir : String) :
    (scripts_stage x sdef dir).filter Step.isCommand = [] := by
  unfold scripts_stage
  dsimp only
  simp only [List.filter_append, apply_ite (List.filter Step.isCommand), List.filter_cons,
    List.filter_nil, Step.isCommand, Bool.false_eq_true, if_false, ite_self, List.append_nil]

theorem start_stage_eq (sdef : SandboxDef) (dir : String) (init_item : List ExecutionList) :
    (start_stage sdef dir
        (if sdef.RunConcurrently then init_item else [])).2
      = (if sdef.RunConcurrently then
          init_item ++ (planned_list dir sdef.SkipStart sdef.LoadGrants).tail
         else []) ∧
    (start_stage sdef dir (if sdef.RunConcurrently then init_item else [])).1.filter
        Step.isCommand
      = (if sdef.RunConcurrently then []
         else (synchronous_commands dir sdef.SkipStart sdef.LoadGrants).tail) := by
  unfold start_stage planned_list synchronous_commands
  cases sdef.RunConcurrently <;> cases sdef.SkipStart <;> cases sdef.LoadGrants <;>
    simp [Step.isCommand, Event.isCommand]

/-! ## `CreateSingleSandbox`: the execution list and the commands run -/

theorem SameExceptPrepared_flags {s t : SandboxDef} (hf : SameExceptPrepared s t) :
    t.RunConcurrently = s.RunConcurrently ∧ t.SkipStart = s.SkipStart ∧
      t.LoadGrants = s.LoadGrants := by
  unfold SameExceptPrepared at hf
  rw [hf]
  exact ⟨rfl, rfl, rfl⟩

theorem SameExceptDerived_flags {s t : SandboxDef} (hf : SameExceptDerived s t) :
    t.RunConcurrently = s.RunConcurrently ∧ t.SkipStart = s.SkipStart ∧
      t.LoadGrants = s.LoadGrants := by
  unfold SameExceptDerived at hf
  rw [hf]
  exact ⟨rfl, rfl, rfl⟩

/-- The stages a returning call of `CreateSingleSandbox` went through. -/
theorem CreateSingleSandbox_ok (h : Host) (x : Externals) (sdef : SandboxDef)
    (l : List ExecutionList) (hok : (CreateSingleSandbox h x sdef).2 = Except.ok l) :
    ∃ p d s l0, (prepare h x sdef).2 = Except.ok p ∧
      (derive_options h x p.global_tmp_dir p.sdef).2 = Except.ok d ∧
      (check_stage h d.sdef p.sandbox_dir).2 = Except.ok s ∧
      (init_stage h x s p.sandbox_dir).2 = Except.ok l0 ∧
      l = (start_stage s p.sandbox_dir l0).2 ∧
      (CreateSingleSandbox h x sdef).1 =
        (prepare h x sdef).1 ++ ((derive_options h x p.global_tmp_dir p.sdef).1 ++
          ((check_stage h d.sdef p.sandbox_dir).1 ++ ((init_stage h x s p.sandbox_dir).1 ++
            (scripts_stage x s p.sandbox_dir ++ (start_stage s p.sandbox_dir l0).1)))) := by
  unfold CreateSingleSandbox at hok ⊢
  rw [andThen_ok_iff] at hok
  obtain ⟨p, hp, hok⟩ := hok
  rw [andThen_ok_iff] at hok
  obtain ⟨d, hd, hok⟩ := hok
  rw [andThen_ok_iff] at hok
  obtain ⟨s, hs, hok⟩ := hok
  rw [andThen_ok_iff] at hok
  obtain ⟨l0, hl0, hok⟩ := hok
  simp only [Except.ok.injEq] at hok
  refine ⟨p, d, s, l0, hp, hd, hs, hl0, hok.symm, ?_⟩
  rw [andThen_trace _ _ p hp, andThen_trace _ _ d hd, andThen_trace _ _ s hs,
    andThen_trace _ _ l0 hl0]

/-- What a returning call of `CreateSingleSandbox` plans and what it runs: with
`RunConcurrently` the list is `planned_list` and it runs no script of its own; without,
the list is empty and it runs `synchronous_commands`. The commands before are those of
`CheckDirectory`, none if the directory does not exist. -/
theorem CreateSingleSandbox_plan_and_commands (h : Host) (x : Externals) (sdef : SandboxDef)
    (l : List ExecutionList) (hok : (CreateSingleSandbox h x sdef).2 = Except.ok l) :
    l = (if sdef.RunConcurrently then
          planned_list (sandbox_dir_of x sdef) sdef.SkipStart sdef.LoadGrants
         else []) ∧
    ∃ pre, (CreateSingleSandbox h x sdef).1.filter Step.isCommand
        = pre ++ (if sdef.RunConcurrently then []
            else synchronous_commands (sandbox_dir_of x sdef) sdef.SkipStart sdef.LoadGrants) ∧
      (h.DirExists (sandbox_dir_of x sdef) = false → pre = []) := by
  obtain ⟨p, d, s, l0, hp, hd, hs, hl0, hl, htrace⟩ := CreateSingleSandbox_ok h x sdef l hok
  obtain ⟨fp, hdir, -, -, -⟩ := prepare_ok h x sdef p hp
  obtain ⟨fd, -⟩ := derive_options_frame h x _ _ d hd
  rw [hdir] at hs hl0 hl htrace
  have fs := check_stage_ok h _ s _ hs
  obtain ⟨a1, a2, a3⟩ := SameExceptPrepared_flags fp
  obtain ⟨b1, b2, b3⟩ := SameExceptDerived_flags fd
  obtain ⟨c1, c2, c3⟩ := SameExceptPrepared_flags fs
  have hrc : s.RunConcurrently = sdef.RunConcurrently := by rw [c1, b1, a1]
  have hss : s.SkipStart = sdef.SkipStart := by rw [c2, b2, a2]
  have hlg : s.LoadGrants = sdef.LoadGrants := by rw [c3, b3, a3]
  obtain ⟨i1, i2⟩ := init_stage_ok h x s _ l0 hl0
  have st := start_stage_eq s (sandbox_dir_of x sdef)
    [{ Priority := 0, Command := { Cmd := sandbox_dir_of x sdef ++ "/init_db", Args := [] } }]
  rw [← i1] at st
  obtain ⟨st1, st2⟩ := st
  rw [hrc, hss, hlg] at st1 st2
  rw [hrc] at i2
  constructor
  · rw [hl, st1]
    cases sdef.RunConcurrently
    · rfl
    · simp [planned_list]
  · refine ⟨(check_stage h d.sdef (sandbox_dir_of x sdef)).1.filter Step.isCommand, ?_, ?_⟩
    · rw [htrace]
      simp only [List.filter_append, prepare_no_command, derive_options_no_command,
        scripts_stage_no_command, i2, st2, List.nil_append]
      cases sdef.RunConcurrently
      · simp [synchronous_commands]
      · simp
    · intro habs
      rw [check_stage_absent h d.sdef _ habs]
      rfl

/-- C13: with `RunConcurrently` set, the execution list a returning `CreateSingleSandbox`
gives back is exactly: `init_db` at priority 0; then, only if `SkipStart` is unset,
`start` at priority 2; then, only if moreover `LoadGrants` is set, `load_grants` with
argument `pre_grants.sql` at priority 3, `load_grants` without argument at priority 4 and
`load_grants` with argument `post_grants.sql` at priority 5. The priorities are strictly
ascending along the list, and with `SkipStart` set the list is the `init_db` item alone. -/
theorem CreateSingleSandbox_execution_list (h : Host) (x : Externals) (sdef : SandboxDef)
    (l : List ExecutionList) (hc : sdef.RunConcurrently = true)
    (hok : (CreateSingleSandbox h x sdef).2 = Except.ok l) :
    l = [{ Priority := 0,
           Command := { Cmd := sandbox_dir_of x sdef ++ "/init_db", Args := [] } }]
        ++ (if sdef.SkipStart then []
            else
              [{ Priority := 2,
                 Command := { Cmd := sandbox_dir_of x sdef ++ "/start", Args := [] } }]
              ++ (if sdef.LoadGrants then
                    [{ Priority := 3,
                       Command := { Cmd := sandbox_dir_of x sdef ++ "/load_grants",
                                    Args := ["pre_grants.sql"] } },
                     { Priority := 4,
                       Command := { Cmd := sandbox_dir_of x sdef ++ "/load_grants",
                                    Args := [] } },
                     { Priority := 5,
                       Command := { Cmd := sandbox_dir_of x sdef ++ "/load_grants",
                                    Args := ["post_grants.sql"] } }]
                  else [])) ∧
    List.Pairwise (fun a b => a < b) (l.map fun item => item.Priority) ∧
    (sdef.SkipStart = true →
      l = [{ Priority := 0,
             Command := { Cmd := sandbox_dir_of x sdef ++ "/init_db", Args := [] } }]) := by
  obtain ⟨hl, -⟩ := CreateSingleSandbox_plan_and_commands h x sdef l hok
  rw [hc] at hl
  simp only [if_true] at hl
  subst hl
  unfold planned_list
  refine ⟨rfl, ?_, ?_⟩
  · cases sdef.SkipStart <;> cases sdef.LoadGrants <;> simp
  · intro hs
    rw [hs]
    rfl

/-- Witness for C13: version 8.0.11 under `/sb`, with grants, planned concurrently. -/
theorem CreateSingleSandbox_execution_list_witness :
    (CreateSingleSandbox host_8_0_11 (externalsOf [] [])
        { sdef_8_0_11 with RunConcurrently := true }).2
      = Except.ok
        [{ Priority := 0, Command := { Cmd := "/sb/msb_8_0_11/init_db", Args := [] } },
         { Priority := 2, Command := { Cmd := "/sb/msb_8_0_11/start", Args := [] } },
         { Priority := 3, Command := { Cmd := "/sb/msb_8_0_11/load_grants",
                                       Args := ["pre_grants.sql"] } },
         { Priority := 4, Command := { Cmd := "/sb/msb_8_0_11/load_grants", Args := [] } },
         { Priority := 5, Command := { Cmd := "/sb/msb_8_0_11/load_grants",
                                       Args := ["post_grants.sql"] } }] ∧
    List.Pairwise (fun a b => a < b)
      (([{ Priority := 0, Command := { Cmd := "/sb/msb_8_0_11/init_db", Args := [] } },
         { Priority := 2, Command := { Cmd := "/sb/msb_8_0_11/start", Args := [] } },
         { Priority := 3, Command := { Cmd := "/sb/msb_8_0_11/load_grants",
                                       Args := ["pre_grants.sql"] } },
         { Priority := 4, Command := { Cmd := "/sb/msb_8_0_11/load_grants", Args := [] } },
         { Priority := 5, Command := { Cmd := "/sb/msb_8_0_11/load_grants",
                                       Args := ["post_grants.sql"] } }] :
        List ExecutionList).map fun item => item.Priority) :=
  ⟨by decide,
    (CreateSingleSandbox_execution_list host_8_0_11 (externalsOf [] [])
      { sdef_8_0_11 with RunConcurrently := true }
      [{ Priority := 0, Command := { Cmd := "/sb/msb_8_0_11/init_db", Args := [] } },
       { Priority := 2, Command := { Cmd := "/sb/msb_8_0_11/start", Args := [] } },
       { Priority := 3, Command := { Cmd := "/sb/msb_8_0_11/load_grants",
                                     Args := ["pre_grants.sql"] } },
       { Priority := 4, Command := { Cmd := "/sb/msb_8_0_11/load_grants", Args := [] } },
       { Priority := 5, Command := { Cmd := "/sb/msb_8_0_11/load_grants",
                                     Args := ["post_grants.sql"] } }]
      (by decide) (by decide)).2.1⟩

/-- C14: with `RunConcurrently` unset, a returning `CreateSingleSandbox` gives back an
empty execution list and runs the scripts itself, in the order `init_db`, `start`,
`load_grants pre_grants.sql`, `load_grants`, `load_grants post_grants.sql`: `start` and the
three `load_grants` only if `SkipStart` is unset, the three `load_grants` only if
`LoadGrants` is set. These are all the commands it launches, but for those of
`CheckDirectory` before them when the sandbox directory already exists. -/
theorem CreateSingleSandbox_synchronous (h : Host) (x : Externals) (sdef : SandboxDef)
    (l : List ExecutionList) (hc : sdef.RunConcurrently = false)
    (hok : (CreateSingleSandbox h x sdef).2 = Except.ok l) :
    l = [] ∧
    ∃ pre, (CreateSingleSandbox h x sdef).1.filter Step.isCommand
        = pre ++ ([Step.Run_cmd_ctrl (sandbox_dir_of x sdef ++ "/init_db") true]
            ++ (if sdef.SkipStart then []
                else
                  [Step.event (Event.Run_cmd (sandbox_dir_of x sdef ++ "/start"))]
                  ++ (if sdef.LoadGrants then
                        [Step.event (Event.Run_cmd_with_args
                            (sandbox_dir_of x sdef ++ "/load_grants") ["pre_grants.sql"]),
                         Step.event (Event.Run_cmd (sandbox_dir_of x sdef ++ "/load_grants")),
                         Step.event (Event.Run_cmd_with_args
                            (sandbox_dir_of x sdef ++ "/load_grants") ["post_grants.sql"])]
                      else []))) ∧
      (h.DirExists (sandbox_dir_of x sdef) = false → pre = []) := by
  obtain ⟨hl, pre, hpre, habs⟩ := CreateSingleSandbox_plan_and_commands h x sdef l hok
  rw [hc] at hl hpre
  simp only [Bool.false_eq_true, if_false] at hl hpre
  exact ⟨hl, pre, hpre, habs⟩

/-- Witness for C14: version 8.0.11 under `/sb`, with grants, run synchronously. -/
theorem CreateSingleSandbox_synchronous_witness :
    (CreateSingleSandbox host_8_0_11 (externalsOf [] []) sdef_8_0_11).2 = Except.ok [] ∧
    (CreateSingleSandbox host_8_0_11 (externalsOf [] []) sdef_8_0_11).1.filter Step.isCommand
      = [Step.Run_cmd_ctrl "/sb/msb_8_0_11/init_db" true,
         Step.event (Event.Run_cmd "/sb/msb_8_0_11/start"),
         Step.event (Event.Run_cmd_with_args "/sb/msb_8_0_11/load_grants" ["pre_grants.sql"]),
         Step.event (Event.Run_cmd "/sb/msb_8_0_11/load_grants"),
         Step.event (Event.Run_cmd_with_args "/sb/msb_8_0_11/load_grants"
            ["post_grants.sql"])] :=
  ⟨congrArg Except.ok
      (CreateSingleSandbox_synchronous host_8_0_11 (externalsOf [] []) sdef_8_0_11 []
        (by decide) (by decide)).1,
    by decide⟩

/-- C15, as stated, fails: run synchronously with grants, the `start` script ends with an
error and the three `load_grants` commands are launched all the same. -/
theorem start_failure_does_not_block :
    (externalsOf ["/sb/msb_8_0_11/start"] []).Run_cmd_error "/sb/msb_8_0_11/start"
      = some "exit status 1" ∧
    (CreateSingleSandbox host_8_0_11 (externalsOf ["/sb/msb_8_0_11/start"] [])
        sdef_8_0_11).1.filter Step.isCommand
      = [Step.Run_cmd_ctrl "/sb/msb_8_0_11/init_db" true,
         Step.event (Event.Run_cmd "/sb/msb_8_0_11/start"),
         Step.event (Event.Run_cmd_with_args "/sb/msb_8_0_11/load_grants" ["pre_grants.sql"]),
         Step.event (Event.Run_cmd "/sb/msb_8_0_11/load_grants"),
         Step.event (Event.Run_cmd_with_args "/sb/msb_8_0_11/load_grants"
            ["post_grants.sql"])] := by
  decide

/-- C15, amended: in single-node synchronous execution (`RunConcurrently` unset,
`SkipStart` unset, `LoadGrants` set) a returning `CreateSingleSandbox` launches, last and
in this order, `start`, `load_grants pre_grants.sql`, `load_grants` and
`load_grants post_grants.sql`, whether the `start` script ends with an error or not: its
result is discarded. -/
theorem CreateSingleSandbox_start_result_discarded (h : Host) (x : Externals)
    (sdef : SandboxDef) (l : List ExecutionList) (hc : sdef.RunConcurrently = false)
    (hs : sdef.SkipStart = false) (hg : sdef.LoadGrants = true)
    (hok : (CreateSingleSandbox h x sdef).2 = Except.ok l) :
    ∃ before, (CreateSingleSandbox h x sdef).1.filter Step.isCommand
        = before ++
          [Step.event (Event.Run_cmd (sandbox_dir_of x sdef ++ "/start")),
           Step.event (Event.Run_cmd_with_args
              (sandbox_dir_of x sdef ++ "/load_grants") ["pre_grants.sql"]),
           Step.event (Event.Run_cmd (sandbox_dir_of x sdef ++ "/load_grants")),
           Step.event (Event.Run_cmd_with_args
              (sandbox_dir_of x sdef ++ "/load_grants") ["post_grants.sql"])] := by
  obtain ⟨-, pre, hpre, -⟩ := CreateSingleSandbox_plan_and_commands h x sdef l hok
  rw [hc, hs, hg] at hpre
  refine ⟨pre ++ [Step.Run_cmd_ctrl (sandbox_dir_of x sdef ++ "/init_db") true], ?_⟩
  rw [hpre]
  simp [synchronous_commands]

/-- Witness for the amended C15: the `start` script fails and the call returns, having
launched `start` and the three `load_grants` commands last. -/
theorem CreateSingleSandbox_start_result_discarded_witness :
    ∃ before, (CreateSingleSandbox host_8_0_11 (externalsOf ["/sb/msb_8_0_11/start"] [])
        sdef_8_0_11).1.filter Step.isCommand
        = before ++
          [Step.event (Event.Run_cmd "/sb/msb_8_0_11/start"),
           Step.event (Event.Run_cmd_with_args "/sb/msb_8_0_11/load_grants"
              ["pre_grants.sql"]),
           Step.event (Event.Run_cmd "/sb/msb_8_0_11/load_grants"),
           Step.event (Event.Run_cmd_with_args "/sb/msb_8_0_11/load_grants"
              ["post_grants.sql"])] :=
  CreateSingleSandbox_start_result_discarded host_8_0_11
    (externalsOf ["/sb/msb_8_0_11/start"] []) sdef_8_0_11 [] (by decide) (by decide)
    (by decide) (by decide)

/-- C16, as stated, fails: for version 5.7.30 with the general log enabled the derivation
gives `MyCnfOptions = ["general_log=1"]`, and applied to its own result it gives
`["general_log=1", "general_log=1"]`. -/
theorem derive_options_not_idempotent :
    (derive_options host_8_0_11 (externalsOf [] []) "/tmp"
        { sdef_8_0_11 with Version := "5.7.30", EnableGeneralLog := true }).2
      = Except.ok { sdef := { sdef_8_0_11 with Version := "5.7.30", EnableGeneralLog := true,
                                                MyCnfOptions := ["general_log=1"] },
                    using_plugins := false, right_plugin_dir := true } ∧
    (derive_options host_8_0_11 (externalsOf [] []) "/tmp"
        { sdef_8_0_11 with Version := "5.7.30", EnableGeneralLog := true,
                            MyCnfOptions := ["general_log=1"] }).2
      = Except.ok { sdef := { sdef_8_0_11 with Version := "5.7.30", EnableGeneralLog := true,
                                                MyCnfOptions := ["general_log=1",
                                                                 "general_log=1"] },
                    using_plugins := false, right_plugin_dir := true } := by
  decide

/-! ## `CreateSingleSandbox`: exposing the data dictionary tables -/

theorem except_error_of_not_ok {α : Type} (r : Except String α)
    (hr : ∀ a, r ≠ Except.ok a) : ∃ e, r = Except.error e := by
  cases r with
  | error e => exact ⟨e, rfl⟩
  | ok a => exact absurd rfl (hr a)

theorem derive_options_ok (h : Host) (x : Externals) (tmp : String) (sdef : SandboxDef)
    (e : Derived) (he : (derive_options h x tmp sdef).2 = Except.ok e) :
    ∃ d1 d2 d3 s4,
      (rule_enable_mysqlx x tmp
        { sdef := sdef, using_plugins := false, right_plugin_dir := true }).2 = Except.ok d1 ∧
      (rule_expose_dd_tables x (rule_mysqlx_default x d1)).2 = Except.ok d2 ∧
      (rule_custom_mysqld h d2).2 = Except.ok d3 ∧
      (rule_mysqlx_8011 x tmp (rule_native_auth x (rule_general_log x d3.sdef))).2
        = Except.ok s4 ∧
      (rule_plugin_check (rule_plugin_load { d3 with sdef := rule_my_cnf_file x s4 })).2
        = Except.ok e := by
  unfold derive_options at he
  rw [andThen_ok_iff] at he
  obtain ⟨d1, h1, he⟩ := he
  rw [andThen_ok_iff] at he
  obtain ⟨d2, h2, he⟩ := he
  rw [andThen_ok_iff] at he
  obtain ⟨d3, h3, he⟩ := he
  rw [andThen_ok_iff] at he
  obtain ⟨s4, h4, he⟩ := he
  exact ⟨d1, d2, d3, s4, h1, h2, h3, h4, he⟩

theorem SameExceptPrepared_fields {s t : SandboxDef} (hf : SameExceptPrepared s t) :
    t.ExposeDdTables = s.ExposeDdTables ∧ t.Version = s.Version ∧
      t.CustomMysqld = s.CustomMysqld ∧ t.Basedir = s.Basedir ∧
      t.MyCnfOptions = s.MyCnfOptions ∧ t.SemiSyncOptions = s.SemiSyncOptions := by
  unfold SameExceptPrepared at hf
  rw [hf]
  exact ⟨rfl, rfl, rfl, rfl, rfl, rfl⟩

theorem SameExceptDerived_fields {s t : SandboxDef} (hf : SameExceptDerived s t) :
    t.ExposeDdTables = s.ExposeDdTables ∧ t.Version = s.Version ∧
      t.Basedir = s.Basedir ∧ t.SemiSyncOptions = s.SemiSyncOptions := by
  unfold SameExceptDerived at hf
  rw [hf]
  exact ⟨rfl, rfl, rfl, rfl⟩

theorem rule_enable_mysqlx_CustomMysqld (x : Externals) (tmp : String) (d e : Derived)
    (hd : (rule_enable_mysqlx x tmp d).2 = Except.ok e) :
    e.sdef.CustomMysqld = d.sdef.CustomMysqld := by
  unfold rule_enable_mysqlx at hd
  split_ifs at hd
  all_goals first
    | (exfalso; cases hd; done)
    | (simp only [Except.ok.injEq] at hd
       subst hd
       rfl)
    | (rw [andThen_ok_iff] at hd
       obtain ⟨s, hs, he⟩ := hd
       simp only [Except.ok.injEq] at he
       subst he
       obtain ⟨port, rfl, -, -⟩ := set_mysqlx_properties_ok x _ s tmp hs
       rfl)

theorem rule_expose_dd_tables_error (x : Externals) (d : Derived)
    (he : d.sdef.ExposeDdTables = true)
    (hbad : x.GreaterOrEqualVersion d.sdef.Version [8, 0, 0] = false ∨
      (d.sdef.CustomMysqld ≠ "" ∧ d.sdef.CustomMysqld ≠ "mysqld-debug")) :
    ∀ e, (rule_expose_dd_tables x d).2 ≠ Except.ok e := by
  intro e hd
  unfold rule_expose_dd_tables at hd
  rw [if_pos he] at hd
  rcases hbad with hv | hc
  · rw [hv] at hd
    simp at hd
  · split_ifs at hd

/-! ## `CreateSingleSandbox`: plugins and the plugin directory -/

theorem matchAnywhere_nil (l : List Char) : matchAnywhere [] l = true := by
  cases l <;> simp [matchAnywhere, matchPrefix]

theorem matchPrefix_append (p : List Atom) (u v : List Char)
    (hm : matchPrefix p u = true) : matchPrefix p (u ++ v) = true := by
  induction p generalizing u with
  | nil => simp [matchPrefix]
  | cons a rest ih =>
    cases u with
    | nil => simp [matchPrefix] at hm
    | cons c cs =>
      simp only [matchPrefix, Bool.and_eq_true] at hm
      simp only [List.cons_append, matchPrefix, Bool.and_eq_true]
      exact ⟨hm.1, ih cs hm.2⟩

theorem matchAnywhere_append (p : List Atom) (u v : List Char)
    (hm : matchAnywhere p u = true) : matchAnywhere p (u ++ v) = true := by
  induction u with
  | nil =>
    cases p with
    | nil => exact matchAnywhere_nil _
    | cons a rest => simp [matchAnywhere, matchPrefix] at hm
  | cons c cs ih =>
    simp only [matchAnywhere, Bool.or_eq_true] at hm
    simp only [List.cons_append, matchAnywhere, Bool.or_eq_true]
    rcases hm with hm | hm
    · exact Or.inl (matchPrefix_append p (c :: cs) v hm)
    · exact Or.inr (ih hm)

theorem slice_to_text_loop_data (l : List String) (t : String) :
    (slice_to_text_loop l t).data = t.data ++ (slice_to_text_loop l "").data := by
  induction l generalizing t with
  | nil => simp [slice_to_text_loop]
  | cons v rest ih =>
    simp only [slice_to_text_loop]
    split_ifs
    · rw [ih (t ++ (v ++ "\n")), ih ("" ++ (v ++ "\n"))]
      simp [String.data_append]
    · exact ih t

theorem slice_to_text_append (a b : List String) :
    (slice_to_text (a ++ b)).data = (slice_to_text a).data ++ (slice_to_text b).data := by
  unfold slice_to_text
  have hloop : ∀ (l : List String) (t : String),
      slice_to_text_loop (l ++ b) t = slice_to_text_loop b (slice_to_text_loop l t) := by
    intro l
    induction l with
    | nil => intro t; rfl
    | cons v rest ih =>
      intro t
      simp only [List.cons_append, slice_to_text_loop]
      split_ifs
      · exact ih _
      · exact ih _
  rw [hloop, slice_to_text_loop_data]

theorem Includes_of_prefix (l1 l2 : List String) (pattern : String) (hp : l1 <+: l2)
    (hi : Includes (slice_to_text l1) pattern = true) :
    Includes (slice_to_text l2) pattern = true := by
  obtain ⟨c, rfl⟩ := hp
  unfold Includes at hi ⊢
  rw [slice_to_text_append]
  exact matchAnywhere_append _ _ _ hi

theorem rule_plugin_load_using (d : Derived)
    (hi : Includes (slice_to_text d.sdef.MyCnfOptions) "plugin.load" = true ∨
      Includes d.sdef.SemiSyncOptions "plugin.load" = true ∨ d.using_plugins = true) :
    (rule_plugin_load d).using_plugins = true := by
  unfold rule_plugin_load
  dsimp only
  split_ifs with h1 h2 h3
  · rfl
  · rfl
  · rfl
  · rcases hi with hi | hi | hi
    · exact absurd hi h1
    · exact absurd hi h3
    · exact hi

theorem rule_plugin_check_error_iff (d : Derived) :
    (∃ e, (rule_plugin_check d).2 = Except.error e) ↔
      (d.using_plugins = true ∧ d.right_plugin_dir = false) := by
  unfold rule_plugin_check
  cases d.using_plugins <;> cases d.right_plugin_dir <;> simp

theorem rule_custom_mysqld_ok (h : Host) (d e : Derived)
    (hd : (rule_custom_mysqld h d).2 = Except.ok e) :
    (d.sdef.CustomMysqld = "" → e = d) ∧
    (d.sdef.CustomMysqld ≠ "" →
      ¬ (d.sdef.CustomMysqld = "mysqld-debug" ∧
          h.DirExists (d.sdef.Basedir ++ "/lib/plugin/debug") = true) →
      e.right_plugin_dir = false) ∧
    (d.sdef.CustomMysqld ≠ "" →
      (d.sdef.CustomMysqld = "mysqld-debug" ∧
          h.DirExists (d.sdef.Basedir ++ "/lib/plugin/debug") = true) →
      e.right_plugin_dir = d.right_plugin_dir) := by
  unfold rule_custom_mysqld at hd
  dsimp only at hd
  by_cases h1 : d.sdef.CustomMysqld ≠ ""
  · rw [if_pos h1] at hd
    by_cases h2 : (!h.ExecExists (d.sdef.Basedir ++ "/bin/" ++ d.sdef.CustomMysqld)) = true
    · rw [if_pos h2] at hd
      cases hd
    · rw [if_neg h2] at hd
      by_cases h3 : d.sdef.CustomMysqld = "mysqld-debug" ∧
          h.DirExists (d.sdef.Basedir ++ "/lib/plugin/debug") = true
      · rw [if_pos h3] at hd
        simp only [Except.ok.injEq] at hd
        subst hd
        exact ⟨fun he => absurd he h1, fun _ hn => absurd h3 hn, fun _ _ => rfl⟩
      · rw [if_neg h3] at hd
        simp only [Except.ok.injEq] at hd
        subst hd
        exact ⟨fun he => absurd he h1, fun _ _ => rfl, fun _ hy => absurd hy h3⟩
  · rw [if_neg h1] at hd
    simp only [Except.ok.injEq] at hd
    subst hd
    exact ⟨fun _ => rfl, fun hn => absurd hn h1, fun hn => absurd hn h1⟩

theorem rule_expose_dd_tables_CustomMysqld (x : Externals) (d e : Derived)
    (hd : (rule_expose_dd_tables x d).2 = Except.ok e) :
    (d.sdef.CustomMysqld ≠ "" → e.sdef.CustomMysqld = d.sdef.CustomMysqld) ∧
    (d.sdef.ExposeDdTables = false → e = d) := by
  unfold rule_expose_dd_tables at hd
  by_cases h1 : d.sdef.ExposeDdTables = true
  · rw [if_pos h1] at hd
    by_cases h2 : (!x.GreaterOrEqualVersion d.sdef.Version [8, 0, 0]) = true
    · rw [if_pos h2] at hd
      cases hd
    · rw [if_neg h2] at hd
      by_cases h3 : d.sdef.CustomMysqld ≠ "" ∧ d.sdef.CustomMysqld ≠ "mysqld-debug"
      · rw [if_pos h3] at hd
        cases hd
      · rw [if_neg h3] at hd
        simp only [Except.ok.injEq] at hd
        subst hd
        refine ⟨fun hne => ?_, fun hf => ?_⟩
        · have hdebug : d.sdef.CustomMysqld = "mysqld-debug" := by
            by_contra hc
            exact h3 ⟨hne, hc⟩
          exact hdebug.symm
        · rw [hf] at h1
          cases h1
  · rw [if_neg h1] at hd
    simp only [Except.ok.injEq] at hd
    subst hd
    exact ⟨fun _ => rfl, fun _ => rfl⟩

theorem rule_my_cnf_file_options (x : Externals) (s : SandboxDef) (hf : s.MyCnfFile ≠ "") :
    (rule_my_cnf_file x s).MyCnfOptions
      = (s.MyCnfOptions ++
          (if (GetOptionsFromFile x s.MyCnfFile).length > 0 then
            ["# options retrieved from " ++ s.MyCnfFile]
           else [])) ++ GetOptionsFromFile x s.MyCnfFile := by
  unfold rule_my_cnf_file
  dsimp only
  rw [if_pos hf]
  split_ifs
  · rfl
  · simp

/-! ## `CreateSingleSandbox`: the extension interface from 8.0.11 on -/

/-- C20, as stated, fails: for version 8.0.11 with the extension not disabled the rule
allocates port 18011, records it in `MorePorts` and `MysqlXPort`, and adds a port
directive before the socket path. -/
theorem rule_mysqlx_8011_adds_port :
    GreaterOrEqualVersion_model sdef_8_0_11.Version [8, 0, 11] = true ∧
    sdef_8_0_11.DisableMysqlX = false ∧
    rule_mysqlx_8011 (externalsOf [] []) "/tmp" sdef_8_0_11
      = ([Step.FindFreePort 18011 [] 1],
         Except.ok { sdef_8_0_11 with
           MyCnfOptions := ["mysqlx-port=18011", "mysqlx-socket=/tmp/mysqlx-18011.sock"]
           MorePorts := [18011]
           MysqlXPort := 18011 }) := by
  decide

/-- C20, amended: for every version at or above 8.0.11, the extension-interface rule adds
to `MyCnfOptions` only `"mysqlx=OFF"` when `DisableMysqlX` is set; when it is not, it adds
the port directive `mysqlx-port=<p>` followed by the socket path
`mysqlx-socket=<tmp>/mysqlx-<p>.sock` and records `p` in `MorePorts` and `MysqlXPort`,
where `p` is `MysqlXPort` if that is not 0 (no port is then allocated) and otherwise the
port `common.FindFreePort` allocates from `Port + MysqlXPortDelta`. No plugin-load
directive is added: the rule of `EnableMysqlX` leaves the definition as it is. -/
theorem rule_mysqlx_8011_spec (x : Externals) (tmp : String) (sdef : SandboxDef)
    (hv : x.GreaterOrEqualVersion sdef.Version [8, 0, 11] = true) :
    (sdef.DisableMysqlX = true →
      rule_mysqlx_8011 x tmp sdef
        = ([], Except.ok { sdef with MyCnfOptions := sdef.MyCnfOptions ++ ["mysqlx=OFF"] })) ∧
    (sdef.DisableMysqlX = false → sdef.MysqlXPort ≠ 0 →
      rule_mysqlx_8011 x tmp sdef
        = ([], Except.ok { sdef with
            MyCnfOptions := sdef.MyCnfOptions ++ ["mysqlx-port=" ++ Itoa sdef.MysqlXPort,
              "mysqlx-socket=" ++ tmp ++ "/mysqlx-" ++ Itoa sdef.MysqlXPort ++ ".sock"]
            MorePorts := sdef.MorePorts ++ [sdef.MysqlXPort] })) ∧
    (sdef.DisableMysqlX = false → sdef.MysqlXPort = 0 →
      ∀ port, x.FindFreePort (sdef.Port + x.MysqlXPortDelta) sdef.InstalledPorts 1
          = Except.ok port →
      rule_mysqlx_8011 x tmp sdef
        = ([Step.FindFreePort (sdef.Port + x.MysqlXPortDelta) sdef.InstalledPorts 1],
           Except.ok { sdef with
            MyCnfOptions := sdef.MyCnfOptions ++ ["mysqlx-port=" ++ Itoa port,
              "mysqlx-socket=" ++ tmp ++ "/mysqlx-" ++ Itoa port ++ ".sock"]
            MorePorts := sdef.MorePorts ++ [port]
            MysqlXPort := port })) ∧
    (∀ d e : Derived, d.sdef = sdef →
      (rule_enable_mysqlx x tmp d).2 = Except.ok e → e.sdef = sdef) := by
  refine ⟨?_, ?_, ?_, ?_⟩
  · intro hd
    unfold rule_mysqlx_8011
    rw [if_pos hv, if_pos hd]
  · intro hd hp
    unfold rule_mysqlx_8011 set_mysqlx_properties
    rw [if_pos hv, if_neg (by rw [hd]; simp)]
    dsimp only
    rw [if_neg hp]
    simp only [List.append_assoc, List.singleton_append, Prod.mk.injEq, Except.ok.injEq,
      true_and]
  · intro hd hp port hport
    unfold rule_mysqlx_8011 set_mysqlx_properties
    rw [if_pos hv, if_neg (by rw [hd]; simp)]
    dsimp only
    rw [if_pos hp, hport]
    simp only [List.append_assoc, List.singleton_append]
  · intro d e hds he
    unfold rule_enable_mysqlx at he
    rw [hds, hv] at he
    split_ifs at he
    all_goals first
      | (exfalso; cases he; done)
      | (simp only [Except.ok.injEq] at he
         subst he
         first
           | exact hds
           | rfl)
      | (rename_i hc
         exact absurd hc (by decide))

/-- Witness for the amended C20: version 8.0.11 with the extension disabled gets
`mysqlx=OFF` and nothing else. -/
theorem rule_mysqlx_8011_spec_witness :
    rule_mysqlx_8011 (externalsOf [] []) "/tmp" { sdef_8_0_11 with DisableMysqlX := true }
      = ([], Except.ok { sdef_8_0_11 with DisableMysqlX := true,
                                           MyCnfOptions := ["mysqlx=OFF"] }) :=
  (rule_mysqlx_8011_spec (externalsOf [] []) "/tmp"
    { sdef_8_0_11 with DisableMysqlX := true } (by decide)).1 (by decide)


/-! ## Claim C23: the stop command of a forced overwrite -/

/-- C23: the code departs from the claim. The directory `/sb/msb` holds both `stop` and
`stop_all`, executable, and is not locked: the forced overwrite of `CheckDirectory` runs
`stop`, and `stop_all` is not run; for the same directory `RemoveSandbox` plans
`stop_all`. -/
theorem CheckDirectory_runs_stop_when_both :
    (hostOf ["/sb/msb"] [] ["/sb/msb/stop", "/sb/msb/stop_all"] []).ExecExists
        "/sb/msb/stop_all" = true ∧
    is_locked (hostOf ["/sb/msb"] [] ["/sb/msb/stop", "/sb/msb/stop_all"] []) "/sb/msb"
      = false ∧
    (CheckDirectory (hostOf ["/sb/msb"] [] ["/sb/msb/stop", "/sb/msb/stop_all"] [])
        { zeroSandboxDef with SandboxDir := "/sb/msb", Force := true }).1
      = [Event.printed "Overwriting directory /sb/msb\n",
         Event.Run_cmd "/sb/msb/stop",
         Event.Run_cmd_with_args "rm" ["-rf", "/sb/msb"]] ∧
    RemoveSandbox (hostOf ["/sb/msb"] [] ["/sb/msb/stop", "/sb/msb/stop_all"] [])
        (externalsOf [] []) "/sb" "msb" true
      = ([], Except.ok
          [{ Priority := 0, Command := { Cmd := "/sb/msb/stop_all", Args := [] } },
           { Priority := 1, Command := { Cmd := "rm", Args := ["-rf", "/sb/msb"] } }]) := by
  decide

/-- The stop command of `CheckDirectory`: during a forced overwrite of an existing, unlocked
directory it probes the single stop command first: it runs `<dir>/stop` whenever that is
executable (also when `<dir>/stop_all` is executable too) and `<dir>/stop_all` otherwise;
when neither is executable it prints a warning first, and in every case the command is
followed by the removal of the directory. When no removal returns an error the call is
not fatal. -/
theorem CheckDirectory_stop_command (h : Host) (sdef : SandboxDef)
    (hdir : h.DirExists sdef.SandboxDir = true) (hforce : sdef.Force = true)
    (hlock : is_locked h sdef.SandboxDir = false) :
    (∃ rest, (CheckDirectory h sdef).1 =
      Event.printed ("Overwriting directory " ++ sdef.SandboxDir ++ "\n") ::
        ((if h.ExecExists (sdef.SandboxDir ++ "/stop") = false ∧
              h.ExecExists (sdef.SandboxDir ++ "/stop_all") = false then
            [Event.printed
              ("Neither 'stop' or 'stop_all' found in " ++ sdef.SandboxDir ++ "\n")]
          else []) ++
          Event.Run_cmd
            (if h.ExecExists (sdef.SandboxDir ++ "/stop") = true then
              sdef.SandboxDir ++ "/stop"
             else sdef.SandboxDir ++ "/stop_all") ::
          Event.Run_cmd_with_args "rm" ["-rf", sdef.SandboxDir] :: rest)) ∧
    ((∀ args, h.Run_cmd_with_args_ok "rm" args = true) →
      ∃ s, (CheckDirectory h sdef).2 = Except.ok s) := by
  constructor
  · unfold CheckDirectory
    by_cases h1 : h.ExecExists (sdef.SandboxDir ++ "/stop") = true
    · by_cases hr : h.Run_cmd_with_args_ok "rm" ["-rf", sdef.SandboxDir] = true
      · by_cases hl : getLogDirFromSbDescription h sdef.SandboxDir = ""
        · by_cases hr2 : h.Run_cmd_with_args_ok "rm"
              ["-rf", getLogDirFromSbDescription h sdef.SandboxDir] = true <;>
            simp [hdir, hforce, hlock, h1, hr, hl, hr2]
        · by_cases hr2 : h.Run_cmd_with_args_ok "rm"
              ["-rf", getLogDirFromSbDescription h sdef.SandboxDir] = true <;>
            simp [hdir, hforce, hlock, h1, hr, hl, hr2]
      · simp [hdir, hforce, hlock, h1, hr]
    · by_cases h2 : h.ExecExists (sdef.SandboxDir ++ "/stop_all") = true
      · by_cases hr : h.Run_cmd_with_args_ok "rm" ["-rf", sdef.SandboxDir] = true
        · by_cases hl : getLogDirFromSbDescription h sdef.SandboxDir = ""
          · by_cases hr2 : h.Run_cmd_with_args_ok "rm"
                ["-rf", getLogDirFromSbDescription h sdef.SandboxDir] = true <;>
              simp [hdir, hforce, hlock, h1, h2, hr, hl, hr2]
          · by_cases hr2 : h.Run_cmd_with_args_ok "rm"
                ["-rf", getLogDirFromSbDescription h sdef.SandboxDir] = true <;>
              simp [hdir, hforce, hlock, h1, h2, hr, hl, hr2]
        · simp [hdir, hforce, hlock, h1, h2, hr]
      · by_cases hr : h.Run_cmd_with_args_ok "rm" ["-rf", sdef.SandboxDir] = true
        · by_cases hl : getLogDirFromSbDescription h sdef.SandboxDir = ""
          · by_cases hr2 : h.Run_cmd_with_args_ok "rm"
                ["-rf", getLogDirFromSbDescription h sdef.SandboxDir] = true <;>
              simp [hdir, hforce, hlock, h1, h2, hr, hl, hr2]
          · by_cases hr2 : h.Run_cmd_with_args_ok "rm"
                ["-rf", getLogDirFromSbDescription h sdef.SandboxDir] = true <;>
              simp [hdir, hforce, hlock, h1, h2, hr, hl, hr2]
        · simp [hdir, hforce, hlock, h1, h2, hr]
  · intro hrm
    unfold CheckDirectory
    simp [hdir, hforce, hlock, hrm]

/-- Example: in `/sb/multi` only `stop_all` is executable, and it is the command the forced
overwrite runs before the removal. -/
theorem CheckDirectory_stop_command_witness :
    ∃ rest, (CheckDirectory (hostOf ["/sb/multi"] [] ["/sb/multi/stop_all"] [])
        { zeroSandboxDef with SandboxDir := "/sb/multi", Force := true }).1 =
      Event.printed ("Overwriting directory " ++ "/sb/multi" ++ "\n") ::
        ((if (hostOf ["/sb/multi"] [] ["/sb/multi/stop_all"] []).ExecExists
                ("/sb/multi" ++ "/stop") = false ∧
              (hostOf ["/sb/multi"] [] ["/sb/multi/stop_all"] []).ExecExists
                ("/sb/multi" ++ "/stop_all") = false then
            [Event.printed ("Neither 'stop' or 'stop_all' found in " ++ "/sb/multi" ++ "\n")]
          else []) ++
          Event.Run_cmd
            (if (hostOf ["/sb/multi"] [] ["/sb/multi/stop_all"] []).ExecExists
                ("/sb/multi" ++ "/stop") = true then
              "/sb/multi" ++ "/stop"
             else "/sb/multi" ++ "/stop_all") ::
          Event.Run_cmd_with_args "rm" ["-rf", "/sb/multi"] :: rest) :=
  (CheckDirectory_stop_command (hostOf ["/sb/multi"] [] ["/sb/multi/stop_all"] [])
    { zeroSandboxDef with SandboxDir := "/sb/multi", Force := true }
    (by decide) (by decide) (by decide)).1

/-! ## Claim C24: the two checks at the head of `CreateSingleSandbox` -/

/-- Claim C24: `CreateSingleSandbox` is fatal whenever `Basedir` does not exist and
whenever `Port <= 1024`; in both cases all it has done is to open its log: no port was
allocated, no directory created, no script written, no command run. -/
theorem CreateSingleSandbox_early_checks (h : Host) (x : Externals) (sdef : SandboxDef)
    (hbad : h.DirExists sdef.Basedir = false ∨ sdef.Port ≤ 1024) :
    (∃ e, (CreateSingleSandbox h x sdef).2 = Except.error e) ∧
    (∃ log_name, (CreateSingleSandbox h x sdef).1 = [Step.NewLogger x.LogDirName log_name]) ∧
    ∀ s ∈ (CreateSingleSandbox h x sdef).1, s.isCommand = false ∧
      (∀ p l n, s ≠ Step.FindFreePort p l n) ∧ (∀ d, s ≠ Step.Mkdir d) ∧
      ∀ n t d e, s ≠ Step.write_script n t d e := by
  have key : ∃ log_name e, prepare h x sdef
      = ([Step.NewLogger x.LogDirName log_name], Except.error e) := by
    unfold prepare
    by_cases hb : h.DirExists sdef.Basedir = true
    · have hp : sdef.Port ≤ 1024 := by
        rcases hbad with hb2 | hp
        · rw [hb] at hb2; cases hb2
        · exact hp
      simp only [hb, Bool.not_true, Bool.false_eq_true, if_false, hp, if_true]
      exact ⟨_, _, rfl⟩
    · simp only [hb, Bool.not_eq_true] at hb ⊢
      simp only [hb, Bool.not_false, if_true]
      exact ⟨_, _, rfl⟩
  obtain ⟨log_name, e, hprep⟩ := key
  have hrun : CreateSingleSandbox h x sdef
      = ([Step.NewLogger x.LogDirName log_name], Except.error e) := by
    unfold CreateSingleSandbox
    rw [hprep]
    rfl
  rw [hrun]
  refine ⟨⟨e, rfl⟩, ⟨log_name, rfl⟩, ?_⟩
  intro s hs
  simp only [List.mem_singleton] at hs
  subst hs
  refine ⟨rfl, ?_, ?_, ?_⟩ <;> intros <;> simp

/-- Witness for C24: the request for port 80 is fatal after the log `single` was opened
and nothing else was done. -/
theorem CreateSingleSandbox_early_checks_witness :
    (∃ e, (CreateSingleSandbox host_8_0_11 (externalsOf [] [])
        { sdef_8_0_11 with Port := 80 }).2 = Except.error e) ∧
    ∃ log_name, (CreateSingleSandbox host_8_0_11 (externalsOf [] [])
        { sdef_8_0_11 with Port := 80 }).1
      = [Step.NewLogger (externalsOf [] []).LogDirName log_name] :=
  ⟨(CreateSingleSandbox_early_checks host_8_0_11 (externalsOf [] [])
      { sdef_8_0_11 with Port := 80 } (Or.inr (by decide))).1,
   (CreateSingleSandbox_early_checks host_8_0_11 (externalsOf [] [])
      { sdef_8_0_11 with Port := 80 } (Or.inr (by decide))).2.1⟩

/-! ## Claim C25: requests whose minimum version is not met -/

theorem SameExceptDerived_requests {s t : SandboxDef} (hf : SameExceptDerived s t) :
    t.EnableMysqlX = s.EnableMysqlX ∧ t.NativeAuthPlugin = s.NativeAuthPlugin ∧
      t.EnableGeneralLog = s.EnableGeneralLog ∧ t.InitGeneralLog = s.InitGeneralLog := by
  unfold SameExceptDerived at hf
  rw [hf]
  exact ⟨rfl, rfl, rfl, rfl⟩

/-- The length test at the head of `nodes_list_to_int_slice` never holds, so the function
is the conversion of the tokens of the one split. -/
theorem nodes_list_to_int_slice_eq (nodes_list : String) (nodes : Int) :
    nodes_list_to_int_slice nodes_list nodes =
      match convert_tokens (strings_Split nodes_list (choose_separator nodes_list)) [] with
      | Except.error e => Except.error e
      | Except.ok int_list =>
        Except.ok (int_list, list_warnings nodes_list nodes int_list) := by
  have hne := strings_Split_ne_nil nodes_list (choose_separator nodes_list)
  have hlen : (strings_Split nodes_list (choose_separator nodes_list)).length ≠ 0 := by
    simpa [List.length_eq_zero] using hne
  unfold nodes_list_to_int_slice
  simp only [hlen, if_false]

/-- Splitting a period-joined list of digit strings on the separator the source chooses
gives back the digit strings. -/
theorem splitOn_choose_separator_period (ls : List (List Char)) (hne : ls ≠ [])
    (hdec : ∀ l ∈ ls, ∀ c ∈ l, isDecimal c) :
    (['.'].intercalate ls).splitOn (choose_separator (String.mk (['.'].intercalate ls)))
      = ls := by
  have hsepnot : ∀ l ∈ ls, '.' ∉ l := by
    intro l hl hmem
    exact (isDecimal_ne_separator '.' (hdec l hl '.' hmem)).2.2.2.1 rfl
  have hsplit := List.splitOn_intercalate ls '.' hsepnot hne
  have habsent : ∀ c, (c = ',' ∨ c = ':' ∨ c = ';' ∨ c = ' ') →
      c ∉ ['.'].intercalate ls := by
    intro c hc hmem
    rcases mem_intercalate_sep '.' c ls hmem with h | ⟨l, hl, hcl⟩
    · rcases hc with h2 | h2 | h2 | h2 <;> (rw [h2] at h; revert h; decide)
    · have := isDecimal_ne_separator c (hdec l hl c hcl)
      rcases hc with h | h | h | h <;> simp [h] at this
  have h1 := habsent ',' (by simp)
  have h2 := habsent ':' (by simp)
  have h3 := habsent ';' (by simp)
  have h4 := habsent ' ' (by simp)
  by_cases hin : '.' ∈ ['.'].intercalate ls
  · have hch : choose_separator (String.mk (['.'].intercalate ls)) = '.' := by
      rw [choose_separator_eq]
      simp [hin, h1, h2, h3]
    rw [hch, hsplit]
  · have hch : choose_separator (String.mk (['.'].intercalate ls)) = ' ' := by
      rw [choose_separator_eq]
      simp [hin, h1, h2, h3]
    have hsingle : ∀ c, c ∉ ['.'].intercalate ls →
        (['.'].intercalate ls).splitOn c = [['.'].intercalate ls] := by
      intro c hc
      refine List.splitOnP_eq_single _ _ ?_
      intro y hy H
      rw [eq_of_beq H] at hy
      exact hc hy
    rw [hch, hsingle ' ' h4]
    exact (hsplit.symm.trans (hsingle '.' hin)).symm

/-- When the split of the joined renderings gives the renderings back, the call returns
the numbers. -/
theorem nodes_list_to_int_slice_of_split (xs : List Nat) (sep : Char) (nodes : Int)
    (hfit : ∀ x ∈ xs, x < 2 ^ 63)
    (hsp : ([sep].intercalate (xs.map (Nat.toDigits 10))).splitOn
        (choose_separator (String.mk ([sep].intercalate (xs.map (Nat.toDigits 10)))))
      = xs.map (Nat.toDigits 10)) :
    ∃ printed, nodes_list_to_int_slice (strings_Join (xs.map fun x : Nat => Itoa (x : Int)) sep)
        nodes = Except.ok (xs.map (fun x : Nat => (x : Int)), printed) := by
  have hls : List.map String.data (xs.map fun x : Nat => Itoa (x : Int))
      = xs.map (Nat.toDigits 10) := by
    simp [List.map_map, Function.comp_def, Itoa_ofNat_data]
  have hsplit : strings_Split (strings_Join (xs.map fun x : Nat => Itoa (x : Int)) sep)
      (choose_separator (strings_Join (xs.map fun x : Nat => Itoa (x : Int)) sep))
      = xs.map fun x : Nat => Itoa (x : Int) := by
    unfold strings_Split strings_Join
    rw [hls, hsp]
    simp only [List.map_map]
    rfl
  rw [nodes_list_to_int_slice_eq, hsplit, convert_tokens_Itoa xs hfit]
  simp

theorem digits_isDecimal (xs : List Nat) :
    ∀ l ∈ xs.map (Nat.toDigits 10), ∀ c ∈ l, isDecimal c := by
  intro l hl c hc
  simp only [List.mem_map] at hl
  obtain ⟨x, -, rfl⟩ := hl
  exact (toDigits_spec x).2.1 c hc

/-- C26, as stated, fails: a tab is whitespace and not a separator; the list `1`, tab,
`2` is one token, and the call is fatal. -/
theorem tab_separated_list_fatal :
    choose_separator "1\t2" = ' ' ∧
    nodes_list_to_int_slice "1\t2" 2
      = Except.error "Error converting node number '1\t2' to int" := by
  decide

/-- C26, amended: `nodes_list_to_int_slice` splits once, on one separator: the first of
comma, colon, semicolon, period that occurs in the expression, and the space character
when none of them occurs; the tokens of that one split are converted as they are, so a
separator of lower priority stays inside its token. Hence a period-separated list and a
space-separated list of numbers below `2^63` parse to their numbers (`"1.2.3"` and
`"1 2 3"` to `[1,2,3]`), and `"1,2:3"` is fatal because the token `"2:3"` is not numeric. -/
theorem nodes_list_to_int_slice_one_separator (nodes_list : String) (nodes : Int) :
    (choose_separator nodes_list =
      if ',' ∈ nodes_list.data then ','
      else if ':' ∈ nodes_list.data then ':'
      else if ';' ∈ nodes_list.data then ';'
      else if '.' ∈ nodes_list.data then '.'
      else ' ') ∧
    (nodes_list_to_int_slice nodes_list nodes =
      match convert_tokens
        ((nodes_list.data.splitOn (choose_separator nodes_list)).map String.mk) [] with
      | Except.error e => Except.error e
      | Except.ok int_list =>
        Except.ok (int_list, list_warnings nodes_list nodes int_list)) ∧
    (∀ xs : List Nat, xs ≠ [] → (∀ x ∈ xs, x < 2 ^ 63) → ∀ sep : Char, sep = '.' ∨ sep = ' ' →
      ∃ printed,
        nodes_list_to_int_slice (strings_Join (xs.map fun x : Nat => Itoa (x : Int)) sep) nodes
          = Except.ok (xs.map (fun x : Nat => (x : Int)), printed)) ∧
    nodes_list_to_int_slice "1.2.3" 3 = Except.ok ([1, 2, 3], []) ∧
    nodes_list_to_int_slice "1 2 3" 3 = Except.ok ([1, 2, 3], []) ∧
    strings_Split "1,2:3" (choose_separator "1,2:3") = ["1", "2:3"] ∧
    nodes_list_to_int_slice "1,2:3" nodes
      = Except.error "Error converting node number '2:3' to int" := by
  refine ⟨choose_separator_eq nodes_list, nodes_list_to_int_slice_eq nodes_list nodes, ?_,
    by decide, by decide, by decide, ?_⟩
  · intro xs hne hfit sep hsep
    apply nodes_list_to_int_slice_of_split xs sep nodes hfit
    have hne2 : xs.map (Nat.toDigits 10) ≠ [] := by simpa using hne
    rcases hsep with h | h
    · subst h
      exact splitOn_choose_separator_period _ hne2 (digits_isDecimal xs)
    · subst h
      exact splitOn_choose_separator _ ' ' hne2 (digits_isDecimal xs) (by simp)
  · rw [nodes_list_to_int_slice_eq]
    have hc : convert_tokens (strings_Split "1,2:3" (choose_separator "1,2:3")) []
        = Except.error "Error converting node number '2:3' to int" := by decide
    rw [hc]

/-- Witness for the amended C26: the period-separated list of 10, 2 and 30. -/
theorem nodes_list_to_int_slice_one_separator_witness :
    ∃ printed, nodes_list_to_int_slice
        (strings_Join ([10, 2, 30].map fun x : Nat => Itoa (x : Int)) '.') 3
      = Except.ok ([10, 2, 30].map (fun x : Nat => (x : Int)), printed) :=
  (nodes_list_to_int_slice_one_separator "" 3).2.2.1 [10, 2, 30] (by decide) (by decide) '.'
    (Or.inl rfl)

theorem convert_tokens_all_empty (toks : List String) (acc : List Int)
    (hall : ∀ tok ∈ toks, tok = "") : convert_tokens toks acc = Except.ok acc := by
  induction toks with
  | nil => rfl
  | cons t rest ih =>
    have ht : t = "" := hall t (List.mem_cons_self _ _)
    simp only [convert_tokens, ht, ne_eq, not_true_eq_false, if_false]
    exact ih fun tok h => hall tok (List.mem_cons_of_mem _ h)

theorem splitOn_all_separator (sep : Char) (l : List Char) (hall : ∀ c ∈ l, c = sep) :
    ∀ tok ∈ l.splitOn sep, tok = [] := by
  induction l with
  | nil => simp [List.splitOn]
  | cons c rest ih =>
    have hc : c = sep := hall c (List.mem_cons_self _ _)
    have hrest := ih fun d hd => hall d (List.mem_cons_of_mem _ hd)
    intro tok htok
    simp only [List.splitOn, List.splitOnP_cons, hc, beq_self_eq_true, if_true,
      List.mem_cons] at htok
    rcases htok with h | h
    · exact h
    · exact hrest tok h

/-- A failed conversion reports the token it met. -/
theorem convert_tokens_error_message (toks : List String) (acc : List Int) (e : String)
    (he : convert_tokens toks acc = Except.error e) :
    ∃ tok, e = "Error converting node number '" ++ tok ++ "' to int" := by
  induction toks generalizing acc with
  | nil => simp [convert_tokens] at he
  | cons t rest ih =>
    by_cases ht : t = ""
    · simp only [convert_tokens, ht, ne_eq, not_true_eq_false, if_false] at he
      exact ih acc he
    · cases ha : Atoi t with
      | none =>
        simp only [convert_tokens, ht, ne_eq, not_false_eq_true, if_true, ha,
          Except.error.injEq] at he
        exact ⟨t, he.symm⟩
      | some num =>
        simp only [convert_tokens, ht, ne_eq, not_false_eq_true, if_true, ha] at he
        exact ih _ he

/-- C28, as stated, fails: the expression `,:` is made only of separators; it is split on
the comma, the token `:` is not a number, and the call is fatal. With a negative number of
nodes the empty expression prints two warnings, not one. -/
theorem only_separators_fatal :
    nodes_list_to_int_slice ",:" 2
      = Except.error "Error converting node number ':' to int" ∧
    nodes_list_to_int_slice "" (-1)
      = Except.ok ([], ["List '' is empty\n",
          "List '' is greater than the expected number of nodes (-1)\n"]) := by
  decide

/-- C28, amended: the `"Empty nodes list given"` exit of `nodes_list_to_int_slice` is never
taken: for every input the split yields at least one token, the length test is false and
the call never ends with that message. An expression made only of copies of the separator
chosen for it (the empty expression among them) is never fatal: it returns the empty list
and prints the empty-list warning, and only that warning when `nodes` is not negative. -/
theorem nodes_list_to_int_slice_empty_branch (nodes_list : String) (nodes : Int) :
    (strings_Split nodes_list (choose_separator nodes_list)).length ≠ 0 ∧
    (∀ expr, nodes_list_to_int_slice nodes_list nodes
      ≠ Except.error ("Empty nodes list given (" ++ expr ++ ")")) ∧
    ((∀ c ∈ nodes_list.data, c = choose_separator nodes_list) →
      nodes_list_to_int_slice nodes_list nodes
        = Except.ok ([], list_warnings nodes_list nodes []) ∧
      ∃ more, list_warnings nodes_list nodes []
        = ("List '" ++ nodes_list ++ "' is empty\n") :: more ∧ (0 ≤ nodes → more = [])) ∧
    nodes_list_to_int_slice "" nodes = Except.ok ([], list_warnings "" nodes []) := by
  have hne := strings_Split_ne_nil nodes_list (choose_separator nodes_list)
  have key : ∀ s : String, (∀ c ∈ s.data, c = choose_separator s) →
      nodes_list_to_int_slice s nodes = Except.ok ([], list_warnings s nodes []) := by
    intro s hall
    rw [nodes_list_to_int_slice_eq, convert_tokens_all_empty]
    intro tok htok
    unfold strings_Split at htok
    simp only [List.mem_map] at htok
    obtain ⟨l, hl, rfl⟩ := htok
    rw [splitOn_all_separator _ _ hall l hl]
  refine ⟨by simpa [List.length_eq_zero] using hne, ?_, ?_, ?_⟩
  · intro expr heq
    rw [nodes_list_to_int_slice_eq] at heq
    cases hc : convert_tokens (strings_Split nodes_list (choose_separator nodes_list)) [] with
    | ok l => rw [hc] at heq; cases heq
    | error e =>
      rw [hc] at heq
      obtain ⟨tok, rfl⟩ := convert_tokens_error_message _ _ e hc
      simp only [Except.error.injEq] at heq
      have h2 := congrArg (fun s : String => s.data.take 2) heq
      simp [String.data_append] at h2
  · intro hall
    refine ⟨key nodes_list hall, ?_⟩
    unfold list_warnings
    by_cases hn : (0 : Int) ≤ nodes
    · refine ⟨[], ?_, fun _ => rfl⟩
      simp [hn]
    · refine ⟨_, rfl, fun h => absurd h hn⟩
  · exact key "" (by simp)

/-- Witness for the amended C28: three commas parse to the empty list, with the one
warning, for three nodes. -/
theorem nodes_list_to_int_slice_empty_branch_witness :
    nodes_list_to_int_slice ",,," 3 = Except.ok ([], list_warnings ",,," 3 []) :=
  ((nodes_list_to_int_slice_empty_branch ",,," 3).2.2.1 (by decide)).1

/-! ## Claim C29: the execution list of `RemoveSandbox` -/

theorem full_path_ne_empty (sandbox_dir sandbox : String) :
    sandbox_dir ++ "/" ++ sandbox ≠ "" := by
  intro h
  have h2 := congrArg String.data h
  simp [String.data_append] at h2

/-- Run on the spot, the removal loop hands back the execution list it was given. -/
theorem remove_targets_run (h : Host) (x : Externals) (log_directory : String)
    (targets : List String) (exec_list l : List ExecutionList)
    (hl : (remove_targets h x false log_directory targets exec_list).2 = Except.ok l) :
    l = exec_list := by
  induction targets with
  | nil =>
    simp only [remove_targets, Except.ok.injEq] at hl
    exact hl.symm
  | cons target rest ih =>
    unfold remove_targets at hl
    by_cases ht : target = ""
    · rw [if_pos ht] at hl
      exact ih hl
    · rw [if_neg ht] at hl
      by_cases hr : h.Run_cmd_with_args_ok "rm" ["-rf", target] = true
      · simp only [Bool.false_eq_true, if_false, hr, Bool.not_true] at hl
        exact ih hl
      · simp only [Bool.not_eq_true] at hr
        simp [hr] at hl

/-- Planned, the removal loop runs nothing and appends one item of priority 1 for every
target that is not empty. -/
theorem remove_targets_planned (h : Host) (x : Externals) (log_directory : String)
    (targets : List String) (exec_list : List ExecutionList) :
    remove_targets h x true log_directory targets exec_list =
      ([], Except.ok (exec_list ++ (targets.filter fun t => decide (t ≠ "")).map fun t =>
        { Priority := 1, Command := { Cmd := "rm", Args := ["-rf", t] } })) := by
  induction targets generalizing exec_list with
  | nil => simp [remove_targets]
  | cons target rest ih =>
    unfold remove_targets
    by_cases ht : target = ""
    · rw [if_pos ht, ih]
      simp [ht]
    · rw [if_neg ht]
      simp only [if_true]
      rw [ih]
      simp [ht]

/-- The execution list `RemoveSandbox` returns for an existing sandbox directory. When a
lock marker of the sandbox is executable (the test of the source), two lines are printed,
nothing is run and the list is empty. When `run_concurrently` is false every returned list
is empty.
Otherwise the call runs nothing and returns exactly the stop command at priority 0 and
`rm -rf <sandbox path>` at priority 1, followed by `rm -rf <log directory>` at priority 1
if and only if a log directory was recovered. The stop command is `stop_all` when it is
executable and `stop` otherwise; when neither is, the call is fatal. The stop item has a
strictly lower priority than every removal item. -/
theorem RemoveSandbox_execution_list (h : Host) (x : Externals)
    (sandbox_dir sandbox : String) (run_concurrently : Bool)
    (hdir : h.DirExists (sandbox_dir ++ "/" ++ sandbox) = true) :
    ((h.ExecExists (sandbox_dir ++ "/" ++ sandbox ++ "/no_clear_all") = true ∨
        h.ExecExists (sandbox_dir ++ "/" ++ sandbox ++ "/no_clear") = true) →
      (RemoveSandbox h x sandbox_dir sandbox run_concurrently).2 = Except.ok [] ∧
      ∀ ev ∈ (RemoveSandbox h x sandbox_dir sandbox run_concurrently).1,
        ev.isCommand = false) ∧
    (run_concurrently = false →
      ∀ l, (RemoveSandbox h x sandbox_dir sandbox run_concurrently).2 = Except.ok l →
        l = []) ∧
    (h.ExecExists (sandbox_dir ++ "/" ++ sandbox ++ "/no_clear_all") = false →
      h.ExecExists (sandbox_dir ++ "/" ++ sandbox ++ "/no_clear") = false →
      (h.ExecExists (sandbox_dir ++ "/" ++ sandbox ++ "/stop_all") = false →
        h.ExecExists (sandbox_dir ++ "/" ++ sandbox ++ "/stop") = false →
        ∃ e, (RemoveSandbox h x sandbox_dir sandbox run_concurrently).2 = Except.error e) ∧
      ((h.ExecExists (sandbox_dir ++ "/" ++ sandbox ++ "/stop_all") = true ∨
          h.ExecExists (sandbox_dir ++ "/" ++ sandbox ++ "/stop") = true) →
        run_concurrently = true →
        RemoveSandbox h x sandbox_dir sandbox run_concurrently
          = ([], Except.ok (removal_plan h (sandbox_dir ++ "/" ++ sandbox))))) ∧
    (∃ stop rest, removal_plan h (sandbox_dir ++ "/" ++ sandbox) = stop :: rest ∧
      stop.Command.Cmd = removal_stop h (sandbox_dir ++ "/" ++ sandbox) ∧
      ∀ item ∈ rest, stop.Priority < item.Priority ∧ item.Command.Cmd = "rm") := by
  refine ⟨?_, ?_, ?_, ?_⟩
  · intro hlock
    unfold RemoveSandbox
    by_cases h1 : h.ExecExists (sandbox_dir ++ "/" ++ sandbox ++ "/no_clear_all") = true
    · simp [hdir, h1, Event.isCommand]
    · have h2 : h.ExecExists (sandbox_dir ++ "/" ++ sandbox ++ "/no_clear") = true := by
        rcases hlock with hl | hl
        · exact absurd hl h1
        · exact hl
      simp [hdir, h1, h2, Event.isCommand]
  · intro hrun l hl
    subst hrun
    unfold RemoveSandbox at hl
    simp only [hdir, Bool.not_true, Bool.false_eq_true, if_false] at hl
    split_ifs at hl
    all_goals first
      | (simp only [Except.ok.injEq] at hl; exact hl.symm)
      | (cases hrc : x.Run_cmd_error (sandbox_dir ++ "/" ++ sandbox ++ "/stop_all") with
         | some e => simp [hrc] at hl
         | none =>
           simp only [hrc] at hl
           exact remove_targets_run h x _ _ _ l hl)
      | (cases hrc : x.Run_cmd_error (sandbox_dir ++ "/" ++ sandbox ++ "/stop") with
         | some e => simp [hrc] at hl
         | none =>
           simp only [hrc] at hl
           exact remove_targets_run h x _ _ _ l hl)
  · intro hn1 hn2
    constructor
    · intro hs1 hs2
      unfold RemoveSandbox
      simp [hdir, hn1, hn2, hs1, hs2]
    · intro hstop hrun
      subst hrun
      have hfull := full_path_ne_empty sandbox_dir sandbox
      unfold RemoveSandbox removal_plan removal_stop
      by_cases hs1 : h.ExecExists (sandbox_dir ++ "/" ++ sandbox ++ "/stop_all") = true
      · simp only [hdir, hn1, hn2, hs1, Bool.not_true, Bool.not_false, Bool.false_eq_true,
          if_false, if_true, remove_targets_planned]
        by_cases hlog : getLogDirFromSbDescription h (sandbox_dir ++ "/" ++ sandbox) = ""
        · simp [hlog, hfull]
        · simp [hlog, hfull]
      · have hs2 : h.ExecExists (sandbox_dir ++ "/" ++ sandbox ++ "/stop") = true := by
          rcases hstop with hl | hl
          · exact absurd hl hs1
          · exact hl
        simp only [Bool.not_eq_true] at hs1
        simp only [hdir, hn1, hn2, hs1, hs2, Bool.not_true, Bool.not_false,
          Bool.false_eq_true, if_false, if_true, remove_targets_planned]
        by_cases hlog : getLogDirFromSbDescription h (sandbox_dir ++ "/" ++ sandbox) = ""
        · simp [hlog, hfull]
        · simp [hlog, hfull]
  · unfold removal_plan
    refine ⟨_, _, rfl, rfl, ?_⟩
    intro item hitem
    by_cases hlog : getLogDirFromSbDescription h (sandbox_dir ++ "/" ++ sandbox) = ""
    · simp [hlog] at hitem
      subst hitem
      exact ⟨show (0 : Int) < 1 by decide, rfl⟩
    · simp [hlog] at hitem
      rcases hitem with rfl | rfl
      · exact ⟨show (0 : Int) < 1 by decide, rfl⟩
      · exact ⟨show (0 : Int) < 1 by decide, rfl⟩

/-- Example: `/sb/rsandbox` holds `stop_all` and no lock marker; the concurrent removal
plans the stop at priority 0 and the removal at priority 1, and runs nothing. -/
theorem RemoveSandbox_execution_list_witness :
    RemoveSandbox (hostOf ["/sb/rsandbox"] [] ["/sb/rsandbox/stop_all"] []) (externalsOf [] [])
        "/sb" "rsandbox" true
      = ([], Except.ok
          [{ Priority := 0, Command := { Cmd := "/sb/rsandbox/stop_all", Args := [] } },
           { Priority := 1, Command := { Cmd := "rm", Args := ["-rf", "/sb/rsandbox"] } }]) :=
  ((RemoveSandbox_execution_list (hostOf ["/sb/rsandbox"] [] ["/sb/rsandbox/stop_all"] [])
    (externalsOf [] []) "/sb" "rsandbox" true (by decide)).2.2.1 (by decide) (by decide)).2
    (Or.inl (by decide)) rfl

/-! ## Claim C27: the list of all nodes -/

theorem foldl_append_data (f : Nat → String) (l : List Nat) (acc : String) :
    (l.foldl (fun a (i : Nat) => a ++ f i) acc).data
      = acc.data ++ (l.map fun i => (f i).data).flatten := by
  induction l generalizing acc with
  | nil => simp
  | cons i rest ih =>
    simp only [List.foldl_cons, List.map_cons, List.flatten_cons]
    rw [ih, String.data_append, List.append_assoc]

/-- The characters of `make_nodes_list(nodes)`: the digits of each number from 1 to
`nodes`, each followed by one space. -/
theorem make_nodes_list_data (nodes : Int) (h0 : 0 ≤ nodes) :
    (make_nodes_list nodes).data
      = ((List.range' 1 nodes.toNat).map fun i : Nat => Nat.toDigits 10 i ++ [' ']).flatten := by
  have := make_nodes_list_loop_eq nodes nodes.toNat 1 "" 0 (by
    rw [Int.toNat_of_nonneg h0]; push_cast; omega)
  simp only [Nat.cast_one, Nat.add_zero] at this
  unfold make_nodes_list
  rw [this, foldl_append_data]
  simp only [String.data_append, Itoa_ofNat_data]
  rfl

theorem mem_spaced_digits (l : List Nat) (c : Char)
    (hc : c ∈ (l.map fun i : Nat => Nat.toDigits 10 i ++ [' ']).flatten) :
    isDecimal c ∨ c = ' ' := by
  simp only [List.mem_flatten, List.mem_map] at hc
  obtain ⟨t, ⟨i, -, rfl⟩, hct⟩ := hc
  simp only [List.mem_append, List.mem_singleton] at hct
  rcases hct with h | h
  · exact Or.inl ((toDigits_spec i).2.1 c h)
  · exact Or.inr h

theorem splitOn_spaced_digits (l : List Nat) :
    ((l.map fun i : Nat => Nat.toDigits 10 i ++ [' ']).flatten).splitOn ' '
      = l.map (Nat.toDigits 10) ++ [[]] := by
  induction l with
  | nil => rfl
  | cons i rest ih =>
    simp only [List.map_cons, List.flatten_cons, List.append_assoc, List.singleton_append,
      List.cons_append]
    have hdig : ∀ c ∈ Nat.toDigits 10 i, ¬ ((c == ' ') = true) := by
      intro c hc H
      have hsp := (isDecimal_ne_separator c ((toDigits_spec i).2.1 c hc)).2.2.2.2
      exact hsp (eq_of_beq H)
    unfold List.splitOn at ih ⊢
    rw [List.nil_append, List.splitOnP_first _ _ (by simpa using hdig) ' ' (by simp), ih]

theorem convert_tokens_Itoa_then_empty (xs : List Nat) (hfit : ∀ x ∈ xs, x < 2 ^ 63)
    (acc : List Int) :
    convert_tokens ((xs.map fun x : Nat => Itoa (x : Int)) ++ [""]) acc
      = Except.ok (acc ++ xs.map fun x : Nat => (x : Int)) := by
  induction xs generalizing acc with
  | nil => simp [convert_tokens]
  | cons x rest ih =>
    have hx : Atoi (Itoa (x : Int)) = some (x : Int) :=
      Atoi_Itoa_ofNat x (hfit x (List.mem_cons_self _ _))
    have hne : Itoa (x : Int) ≠ "" := by
      intro h
      have h2 := congrArg String.data h
      rw [Itoa_ofNat_data] at h2
      exact (toDigits_spec x).1 h2
    simp only [List.map_cons, List.cons_append, convert_tokens, hne, ne_eq, not_false_eq_true,
      if_true, hx, List.append_eq]
    rw [ih (fun y hy => hfit y (List.mem_cons_of_mem _ hy))]
    simp

/-- Parsing the list of all nodes gives every node once, in order, and no warning. -/
theorem nodes_list_to_int_slice_make_nodes_list (nodes : Int) (h1 : 1 ≤ nodes)
    (hfit : nodes < 2 ^ 63) :
    nodes_list_to_int_slice (make_nodes_list nodes) nodes
      = Except.ok (all_nodes nodes.toNat, []) := by
  have hdata := make_nodes_list_data nodes (by omega)
  have hnone : ∀ c, (c = ',' ∨ c = ':' ∨ c = ';' ∨ c = '.') →
      c ∉ (make_nodes_list nodes).data := by
    intro c hc hmem
    rw [hdata] at hmem
    rcases mem_spaced_digits _ c hmem with h | h
    · have := isDecimal_ne_separator c h
      rcases hc with h2 | h2 | h2 | h2 <;> simp [h2] at this
    · rcases hc with h2 | h2 | h2 | h2 <;> (rw [h2] at h; revert h; decide)
  have hch : choose_separator (make_nodes_list nodes) = ' ' := by
    rw [choose_separator_eq]
    simp [hnone ',' (by simp), hnone ':' (by simp), hnone ';' (by simp), hnone '.' (by simp)]
  have hsplit : strings_Split (make_nodes_list nodes) ' '
      = ((List.range' 1 nodes.toNat).map fun x : Nat => Itoa (x : Int)) ++ [""] := by
    unfold strings_Split
    rw [hdata, splitOn_spaced_digits]
    simp only [List.map_append, List.map_map, List.map_cons, List.map_nil]
    rfl
  have hbound : ∀ x ∈ List.range' 1 nodes.toNat, x < 2 ^ 63 := by
    intro x hx
    rw [List.mem_range'_1] at hx
    have h2 : (nodes.toNat : Int) = nodes := Int.toNat_of_nonneg (by omega)
    have h3 : ((x : Nat) : Int) < 2 ^ 63 := by omega
    exact_mod_cast h3
  rw [nodes_list_to_int_slice_eq, hch, hsplit, convert_tokens_Itoa_then_empty _ hbound]
  have hlen : nodes.toNat ≠ 0 := by omega
  have hcast : ¬ ((nodes.toNat : Int) > nodes) := by
    rw [Int.toNat_of_nonneg (by omega)]; omega
  have h0 : 0 ≤ nodes := by omega
  simp [all_nodes, list_warnings, hlen, hcast, h0]

theorem normalize_node_list_make_nodes_list (nodes : Int) :
    normalize_node_list (make_nodes_list nodes) = make_nodes_list nodes := by
  by_cases h0 : 0 ≤ nodes
  · have hdata := make_nodes_list_data nodes h0
    unfold normalize_node_list
    have hid : (make_nodes_list nodes).data.map
        (fun c => if c = ',' ∨ c = ':' ∨ c = '.' then ' ' else c)
        = (make_nodes_list nodes).data := by
      refine (List.map_congr_left fun c hc => ?_).trans (List.map_id _)
      rw [hdata] at hc
      rcases mem_spaced_digits _ c hc with h | h
      · have := isDecimal_ne_separator c h
        simp [this.1, this.2.1, this.2.2.2.1]
      · subst h; decide
    rw [hid]
  · have : make_nodes_list nodes = "" :=
      make_nodes_list_loop_stop nodes _ 1 "" (by omega)
    rw [this]
    decide

theorem check_node_lists_all_nodes (nodes : Int) (h1 : 1 ≤ nodes) :
    ∃ e, check_node_lists nodes (all_nodes nodes.toNat) (all_nodes nodes.toNat)
      = Except.error e := by
  rw [except_unit_error_iff]
  intro hok
  rw [check_node_lists_ok_iff] at hok
  have hmem : (1 : Int) ∈ all_nodes nodes.toNat := by
    unfold all_nodes
    simp only [List.mem_map, List.mem_range'_1]
    exact ⟨1, ⟨le_refl _, by omega⟩, rfl⟩
  exact hok.2.2.1 1 hmem hmem

/-! ## The scripts of the two topologies -/

theorem Smap_get_set (data : Smap) (key k : String) (v : SmapValue) :
    (data.set key v).get k = if key = k then some v else data.get k := rfl

theorem alias_scripts_append (a b : List TopologyStep) :
    alias_scripts (a ++ b) = alias_scripts a ++ alias_scripts b := by
  induction a with
  | nil => rfl
  | cons s rest ih =>
    cases s with
    | write_script name template_name directory data make_executable =>
      by_cases ht : template_name = "slave_template"
      · simp [alias_scripts, ht, ih]
      · simp [alias_scripts, ht, ih]
    | _ => simpa [alias_scripts] using ih

theorem script_contexts_append (a b : List TopologyStep) :
    script_contexts (a ++ b) = script_contexts a ++ script_contexts b := by
  induction a with
  | nil => rfl
  | cons s rest ih =>
    cases s <;> simp [script_contexts, ih]

theorem printed_steps (lines : List String) :
    alias_scripts (lines.map TopologyStep.printed) = [] ∧
    script_contexts (lines.map TopologyStep.printed) = [] ∧
    ∀ s ∈ lines.map TopologyStep.printed, s.isCreate = false ∧ s.isScript = false := by
  induction lines with
  | nil => simp [alias_scripts, script_contexts]
  | cons l rest ih =>
    obtain ⟨h1, h2, h3⟩ := ih
    refine ⟨by simpa [alias_scripts] using h1, by simpa [script_contexts] using h2, ?_⟩
    intro s hs
    simp only [List.map_cons, List.mem_cons] at hs
    rcases hs with rfl | hs
    · exact ⟨rfl, rfl⟩
    · exact h3 s hs

theorem alias_scripts_NewLogger (log_dir log_name : String) :
    alias_scripts [TopologyStep.NewLogger log_dir log_name] = [] := rfl

theorem alias_scripts_Create (sdef : SandboxDef) (origin : String) (nodes : Int) :
    alias_scripts [TopologyStep.CreateMultipleSandbox sdef origin nodes] = [] := rfl

theorem script_contexts_NewLogger (log_dir log_name : String) :
    script_contexts [TopologyStep.NewLogger log_dir log_name] = [] := rfl

theorem script_contexts_Create (sdef : SandboxDef) (origin : String) (nodes : Int) :
    script_contexts [TopologyStep.CreateMultipleSandbox sdef origin nodes] = [] := rfl

theorem start_nodes_steps (x : Externals) (SkipStart : Bool) (sandbox_dir : String) :
    alias_scripts (start_nodes x SkipStart sandbox_dir) = [] ∧
    script_contexts (start_nodes x SkipStart sandbox_dir) = [] := by
  cases SkipStart <;> exact ⟨rfl, rfl⟩

/-- The alias loop of the fan-in topology writes one script for every entry, named after
the entry and holding it as its node; the other keys of the context are left alone. -/
theorem write_alias_scripts_spec (letter sandbox_dir : String) (l : List Int) (data : Smap) :
    alias_scripts (write_alias_scripts letter sandbox_dir l data).1
      = l.map (fun node => (letter ++ Itoa node, some (SmapValue.int node))) ∧
    ∀ k, k ≠ "Node" → k ≠ "TemplateName" →
      (write_alias_scripts letter sandbox_dir l data).2.get k = data.get k ∧
      ∀ d ∈ script_contexts (write_alias_scripts letter sandbox_dir l data).1,
        d.get k = data.get k := by
  induction l generalizing data with
  | nil => exact ⟨rfl, fun k _ _ => ⟨rfl, by simp [write_alias_scripts, script_contexts]⟩⟩
  | cons node rest ih =>
    obtain ⟨ih1, ih2⟩ := ih
      ((data.set "Node" (SmapValue.int node)).set "TemplateName"
        (SmapValue.str "slave_template"))
    have hstep : write_alias_scripts letter sandbox_dir (node :: rest) data =
        (TopologyStep.write_script (letter ++ Itoa node) "slave_template" sandbox_dir
            ((data.set "Node" (SmapValue.int node)).set "TemplateName"
              (SmapValue.str "slave_template")) true ::
          (write_alias_scripts letter sandbox_dir rest
            ((data.set "Node" (SmapValue.int node)).set "TemplateName"
              (SmapValue.str "slave_template"))).1,
         (write_alias_scripts letter sandbox_dir rest
            ((data.set "Node" (SmapValue.int node)).set "TemplateName"
              (SmapValue.str "slave_template"))).2) := rfl
    rw [hstep]
    constructor
    · simp only [alias_scripts, if_true, List.map_cons]
      rw [ih1]
      rfl
    · intro k hk1 hk2
      obtain ⟨g1, g2⟩ := ih2 k hk1 hk2
      have hget : (((data.set "Node" (SmapValue.int node)).set "TemplateName"
          (SmapValue.str "slave_template")).get k) = data.get k := by
        rw [Smap_get_set, if_neg (Ne.symm hk2), Smap_get_set, if_neg (Ne.symm hk1)]
      simp only [script_contexts, List.mem_cons]
      refine ⟨g1.trans hget, ?_⟩
      rintro d (rfl | hd)
      · exact hget
      · exact (g2 d hd).trans hget

/-- The alias loop of the all-masters topology writes, for every entry, the script
`s<entry>` and then `m<entry>`, both holding the entry as their node. -/
theorem write_both_alias_scripts_spec (sandbox_dir : String) (l : List Int) (data : Smap) :
    alias_scripts (write_both_alias_scripts sandbox_dir l data).1
      = l.flatMap (fun node => [("s" ++ Itoa node, some (SmapValue.int node)),
          ("m" ++ Itoa node, some (SmapValue.int node))]) ∧
    ∀ k, k ≠ "Node" → k ≠ "TemplateName" →
      (write_both_alias_scripts sandbox_dir l data).2.get k = data.get k ∧
      ∀ d ∈ script_contexts (write_both_alias_scripts sandbox_dir l data).1,
        d.get k = data.get k := by
  induction l generalizing data with
  | nil => exact ⟨rfl, fun k _ _ => ⟨rfl, by simp [write_both_alias_scripts, script_contexts]⟩⟩
  | cons node rest ih =>
    obtain ⟨ih1, ih2⟩ := ih
      (((data.set "Node" (SmapValue.int node)).set "TemplateName"
        (SmapValue.str "slave_template")).set "TemplateName" (SmapValue.str "slave_template"))
    have hstep : write_both_alias_scripts sandbox_dir (node :: rest) data =
        (TopologyStep.write_script ("s" ++ Itoa node) "slave_template" sandbox_dir
            ((data.set "Node" (SmapValue.int node)).set "TemplateName"
              (SmapValue.str "slave_template")) true ::
          TopologyStep.write_script ("m" ++ Itoa node) "slave_template" sandbox_dir
            (((data.set "Node" (SmapValue.int node)).set "TemplateName"
              (SmapValue.str "slave_template")).set "TemplateName"
              (SmapValue.str "slave_template")) true ::
          (write_both_alias_scripts sandbox_dir rest
            (((data.set "Node" (SmapValue.int node)).set "TemplateName"
              (SmapValue.str "slave_template")).set "TemplateName"
              (SmapValue.str "slave_template"))).1,
         (write_both_alias_scripts sandbox_dir rest
            (((data.set "Node" (SmapValue.int node)).set "TemplateName"
              (SmapValue.str "slave_template")).set "TemplateName"
              (SmapValue.str "slave_template"))).2) := rfl
    rw [hstep]
    constructor
    · simp only [alias_scripts, if_true, List.flatMap_cons]
      rw [ih1]
      rfl
    · intro k hk1 hk2
      obtain ⟨g1, g2⟩ := ih2 k hk1 hk2
      have hget1 : (((data.set "Node" (SmapValue.int node)).set "TemplateName"
          (SmapValue.str "slave_template")).get k) = data.get k := by
        rw [Smap_get_set, if_neg (Ne.symm hk2), Smap_get_set, if_neg (Ne.symm hk1)]
      have hget2 : ((((data.set "Node" (SmapValue.int node)).set "TemplateName"
          (SmapValue.str "slave_template")).set "TemplateName"
          (SmapValue.str "slave_template")).get k) = data.get k := by
        rw [Smap_get_set, if_neg (Ne.symm hk2), hget1]
      simp only [script_contexts, List.mem_cons]
      refine ⟨g1.trans hget2, ?_⟩
      rintro d (rfl | rfl | hd)
      · exact hget1
      · exact hget2
      · exact (g2 d hd).trans hget2

/-- The scripts written from other templates are no alias scripts, and leave the other
keys of the context alone. -/
theorem write_scripts_spec (sandbox_dir : String) (pairs : List (String × String))
    (data : Smap) (hpairs : ∀ p ∈ pairs, p.2 ≠ "slave_template") :
    alias_scripts (write_scripts sandbox_dir pairs data).1 = [] ∧
    ∀ k, k ≠ "TemplateName" →
      ∀ d ∈ script_contexts (write_scripts sandbox_dir pairs data).1,
        d.get k = data.get k := by
  induction pairs generalizing data with
  | nil => exact ⟨rfl, fun k _ => by simp [write_scripts, script_contexts]⟩
  | cons p rest ih =>
    obtain ⟨name, template_name⟩ := p
    have hp : template_name ≠ "slave_template" := hpairs (name, template_name)
      (List.mem_cons_self _ _)
    obtain ⟨ih1, ih2⟩ := ih (data.set "TemplateName" (SmapValue.str template_name))
      (fun q hq => hpairs q (List.mem_cons_of_mem _ hq))
    have hstep : write_scripts sandbox_dir ((name, template_name) :: rest) data =
        (TopologyStep.write_script name template_name sandbox_dir
            (data.set "TemplateName" (SmapValue.str template_name)) true ::
          (write_scripts sandbox_dir rest
            (data.set "TemplateName" (SmapValue.str template_name))).1,
         (write_scripts sandbox_dir rest
            (data.set "TemplateName" (SmapValue.str template_name))).2) := rfl
    rw [hstep]
    constructor
    · simp only [alias_scripts, hp, if_false]
      exact ih1
    · intro k hk d hd
      have hget : ((data.set "TemplateName" (SmapValue.str template_name)).get k)
          = data.get k := by
        rw [Smap_get_set, if_neg (Ne.symm hk)]
      simp only [script_contexts, List.mem_cons] at hd
      rcases hd with rfl | hd
      · exact hget
      · exact (ih2 k hk d hd).trans hget

/-! ## Claims C21 and C22: `CreateFanInReplication` -/

/-- A returning `CreateFanInReplication` parsed both expressions, had them accepted by
`check_node_lists`, and wrote as alias scripts one `s<k>` for every slave entry and then
one `m<k>` for every master entry, each holding its node; every script it wrote was
rendered from a context holding the two normalized lists. -/
theorem CreateFanInReplication_ok (h : Host) (x : Externals) (m : MultiExternals)
    (sdef : SandboxDef) (origin : String) (nodes : Int)
    (master_ip master_list slave_list : String)
    (hok : (CreateFanInReplication h x m sdef origin nodes master_ip master_list
      slave_list).2 = Except.ok ()) :
    ∃ mlist printed_m slist printed_s,
      nodes_list_to_int_slice master_list nodes = Except.ok (mlist, printed_m) ∧
      nodes_list_to_int_slice slave_list nodes = Except.ok (slist, printed_s) ∧
      check_node_lists nodes mlist slist = Except.ok () ∧
      alias_scripts (CreateFanInReplication h x m sdef origin nodes master_ip master_list
          slave_list).1
        = slist.map (fun k => ("s" ++ Itoa k, some (SmapValue.int k))) ++
          mlist.map (fun k => ("m" ++ Itoa k, some (SmapValue.int k))) ∧
      ∀ d ∈ script_contexts (CreateFanInReplication h x m sdef origin nodes master_ip
          master_list slave_list).1,
        d.get "MasterList" = some (SmapValue.str (normalize_node_list master_list)) ∧
        d.get "SlaveList" = some (SmapValue.str (normalize_node_list slave_list)) := by
  have hparts : ∃ mlist printed_m slist printed_s data dir,
      nodes_list_to_int_slice master_list nodes = Except.ok (mlist, printed_m) ∧
      nodes_list_to_int_slice slave_list nodes = Except.ok (slist, printed_s) ∧
      check_node_lists nodes mlist slist = Except.ok () ∧
      m.CreateMultipleSandbox (fan_in_definition h x m sdef origin) origin nodes
        = Except.ok data ∧
      data.get "SandboxDir" = some (SmapValue.str dir) := by
    unfold CreateFanInReplication at hok
    dsimp only at hok
    obtain ⟨r1, hm⟩ : ∃ r, nodes_list_to_int_slice master_list nodes = r := ⟨_, rfl⟩
    obtain ⟨r2, hs⟩ : ∃ r, nodes_list_to_int_slice slave_list nodes = r := ⟨_, rfl⟩
    obtain ⟨r4, hcm⟩ : ∃ r, m.CreateMultipleSandbox (fan_in_definition h x m sdef origin)
      origin nodes = r := ⟨_, rfl⟩
    rw [hm] at hok
    cases r1 with
    | error e => cases hok
    | ok p1 =>
      obtain ⟨mlist, printed_m⟩ := p1
      dsimp only at hok
      rw [hs] at hok
      cases r2 with
      | error e => cases hok
      | ok p2 =>
        obtain ⟨slist, printed_s⟩ := p2
        dsimp only at hok
        obtain ⟨r3, hc⟩ : ∃ r, check_node_lists nodes mlist slist = r := ⟨_, rfl⟩
        rw [hc] at hok
        cases r3 with
        | error e => cases hok
        | ok u =>
          cases u
          dsimp only at hok
          rw [hcm] at hok
          cases r4 with
          | error e => cases hok
          | ok data =>
            dsimp only at hok
            obtain ⟨r5, hdir⟩ : ∃ r, data.get "SandboxDir" = r := ⟨_, rfl⟩
            rw [hdir] at hok
            cases r5 with
            | none => cases hok
            | some v =>
              cases v with
              | int n => cases hok
              | str dir => exact ⟨mlist, printed_m, slist, printed_s, data, dir, hm, hs, hc, hcm, hdir⟩
  obtain ⟨mlist, printed_m, slist, printed_s, data, dir, hm, hs, hc, hcm, hdir⟩ := hparts
  unfold CreateFanInReplication
  simp only [hm, hs, hc, hcm, hdir]
  have hp : ∀ p ∈ [("test_replication", "multi_source_test_template"),
      ("check_ms_nodes", "check_multi_source_template"),
      ("use_all_slaves", "multi_source_use_slaves_template"),
      ("use_all_masters", "multi_source_use_masters_template"),
      ("initialize_ms_nodes", "multi_source_template")],
      p.2 ≠ "slave_template" := by decide
  refine ⟨mlist, printed_m, slist, printed_s, rfl, rfl, hc, ?_, ?_⟩
  · simp only [List.append_eq, alias_scripts_append, (printed_steps _).1,
      (write_alias_scripts_spec _ _ _ _).1,
      (write_scripts_spec _ _ _ hp).1,
      (start_nodes_steps _ _ _).1, alias_scripts_NewLogger, alias_scripts_Create,
      List.nil_append,
      List.append_nil]
  · intro d hd
    simp only [List.append_eq, script_contexts_append, (printed_steps _).2.1,
      (start_nodes_steps _ _ _).2, script_contexts_NewLogger, script_contexts_Create,
      List.nil_append,
      List.append_nil, List.mem_append] at hd
    have hml : ∀ k, k ≠ "Node" → k ≠ "TemplateName" → k ≠ "MasterAbbr" →
        k ≠ "MasterLabel" → k ≠ "SlaveAbbr" → k ≠ "SlaveLabel" → k ≠ "RplUser" →
        k ≠ "RplPassword" → k ≠ "NodeLabel" → k ≠ "MasterIp" →
        d.get k = (((data.set "MasterList"
            (SmapValue.str (normalize_node_list master_list))).set "SlaveList"
            (SmapValue.str (normalize_node_list slave_list)))).get k := by
      intro k k1 k2 k3 k4 k5 k6 k7 k8 k9 k10
      have base : ∀ d0 : Smap,
          ((((((((d0.set "MasterAbbr" (SmapValue.str m.MasterAbbr)).set "MasterLabel"
            (SmapValue.str m.MasterName)).set "SlaveAbbr"
            (SmapValue.str m.SlaveAbbr)).set "SlaveLabel"
            (SmapValue.str m.SlavePrefix)).set "RplUser"
            (SmapValue.str sdef.RplUser)).set "RplPassword"
            (SmapValue.str sdef.RplPassword)).set "NodeLabel"
            (SmapValue.str m.NodePrefix)).set "MasterIp"
            (SmapValue.str master_ip)).get k = d0.get k := by
        intro d0
        simp only [Smap_get_set, if_neg (Ne.symm k3), if_neg (Ne.symm k4),
          if_neg (Ne.symm k5), if_neg (Ne.symm k6), if_neg (Ne.symm k7),
          if_neg (Ne.symm k8), if_neg (Ne.symm k9), if_neg (Ne.symm k10)]
      rcases hd with (hd | hd) | hd
      · exact (((write_alias_scripts_spec _ _ _ _).2 k k1 k2).2 d hd).trans (base _)
      · exact ((((write_alias_scripts_spec _ _ _ _).2 k k1 k2).2 d hd).trans
          (((write_alias_scripts_spec _ _ _ _).2 k k1 k2).1)).trans (base _)
      · exact (((write_scripts_spec _ _ _ hp).2 k k2 d hd).trans
          ((((write_alias_scripts_spec _ _ _ _).2 k k1 k2).1).trans
            (((write_alias_scripts_spec _ _ _ _).2 k k1 k2).1))).trans (base _)
    constructor
    · rw [hml "MasterList" (by decide) (by decide) (by decide) (by decide)
        (by decide) (by decide) (by decide) (by decide) (by decide) (by decide)]
      rfl
    · rw [hml "SlaveList" (by decide) (by decide) (by decide) (by decide)
        (by decide) (by decide) (by decide) (by decide) (by decide) (by decide)]
      rfl

/-- Claim C21: in `CreateFanInReplication` the two expressions are parsed and checked by
`check_node_lists` before any sandbox is created: whenever the parsing of the master
list, the parsing of the slave list or the check fails, the call is fatal,
`CreateMultipleSandbox` was not invoked and no script was written. -/
theorem CreateFanInReplication_checks_first (h : Host) (x : Externals) (m : MultiExternals)
    (sdef : SandboxDef) (origin : String) (nodes : Int)
    (master_ip master_list slave_list : String)
    (hbad : (∃ e, nodes_list_to_int_slice master_list nodes = Except.error e) ∨
      (∃ e, nodes_list_to_int_slice slave_list nodes = Except.error e) ∨
      ∃ mlist printed_m slist printed_s,
        nodes_list_to_int_slice master_list nodes = Except.ok (mlist, printed_m) ∧
        nodes_list_to_int_slice slave_list nodes = Except.ok (slist, printed_s) ∧
        ∃ e, check_node_lists nodes mlist slist = Except.error e) :
    (∃ e, (CreateFanInReplication h x m sdef origin nodes master_ip master_list
      slave_list).2 = Except.error e) ∧
    ∀ s ∈ (CreateFanInReplication h x m sdef origin nodes master_ip master_list
      slave_list).1, s.isCreate = false ∧ s.isScript = false := by
  have hnot : ∀ u, (CreateFanInReplication h x m sdef origin nodes master_ip master_list
      slave_list).2 ≠ Except.ok u := by
    intro u hok
    cases u
    obtain ⟨mlist, pm, slist, ps, hm, hs, hc, -⟩ :=
      CreateFanInReplication_ok h x m sdef origin nodes master_ip master_list slave_list hok
    rcases hbad with ⟨e, he⟩ | ⟨e, he⟩ | ⟨ml, pm2, sl, ps2, hm2, hs2, e, he⟩
    · rw [hm] at he; cases he
    · rw [hs] at he; cases he
    · rw [hm] at hm2; rw [hs] at hs2
      cases hm2; cases hs2
      rw [hc] at he; cases he
  refine ⟨except_error_of_not_ok _ hnot, ?_⟩
  unfold CreateFanInReplication
  obtain ⟨r1, hm⟩ : ∃ r, nodes_list_to_int_slice master_list nodes = r := ⟨_, rfl⟩
  cases r1 with
  | error e =>
    simp only [hm]
    intro s hs
    simp only [List.mem_singleton] at hs
    subst hs
    exact ⟨rfl, rfl⟩
  | ok p1 =>
    obtain ⟨mlist, printed_m⟩ := p1
    obtain ⟨r2, hs⟩ : ∃ r, nodes_list_to_int_slice slave_list nodes = r := ⟨_, rfl⟩
    cases r2 with
    | error e =>
      simp only [hm, hs]
      intro s hmem
      simp only [List.mem_append, List.mem_singleton] at hmem
      rcases hmem with rfl | hmem
      · exact ⟨rfl, rfl⟩
      · exact (printed_steps _).2.2 s hmem
    | ok p2 =>
      obtain ⟨slist, printed_s⟩ := p2
      obtain ⟨r3, hc⟩ : ∃ r, check_node_lists nodes mlist slist = r := ⟨_, rfl⟩
      cases r3 with
      | error e =>
        simp only [hm, hs, hc]
        intro s hmem
        simp only [List.mem_append, List.mem_singleton] at hmem
        rcases hmem with (rfl | hmem) | hmem
        · exact ⟨rfl, rfl⟩
        · exact (printed_steps _).2.2 s hmem
        · exact (printed_steps _).2.2 s hmem
      | ok u =>
        exfalso
        rcases hbad with ⟨e, he⟩ | ⟨e, he⟩ | ⟨ml, pm2, sl, ps2, hm2, hs2, e, he⟩
        · rw [hm] at he; cases he
        · rw [hs] at he; cases he
        · rw [hm] at hm2; rw [hs] at hs2
          cases hm2; cases hs2
          rw [hc] at he; cases he

/-- Witness for C21: with three nodes, master list `1` and slave list `1,2` overlap; the
call is fatal, no sandbox was created and no script written. -/
theorem CreateFanInReplication_checks_first_witness :
    (∃ e, (CreateFanInReplication host_8_0_11 (externalsOf [] []) multiExternalsOf
      sdef_8_0_11 "8.0.11" 3 "127.0.0.1" "1" "1,2").2 = Except.error e) ∧
    ∀ s ∈ (CreateFanInReplication host_8_0_11 (externalsOf [] []) multiExternalsOf
      sdef_8_0_11 "8.0.11" 3 "127.0.0.1" "1" "1,2").1,
      s.isCreate = false ∧ s.isScript = false :=
  CreateFanInReplication_checks_first host_8_0_11 (externalsOf [] []) multiExternalsOf
    sdef_8_0_11 "8.0.11" 3 "127.0.0.1" "1" "1,2"
    (Or.inr (Or.inr ⟨[1], [], [1, 2], [], by decide, by decide,
      "Overlapping values: 1 is in both master and slave list", by decide⟩))

/-- Claim C22: a returning `CreateFanInReplication` has parsed the two expressions, had
them accepted, and written as alias scripts exactly one `s<k>` for every parsed slave
entry and one `m<k>` for every parsed master entry, each holding its own node number, from
a context whose `MasterList` and `SlaveList` are the normalized expressions. For three
nodes, master list `1` and slave list `2,3`: the lists are `[1]` and `[2,3]`, they are
accepted, the alias scripts are `s2`, `s3` and `m1`, and the context holds
`MasterList = "1"` and `SlaveList = "2 3"`. -/
theorem CreateFanInReplication_alias_scripts (h : Host) (x : Externals) (m : MultiExternals)
    (sdef : SandboxDef) (origin : String) (nodes : Int)
    (master_ip master_list slave_list : String)
    (hok : (CreateFanInReplication h x m sdef origin nodes master_ip master_list
      slave_list).2 = Except.ok ()) :
    (∃ mlist printed_m slist printed_s,
      nodes_list_to_int_slice master_list nodes = Except.ok (mlist, printed_m) ∧
      nodes_list_to_int_slice slave_list nodes = Except.ok (slist, printed_s) ∧
      check_node_lists nodes mlist slist = Except.ok () ∧
      alias_scripts (CreateFanInReplication h x m sdef origin nodes master_ip master_list
          slave_list).1
        = slist.map (fun k => ("s" ++ Itoa k, some (SmapValue.int k))) ++
          mlist.map (fun k => ("m" ++ Itoa k, some (SmapValue.int k))) ∧
      ∀ d ∈ script_contexts (CreateFanInReplication h x m sdef origin nodes master_ip
          master_list slave_list).1,
        d.get "MasterList" = some (SmapValue.str (normalize_node_list master_list)) ∧
        d.get "SlaveList" = some (SmapValue.str (normalize_node_list slave_list))) ∧
    (nodes = 3 → master_list = "1" → slave_list = "2,3" →
      nodes_list_to_int_slice master_list nodes = Except.ok ([1], []) ∧
      nodes_list_to_int_slice slave_list nodes = Except.ok ([2, 3], []) ∧
      check_node_lists nodes [1] [2, 3] = Except.ok () ∧
      alias_scripts (CreateFanInReplication h x m sdef origin nodes master_ip master_list
          slave_list).1
        = [("s2", some (SmapValue.int 2)), ("s3", some (SmapValue.int 3)),
           ("m1", some (SmapValue.int 1))] ∧
      ∀ d ∈ script_contexts (CreateFanInReplication h x m sdef origin nodes master_ip
          master_list slave_list).1,
        d.get "MasterList" = some (SmapValue.str "1") ∧
        d.get "SlaveList" = some (SmapValue.str "2 3")) := by
  have hgen := CreateFanInReplication_ok h x m sdef origin nodes master_ip master_list
    slave_list hok
  refine ⟨hgen, ?_⟩
  intro hn hml hsl
  subst hn hml hsl
  obtain ⟨mlist, printed_m, slist, printed_s, hm, hs, -, ha, hd⟩ := hgen
  have hm2 : nodes_list_to_int_slice "1" 3 = Except.ok ([1], []) := by decide
  have hs2 : nodes_list_to_int_slice "2,3" 3 = Except.ok ([2, 3], []) := by decide
  rw [hm2] at hm
  rw [hs2] at hs
  simp only [Except.ok.injEq, Prod.mk.injEq] at hm hs
  obtain ⟨rfl, -⟩ := hm
  obtain ⟨rfl, -⟩ := hs
  refine ⟨hm2, hs2, by decide, ?_, ?_⟩
  · rw [ha]
    decide
  · intro d hmem
    have := hd d hmem
    have n1 : normalize_node_list "1" = "1" := by decide
    have n2 : normalize_node_list "2,3" = "2 3" := by decide
    rw [n1, n2] at this
    exact this

/-- Witness for C22: the fan-in topology of three nodes of version 8.0.11 with master
list `1` and slave list `2,3` returns, and its alias scripts are `s2`, `s3` and `m1`. -/
theorem CreateFanInReplication_alias_scripts_witness :
    alias_scripts (CreateFanInReplication host_8_0_11 (externalsOf [] []) multiExternalsOf
        sdef_8_0_11 "8.0.11" 3 "127.0.0.1" "1" "2,3").1
      = [("s2", some (SmapValue.int 2)), ("s3", some (SmapValue.int 3)),
         ("m1", some (SmapValue.int 1))] :=
  ((CreateFanInReplication_alias_scripts host_8_0_11 (externalsOf [] []) multiExternalsOf
    sdef_8_0_11 "8.0.11" 3 "127.0.0.1" "1" "2,3" (by decide)).2 rfl rfl rfl).2.2.2.1

/-! ## Claim C27: the all-masters topology -/

/-- A returning `CreateAllMastersReplication` of `nodes` nodes wrote as alias scripts
`s<k>` and `m<k>` for every node `k`, in order, from a context whose `MasterList` and
`SlaveList` are both the list of all nodes. -/
theorem CreateAllMastersReplication_ok (h : Host) (x : Externals) (m : MultiExternals)
    (sdef : SandboxDef) (origin : String) (nodes : Int) (master_ip : String)
    (h1 : 1 ≤ nodes) (hfit : nodes < 2 ^ 63)
    (hok : (CreateAllMastersReplication h x m sdef origin nodes master_ip).2
      = Except.ok ()) :
    alias_scripts (CreateAllMastersReplication h x m sdef origin nodes master_ip).1
      = (all_nodes nodes.toNat).flatMap (fun k =>
          [("s" ++ Itoa k, some (SmapValue.int k)), ("m" ++ Itoa k, some (SmapValue.int k))]) ∧
    ∀ d ∈ script_contexts (CreateAllMastersReplication h x m sdef origin nodes master_ip).1,
      d.get "MasterList" = some (SmapValue.str (make_nodes_list nodes)) ∧
      d.get "SlaveList" = some (SmapValue.str (make_nodes_list nodes)) := by
  have hparse := nodes_list_to_int_slice_make_nodes_list nodes h1 hfit
  have hnorm := normalize_node_list_make_nodes_list nodes
  have hparts : ∃ data dir,
      m.CreateMultipleSandbox (all_masters_definition h x m sdef origin) origin nodes
        = Except.ok data ∧
      data.get "SandboxDir" = some (SmapValue.str dir) := by
    unfold CreateAllMastersReplication at hok
    dsimp only at hok
    obtain ⟨r4, hcm⟩ : ∃ r, m.CreateMultipleSandbox (all_masters_definition h x m sdef origin)
      origin nodes = r := ⟨_, rfl⟩
    rw [hcm] at hok
    cases r4 with
    | error e => cases hok
    | ok data =>
      dsimp only at hok
      obtain ⟨r5, hdir⟩ : ∃ r, data.get "SandboxDir" = r := ⟨_, rfl⟩
      rw [hdir] at hok
      cases r5 with
      | none => cases hok
      | some v =>
        cases v with
        | int n => cases hok
        | str dir => exact ⟨data, dir, hcm, hdir⟩
  obtain ⟨data, dir, hcm, hdir⟩ := hparts
  have hp : ∀ p ∈ [("test_replication", "multi_source_test_template"),
      ("use_all_slaves", "multi_source_use_slaves_template"),
      ("use_all_masters", "multi_source_use_masters_template"),
      ("check_ms_nodes", "check_multi_source_template"),
      ("initialize_ms_nodes", "multi_source_template")],
      p.2 ≠ "slave_template" := by decide
  unfold CreateAllMastersReplication
  simp only [hcm, hdir, hparse, hnorm]
  constructor
  · simp only [List.append_eq, alias_scripts_append, (printed_steps _).1,
      (write_both_alias_scripts_spec _ _ _).1, (write_scripts_spec _ _ _ hp).1,
      (start_nodes_steps _ _ _).1, List.nil_append, List.append_nil, List.map_nil]
    rfl
  · intro d hd
    simp only [List.append_eq, script_contexts_append, (printed_steps _).2.1,
      (start_nodes_steps _ _ _).2, List.nil_append, List.append_nil, List.map_nil,
      List.mem_append] at hd
    rcases hd with (hd | hd) | hd
    · exact absurd hd (List.not_mem_nil d)
    · exact ⟨(((write_both_alias_scripts_spec _ _ _).2 "MasterList" (by decide)
          (by decide)).2 d hd).trans rfl,
        (((write_both_alias_scripts_spec _ _ _).2 "SlaveList" (by decide)
          (by decide)).2 d hd).trans rfl⟩
    · exact ⟨(((write_scripts_spec _ _ _ hp).2 "MasterList" (by decide) d hd).trans
          (((write_both_alias_scripts_spec _ _ _).2 "MasterList" (by decide)
            (by decide)).1)).trans rfl,
        (((write_scripts_spec _ _ _ hp).2 "SlaveList" (by decide) d hd).trans
          (((write_both_alias_scripts_spec _ _ _).2 "SlaveList" (by decide)
            (by decide)).1)).trans rfl⟩

/-- Claim C27: for every `N >= 1` that is an `int`, parsing `make_nodes_list(N)` for `N`
nodes returns exactly `[1, 2, ..., N]` and prints no warning, and normalizing
`make_nodes_list(N)` leaves it as it is; a returning `CreateAllMastersReplication` gives
`MasterList` and `SlaveList` that same list and writes `s<k>` and `m<k>` for every node
`k = 1..N`, and it returns whenever the deployment of the nodes returns a context with
the directory. The lists `[1..N]` and `[1..N]` are rejected by `check_node_lists`. -/
theorem all_masters_node_list (h : Host) (x : Externals) (m : MultiExternals)
    (sdef : SandboxDef) (origin : String) (nodes : Int) (master_ip : String)
    (h1 : 1 ≤ nodes) (hfit : nodes < 2 ^ 63) :
    nodes_list_to_int_slice (make_nodes_list nodes) nodes
      = Except.ok (all_nodes nodes.toNat, []) ∧
    normalize_node_list (make_nodes_list nodes) = make_nodes_list nodes ∧
    ((CreateAllMastersReplication h x m sdef origin nodes master_ip).2 = Except.ok () →
      alias_scripts (CreateAllMastersReplication h x m sdef origin nodes master_ip).1
        = (all_nodes nodes.toNat).flatMap (fun k =>
            [("s" ++ Itoa k, some (SmapValue.int k)),
             ("m" ++ Itoa k, some (SmapValue.int k))]) ∧
      ∀ d ∈ script_contexts
          (CreateAllMastersReplication h x m sdef origin nodes master_ip).1,
        d.get "MasterList" = some (SmapValue.str (make_nodes_list nodes)) ∧
        d.get "SlaveList" = some (SmapValue.str (make_nodes_list nodes))) ∧
    ((∃ data dir, m.CreateMultipleSandbox (all_masters_definition h x m sdef origin) origin
          nodes = Except.ok data ∧ data.get "SandboxDir" = some (SmapValue.str dir)) →
      (CreateAllMastersReplication h x m sdef origin nodes master_ip).2 = Except.ok ()) ∧
    (∃ e, check_node_lists nodes (all_nodes nodes.toNat) (all_nodes nodes.toNat)
      = Except.error e) := by
  refine ⟨nodes_list_to_int_slice_make_nodes_list nodes h1 hfit,
    normalize_node_list_make_nodes_list nodes,
    CreateAllMastersReplication_ok h x m sdef origin nodes master_ip h1 hfit, ?_,
    check_node_lists_all_nodes nodes h1⟩
  rintro ⟨data, dir, hcm, hdir⟩
  unfold CreateAllMastersReplication
  simp only [hcm, hdir, nodes_list_to_int_slice_make_nodes_list nodes h1 hfit]

/-- Witness for C27: the all-masters topology of three nodes returns; the list of all
nodes is `"1 2 3 "`, and it parses to `[1, 2, 3]` without a warning. -/
theorem all_masters_node_list_witness :
    nodes_list_to_int_slice (make_nodes_list 3) 3 = Except.ok (all_nodes (3 : Int).toNat, []) ∧
    alias_scripts (CreateAllMastersReplication host_8_0_11 (externalsOf [] [])
        multiExternalsOf sdef_8_0_11 "8.0.11" 3 "127.0.0.1").1
      = (all_nodes (3 : Int).toNat).flatMap (fun k =>
          [("s" ++ Itoa k, some (SmapValue.int k)),
           ("m" ++ Itoa k, some (SmapValue.int k))]) :=
  ⟨(all_masters_node_list host_8_0_11 (externalsOf [] []) multiExternalsOf sdef_8_0_11
      "8.0.11" 3 "127.0.0.1" (by decide) (by decide)).1,
   ((all_masters_node_list host_8_0_11 (externalsOf [] []) multiExternalsOf sdef_8_0_11
      "8.0.11" 3 "127.0.0.1" (by decide) (by decide)).2.2.1 (by decide)).1⟩


/-! ## The derivation applied twice: what each rule appends -/

theorem SameExceptDerived_symm {s t : SandboxDef} (hf : SameExceptDerived s t) :
    SameExceptDerived t s := by
  unfold SameExceptDerived at hf ⊢
  rw [hf]

theorem SameExceptDerived_guards {s t : SandboxDef} (hf : SameExceptDerived s t) :
    t.Port = s.Port ∧ t.InstalledPorts = s.InstalledPorts ∧ t.MyCnfFile = s.MyCnfFile ∧
      t.DisableMysqlX = s.DisableMysqlX := by
  unfold SameExceptDerived at hf
  rw [hf]
  exact ⟨rfl, rfl, rfl, rfl⟩

theorem Appended_refl (s : SandboxDef) : Appended s s [] [] [] [] := by
  simp [Appended]

theorem Appended_trans {s r t : SandboxDef} {c1 i1 p1 c2 i2 p2 : List String}
    {m1 m2 : List Int} (h1 : Appended s r c1 i1 p1 m1) (h2 : Appended r t c2 i2 p2 m2) :
    Appended s t (c1 ++ c2) (i1 ++ i2) (p1 ++ p2) (m1 ++ m2) := by
  obtain ⟨a1, a2, a3, a4⟩ := h1
  obtain ⟨b1, b2, b3, b4⟩ := h2
  refine ⟨?_, ?_, ?_, ?_⟩
  · rw [b1, a1, List.append_assoc]
  · rw [b2, a2, List.append_assoc]
  · rw [b3, a3, List.append_assoc]
  · rw [b4, a4, List.append_assoc]

/-- The port settled on depends only on `MysqlXPort`, `Port` and `InstalledPorts`. -/
theorem mysqlx_port_congr (x : Externals) {s t : SandboxDef} (hf : SameExceptDerived s t)
    (hp : t.MysqlXPort = s.MysqlXPort) : mysqlx_port x t = mysqlx_port x s := by
  obtain ⟨g1, g2, -, -⟩ := SameExceptDerived_guards hf
  unfold mysqlx_port
  rw [hp, g1, g2]

/-- What `set_mysqlx_properties` appends: the two directives of the port it settles on,
and that port; afterwards the same port is settled on again. -/
theorem set_mysqlx_properties_appended (x : Externals) (sdef s : SandboxDef) (tmp : String)
    (hs : (set_mysqlx_properties x sdef tmp).2 = Except.ok s) :
    ∃ port : Int, mysqlx_port x sdef = Except.ok port ∧
      Appended sdef s ["mysqlx-port=" ++ Itoa port,
        "mysqlx-socket=" ++ tmp ++ "/mysqlx-" ++ Itoa port ++ ".sock"] [] [] [port] ∧
      mysqlx_port x s = mysqlx_port x sdef ∧ s.CustomMysqld = sdef.CustomMysqld := by
  obtain ⟨port, rfl, hne, heq⟩ := set_mysqlx_properties_ok x sdef s tmp hs
  have hport : mysqlx_port x sdef = Except.ok port := by
    unfold mysqlx_port
    by_cases h0 : sdef.MysqlXPort = 0
    · rw [if_pos h0]; exact heq h0
    · rw [if_neg h0, hne h0]
  refine ⟨port, hport, ⟨rfl, by simp, by simp, rfl⟩, ?_, rfl⟩
  rw [hport]
  unfold mysqlx_port
  by_cases hp0 : port = 0
  · have h0 : sdef.MysqlXPort = 0 := by
      by_contra hc
      exact hc ((hne hc).symm.trans hp0)
    simp only [hp0, if_true]
    rw [← hp0]
    exact heq h0
  · simp only [hp0, if_false]

theorem rule_general_log_appended (x : Externals) (s : SandboxDef) :
    Appended s (rule_general_log x s)
      (if x.GreaterOrEqualVersion s.Version [5, 1, 0] = true ∧ s.EnableGeneralLog = true then
        ["general_log=1"] else [])
      (if x.GreaterOrEqualVersion s.Version [5, 1, 0] = true ∧ s.InitGeneralLog = true then
        ["--general_log=1"] else []) [] [] ∧
    (rule_general_log x s).MysqlXPort = s.MysqlXPort ∧
    (rule_general_log x s).CustomMysqld = s.CustomMysqld := by
  unfold rule_general_log Appended
  by_cases hv : x.GreaterOrEqualVersion s.Version [5, 1, 0] = true <;>
    by_cases he : s.EnableGeneralLog = true <;>
    by_cases hi : s.InitGeneralLog = true <;>
    simp [hv, he, hi]

theorem rule_native_auth_appended (x : Externals) (s : SandboxDef) :
    Appended s (rule_native_auth x s)
      (if x.GreaterOrEqualVersion s.Version [8, 0, 4] = true ∧ s.NativeAuthPlugin = true then
        ["default_authentication_plugin=mysql_native_password"] else [])
      (if x.GreaterOrEqualVersion s.Version [8, 0, 4] = true ∧ s.NativeAuthPlugin = true then
        ["--default_authentication_plugin=mysql_native_password"] else []) [] [] ∧
    (rule_native_auth x s).MysqlXPort = s.MysqlXPort ∧
    (rule_native_auth x s).CustomMysqld = s.CustomMysqld := by
  unfold rule_native_auth Appended
  by_cases hv : x.GreaterOrEqualVersion s.Version [8, 0, 4] = true <;>
    by_cases he : s.NativeAuthPlugin = true <;>
    simp [hv, he]

theorem rule_my_cnf_file_appended (x : Externals) (s : SandboxDef) :
    Appended s (rule_my_cnf_file x s)
      (if s.MyCnfFile ≠ "" then
        (if (GetOptionsFromFile x s.MyCnfFile).length > 0 then
          ["# options retrieved from " ++ s.MyCnfFile] else [])
          ++ GetOptionsFromFile x s.MyCnfFile
       else []) [] [] [] ∧
    (rule_my_cnf_file x s).MysqlXPort = s.MysqlXPort ∧
    (rule_my_cnf_file x s).CustomMysqld = s.CustomMysqld := by
  unfold rule_my_cnf_file Appended
  by_cases hf : s.MyCnfFile = "" <;>
    by_cases hl : (GetOptionsFromFile x s.MyCnfFile).length > 0 <;>
    simp [hf, hl]

theorem rule_expose_dd_tables_appended (x : Externals) (d e : Derived)
    (hd : (rule_expose_dd_tables x d).2 = Except.ok e) :
    Appended d.sdef e.sdef [] [] (appended_PostGrantsSql x d.sdef) [] ∧
    e.sdef.MysqlXPort = d.sdef.MysqlXPort ∧
    e.sdef.CustomMysqld
      = (if d.sdef.ExposeDdTables = true then "mysqld-debug" else d.sdef.CustomMysqld) := by
  unfold rule_expose_dd_tables at hd
  unfold appended_PostGrantsSql
  by_cases h1 : d.sdef.ExposeDdTables = true
  · rw [if_pos h1] at hd
    rw [if_pos h1, if_pos h1]
    split_ifs at hd
    all_goals first
      | (exfalso; cases hd; done)
      | (simp only [Except.ok.injEq] at hd
         subst hd
         exact ⟨⟨by simp, by simp, rfl, by simp⟩, rfl, rfl⟩)
  · rw [if_neg h1] at hd
    rw [if_neg h1, if_neg h1]
    simp only [Except.ok.injEq] at hd
    subst hd
    exact ⟨Appended_refl _, rfl, rfl⟩

theorem rule_custom_mysqld_appended (h : Host) (d e : Derived)
    (hd : (rule_custom_mysqld h d).2 = Except.ok e) :
    Appended d.sdef e.sdef
      (if d.sdef.CustomMysqld = "mysqld-debug" ∧
          h.DirExists (d.sdef.Basedir ++ "/lib/plugin/debug") = true then
        ["plugin-dir=" ++ (d.sdef.Basedir ++ "/lib/plugin/debug")] else []) [] [] [] ∧
    e.sdef.MysqlXPort = d.sdef.MysqlXPort ∧ e.sdef.CustomMysqld = d.sdef.CustomMysqld ∧
    (d.sdef.CustomMysqld ≠ "" →
      h.ExecExists (d.sdef.Basedir ++ "/bin/" ++ d.sdef.CustomMysqld) = true) := by
  unfold rule_custom_mysqld at hd
  dsimp only at hd
  by_cases h1 : d.sdef.CustomMysqld ≠ ""
  · rw [if_pos h1] at hd
    by_cases h2 : (!h.ExecExists (d.sdef.Basedir ++ "/bin/" ++ d.sdef.CustomMysqld)) = true
    · rw [if_pos h2] at hd
      cases hd
    · rw [if_neg h2] at hd
      have hex : h.ExecExists (d.sdef.Basedir ++ "/bin/" ++ d.sdef.CustomMysqld) = true := by
        simpa using h2
      by_cases h3 : d.sdef.CustomMysqld = "mysqld-debug" ∧
          h.DirExists (d.sdef.Basedir ++ "/lib/plugin/debug") = true
      · rw [if_pos h3] at hd
        rw [if_pos h3]
        simp only [Except.ok.injEq] at hd
        subst hd
        exact ⟨⟨rfl, by simp, by simp, by simp⟩, rfl, rfl, fun _ => hex⟩
      · rw [if_neg h3] at hd
        rw [if_neg h3]
        simp only [Except.ok.injEq] at hd
        subst hd
        exact ⟨Appended_refl _, rfl, rfl, fun _ => hex⟩
  · rw [if_neg h1] at hd
    simp only [Except.ok.injEq] at hd
    subst hd
    have h3 : ¬ (d.sdef.CustomMysqld = "mysqld-debug" ∧
        h.DirExists (d.sdef.Basedir ++ "/lib/plugin/debug") = true) := by
      rintro ⟨hc, -⟩
      apply h1
      rw [hc]
      decide
    rw [if_neg h3]
    exact ⟨Appended_refl _, rfl, rfl, fun hne => absurd hne h1⟩

/-- Two runs of the extension-interface rule on definitions of the same version and flag
that settle on the same port append the same entries. -/
theorem rule_mysqlx_8011_twice (x : Externals) (tmp : String) (s s' r r' : SandboxDef)
    (hv : s'.Version = s.Version) (hdis : s'.DisableMysqlX = s.DisableMysqlX)
    (hport : mysqlx_port x s' = mysqlx_port x s)
    (hr : (rule_mysqlx_8011 x tmp s).2 = Except.ok r)
    (hr' : (rule_mysqlx_8011 x tmp s').2 = Except.ok r') :
    ∃ c m, Appended s r c [] [] m ∧ Appended s' r' c [] [] m ∧
      mysqlx_port x r = mysqlx_port x s ∧ mysqlx_port x r' = mysqlx_port x s' ∧
      r.CustomMysqld = s.CustomMysqld ∧ r'.CustomMysqld = s'.CustomMysqld := by
  unfold rule_mysqlx_8011 at hr hr'
  rw [hv, hdis] at hr'
  by_cases h1 : x.GreaterOrEqualVersion s.Version [8, 0, 11] = true
  · rw [if_pos h1] at hr hr'
    by_cases h2 : s.DisableMysqlX = true
    · rw [if_pos h2] at hr hr'
      simp only [Except.ok.injEq] at hr hr'
      subst hr hr'
      exact ⟨["mysqlx=OFF"], [], ⟨rfl, by simp, by simp, by simp⟩,
        ⟨rfl, by simp, by simp, by simp⟩, rfl, rfl, rfl, rfl⟩
    · rw [if_neg h2] at hr hr'
      obtain ⟨port, hp, ha, hi, hc⟩ := set_mysqlx_properties_appended x s r tmp hr
      obtain ⟨port', hp', ha', hi', hc'⟩ := set_mysqlx_properties_appended x s' r' tmp hr'
      have hsame : port' = port := by
        rw [hport, hp] at hp'
        simp only [Except.ok.injEq] at hp'
        exact hp'.symm
      subst hsame
      exact ⟨_, _, ha, ha', hi, hi', hc, hc'⟩
  · rw [if_neg h1] at hr hr'
    simp only [Except.ok.injEq] at hr hr'
    subst hr hr'
    exact ⟨[], [], Appended_refl _, Appended_refl _, rfl, rfl, rfl, rfl⟩

/-- Two runs of the `EnableMysqlX` rule on definitions of the same version and flag that
settle on the same port append the same entries. -/
theorem rule_enable_mysqlx_twice (x : Externals) (tmp : String) (d d' e e' : Derived)
    (hv : d'.sdef.Version = d.sdef.Version)
    (hen : d'.sdef.EnableMysqlX = d.sdef.EnableMysqlX)
    (hport : mysqlx_port x d'.sdef = mysqlx_port x d.sdef)
    (he : (rule_enable_mysqlx x tmp d).2 = Except.ok e)
    (he' : (rule_enable_mysqlx x tmp d').2 = Except.ok e') :
    ∃ c m, Appended d.sdef e.sdef c [] [] m ∧ Appended d'.sdef e'.sdef c [] [] m ∧
      mysqlx_port x e.sdef = mysqlx_port x d.sdef ∧
      mysqlx_port x e'.sdef = mysqlx_port x d'.sdef ∧
      e.sdef.CustomMysqld = d.sdef.CustomMysqld ∧
      e'.sdef.CustomMysqld = d'.sdef.CustomMysqld := by
  unfold rule_enable_mysqlx at he he'
  rw [hv, hen] at he'
  by_cases h1 : d.sdef.EnableMysqlX = true
  · rw [if_pos h1] at he he'
    by_cases h2 : (!x.GreaterOrEqualVersion d.sdef.Version [5, 7, 12]) = true
    · rw [if_pos h2] at he
      cases he
    · rw [if_neg h2] at he he'
      by_cases h3 : (!x.GreaterOrEqualVersion d.sdef.Version [8, 0, 11]) = true
      · rw [if_pos h3] at he he'
        rw [andThen_ok_iff] at he he'
        obtain ⟨s, hs, hes⟩ := he
        obtain ⟨s', hs', hes'⟩ := he'
        simp only [Except.ok.injEq] at hes hes'
        subst hes hes'
        obtain ⟨port, hp, ha, hi, hc⟩ := set_mysqlx_properties_appended x _ s tmp hs
        obtain ⟨port', hp', ha', hi', hc'⟩ := set_mysqlx_properties_appended x _ s' tmp hs'
        have e1 : mysqlx_port x { d.sdef with
            MyCnfOptions := d.sdef.MyCnfOptions ++ ["plugin_load=mysqlx=mysqlx.so"] }
            = mysqlx_port x d.sdef := rfl
        have e1' : mysqlx_port x { d'.sdef with
            MyCnfOptions := d'.sdef.MyCnfOptions ++ ["plugin_load=mysqlx=mysqlx.so"] }
            = mysqlx_port x d'.sdef := rfl
        rw [e1] at hp hi
        rw [e1'] at hp' hi'
        have hsame : port' = port := by
          rw [hport, hp] at hp'
          simp only [Except.ok.injEq] at hp'
          exact hp'.symm
        subst hsame
        have b : Appended d.sdef { d.sdef with
            MyCnfOptions := d.sdef.MyCnfOptions ++ ["plugin_load=mysqlx=mysqlx.so"] }
            ["plugin_load=mysqlx=mysqlx.so"] [] [] [] := ⟨rfl, by simp, by simp, by simp⟩
        have b' : Appended d'.sdef { d'.sdef with
            MyCnfOptions := d'.sdef.MyCnfOptions ++ ["plugin_load=mysqlx=mysqlx.so"] }
            ["plugin_load=mysqlx=mysqlx.so"] [] [] [] := ⟨rfl, by simp, by simp, by simp⟩
        exact ⟨_, _, Appended_trans b ha, Appended_trans b' ha', hi, hi', hc, hc'⟩
      · rw [if_neg h3] at he he'
        simp only [Except.ok.injEq] at he he'
        subst he he'
        exact ⟨[], [], Appended_refl _, Appended_refl _, rfl, rfl, rfl, rfl⟩
  · rw [if_neg h1] at he he'
    simp only [Except.ok.injEq] at he he'
    subst he he'
    exact ⟨[], [], Appended_refl _, Appended_refl _, rfl, rfl, rfl, rfl⟩

theorem appended_InitOptions_congr (x : Externals) {s t : SandboxDef}
    (hf : SameExceptDerived s t) : appended_InitOptions x t = appended_InitOptions x s := by
  obtain ⟨-, g1, -, g2⟩ := SameExceptDerived_requests hf
  obtain ⟨-, g3, -⟩ := SameExceptDerived_fields hf
  unfold appended_InitOptions
  rw [g1, g2, g3]

theorem appended_PostGrantsSql_congr (x : Externals) {s t : SandboxDef}
    (hf : SameExceptDerived s t) :
    appended_PostGrantsSql x t = appended_PostGrantsSql x s := by
  obtain ⟨g1, -⟩ := SameExceptDerived_fields hf
  unfold appended_PostGrantsSql
  rw [g1]

/-- Two returning runs of the derivation, on definitions that agree on the request, settle
on the same port and have compatible executables, append the same entries to the four
lists; `InitOptions` and `PostGrantsSql` receive the entries of their rules. -/
theorem derive_options_twice (h : Host) (x : Externals) (tmp : String) (s s' : SandboxDef)
    (d d' : Derived) (hreq : SameExceptDerived s s')
    (hport : mysqlx_port x s' = mysqlx_port x s)
    (hcustom : s'.CustomMysqld = s.CustomMysqld ∨
      (s.ExposeDdTables = true ∧ s'.CustomMysqld = "mysqld-debug"))
    (hd : (derive_options h x tmp s).2 = Except.ok d)
    (hd' : (derive_options h x tmp s').2 = Except.ok d') :
    ∃ c m, Appended s d.sdef c (appended_InitOptions x s) (appended_PostGrantsSql x s) m ∧
      Appended s' d'.sdef c (appended_InitOptions x s) (appended_PostGrantsSql x s) m ∧
      mysqlx_port x d.sdef = mysqlx_port x s ∧
      d.sdef.CustomMysqld
        = (if s.ExposeDdTables = true then "mysqld-debug" else s.CustomMysqld) ∧
      (d.sdef.CustomMysqld ≠ "" →
        h.ExecExists (s.Basedir ++ "/bin/" ++ d.sdef.CustomMysqld) = true) := by
  obtain ⟨d1, d2, d3, s4, h1, h2, h3, h4, h5⟩ := derive_options_ok h x tmp s d hd
  obtain ⟨d1', d2', d3', s4', h1', h2', h3', h4', h5'⟩ := derive_options_ok h x tmp s' d' hd'
  -- the request fields of the second run are those of the first
  obtain ⟨q1, q2, -⟩ := SameExceptDerived_fields hreq
  obtain ⟨q3, -⟩ := SameExceptDerived_requests hreq
  -- rule 1
  obtain ⟨c1, m1, a1, a1', p1, p1', k1, k1'⟩ :=
    rule_enable_mysqlx_twice x tmp _ _ d1 d1' q2 q3 hport h1 h1'
  obtain ⟨f1, -, -⟩ := rule_enable_mysqlx_frame x _ _ d1 h1
  obtain ⟨f1', -, -⟩ := rule_enable_mysqlx_frame x _ _ d1' h1'
  simp only at a1 a1' p1 p1' k1 k1' f1 f1'
  -- rule 2
  have e2 := rule_expose_dd_tables_appended x _ d2 h2
  have e2' := rule_expose_dd_tables_appended x _ d2' h2'
  obtain ⟨f2, -, -⟩ := rule_expose_dd_tables_frame x _ d2 h2
  obtain ⟨f2', -, -⟩ := rule_expose_dd_tables_frame x _ d2' h2'
  rw [(rule_mysqlx_default_sdef x d1).1] at e2 f2
  rw [(rule_mysqlx_default_sdef x d1').1] at e2' f2'
  obtain ⟨a2, i2, k2⟩ := e2
  obtain ⟨a2', i2', k2'⟩ := e2'
  have g1 : SameExceptDerived s d1.sdef := f1
  have g1' : SameExceptDerived s d1'.sdef := SameExceptDerived_trans hreq f1'
  have g2 : SameExceptDerived s d2.sdef := SameExceptDerived_trans g1 f2
  have g2' : SameExceptDerived s d2'.sdef := SameExceptDerived_trans g1' f2'
  rw [appended_PostGrantsSql_congr x g1] at a2
  rw [appended_PostGrantsSql_congr x g1'] at a2'
  rw [(SameExceptDerived_fields g1).1, k1] at k2
  rw [(SameExceptDerived_fields g1').1, k1'] at k2'
  have hc2 : d2'.sdef.CustomMysqld = d2.sdef.CustomMysqld := by
    rw [k2, k2']
    by_cases hex : s.ExposeDdTables = true
    · rw [if_pos hex, if_pos hex]
    · rw [if_neg hex, if_neg hex]
      rcases hcustom with hcu | ⟨hcu, -⟩
      · exact hcu
      · exact absurd hcu hex
  have p2 : mysqlx_port x d2.sdef = mysqlx_port x s :=
    (mysqlx_port_congr x f2 i2).trans p1
  have p2' : mysqlx_port x d2'.sdef = mysqlx_port x s :=
    ((mysqlx_port_congr x f2' i2').trans p1').trans hport
  -- rule 3
  obtain ⟨a3, i3, k3, x3⟩ := rule_custom_mysqld_appended h d2 d3 h3
  obtain ⟨a3', i3', k3', -⟩ := rule_custom_mysqld_appended h d2' d3' h3'
  obtain ⟨f3, -⟩ := rule_custom_mysqld_frame h d2 d3 h3
  obtain ⟨f3', -⟩ := rule_custom_mysqld_frame h d2' d3' h3'
  have g3 : SameExceptDerived s d3.sdef := SameExceptDerived_trans g2 f3
  have g3' : SameExceptDerived s d3'.sdef := SameExceptDerived_trans g2' f3'
  rw [hc2, (SameExceptDerived_fields g2').2.2.1, ← (SameExceptDerived_fields g2).2.2.1] at a3'
  have p3 : mysqlx_port x d3.sdef = mysqlx_port x s :=
    (mysqlx_port_congr x f3 i3).trans p2
  have p3' : mysqlx_port x d3'.sdef = mysqlx_port x s :=
    (mysqlx_port_congr x f3' i3').trans p2'
  -- rules 4 and 5
  obtain ⟨a4, i4, k4⟩ := rule_general_log_appended x d3.sdef
  obtain ⟨a4', i4', k4'⟩ := rule_general_log_appended x d3'.sdef
  obtain ⟨f4, -⟩ := rule_general_log_frame x d3.sdef
  obtain ⟨f4', -⟩ := rule_general_log_frame x d3'.sdef
  have g4 := SameExceptDerived_trans g3 f4
  have g4' := SameExceptDerived_trans g3' f4'
  obtain ⟨a5, i5, k5⟩ := rule_native_auth_appended x (rule_general_log x d3.sdef)
  obtain ⟨a5', i5', k5'⟩ := rule_native_auth_appended x (rule_general_log x d3'.sdef)
  obtain ⟨f5, -⟩ := rule_native_auth_frame x (rule_general_log x d3.sdef)
  obtain ⟨f5', -⟩ := rule_native_auth_frame x (rule_general_log x d3'.sdef)
  have g5 := SameExceptDerived_trans g4 f5
  have g5' := SameExceptDerived_trans g4' f5'
  rw [(SameExceptDerived_fields g3).2.1, (SameExceptDerived_requests g3).2.2.1,
    (SameExceptDerived_requests g3).2.2.2] at a4
  rw [(SameExceptDerived_fields g3').2.1, (SameExceptDerived_requests g3').2.2.1,
    (SameExceptDerived_requests g3').2.2.2] at a4'
  rw [(SameExceptDerived_fields g4).2.1, (SameExceptDerived_requests g4).2.1] at a5
  rw [(SameExceptDerived_fields g4').2.1, (SameExceptDerived_requests g4').2.1] at a5'
  have p5 : mysqlx_port x (rule_native_auth x (rule_general_log x d3.sdef))
      = mysqlx_port x s :=
    ((mysqlx_port_congr x f5 i5).trans (mysqlx_port_congr x f4 i4)).trans p3
  have p5' : mysqlx_port x (rule_native_auth x (rule_general_log x d3'.sdef))
      = mysqlx_port x s :=
    ((mysqlx_port_congr x f5' i5').trans (mysqlx_port_congr x f4' i4')).trans p3'
  -- rule 6
  obtain ⟨c6, m6, a6, a6', p6, p6', k6, k6'⟩ :=
    rule_mysqlx_8011_twice x tmp _ _ s4 s4'
      (((SameExceptDerived_fields g5').2.1).trans ((SameExceptDerived_fields g5).2.1).symm)
      (((SameExceptDerived_guards g5').2.2.2).trans
        ((SameExceptDerived_guards g5).2.2.2).symm)
      (p5'.trans p5.symm) h4 h4'
  obtain ⟨f6, -⟩ := rule_mysqlx_8011_frame x tmp _ s4 h4
  obtain ⟨f6', -⟩ := rule_mysqlx_8011_frame x tmp _ s4' h4'
  have g6 := SameExceptDerived_trans g5 f6
  have g6' := SameExceptDerived_trans g5' f6'
  -- rule 7
  obtain ⟨a7, i7, k7⟩ := rule_my_cnf_file_appended x s4
  obtain ⟨a7', i7', k7'⟩ := rule_my_cnf_file_appended x s4'
  obtain ⟨f7, -⟩ := rule_my_cnf_file_frame x s4
  rw [(SameExceptDerived_guards g6).2.2.1] at a7
  rw [(SameExceptDerived_guards g6').2.2.1] at a7'
  -- the results
  have hsd : d.sdef = rule_my_cnf_file x s4 := by
    rw [rule_plugin_check_ok _ d h5, (rule_plugin_load_sdef _).1]
  have hsd' : d'.sdef = rule_my_cnf_file x s4' := by
    rw [rule_plugin_check_ok _ d' h5', (rule_plugin_load_sdef _).1]
  have total := Appended_trans (Appended_trans (Appended_trans (Appended_trans
    (Appended_trans (Appended_trans a1 a2) a3) a4) a5) a6) a7
  have total' := Appended_trans (Appended_trans (Appended_trans (Appended_trans
    (Appended_trans (Appended_trans a1' a2') a3') a4') a5') a6') a7'
  obtain ⟨t1, t2, t3, t4⟩ := total
  obtain ⟨t1', t2', t3', t4'⟩ := total'
  rw [hsd, hsd']
  refine ⟨_, _, ⟨t1, ?_, ?_, t4⟩, ⟨t1', ?_, ?_, t4'⟩, ?_, ?_, ?_⟩
  · rw [t2]
    simp [appended_InitOptions]
  · rw [t3]
    simp [appended_PostGrantsSql]
  · rw [t2']
    simp [appended_InitOptions]
  · rw [t3']
    simp [appended_PostGrantsSql]
  · exact ((mysqlx_port_congr x f7 i7).trans p6).trans p5
  · rw [k7, k6, k5, k4, k3, k2]
  · intro hne
    have hk : (rule_my_cnf_file x s4).CustomMysqld = d2.sdef.CustomMysqld := by
      rw [k7, k6, k5, k4, k3]
    rw [hk] at hne ⊢
    rw [← (SameExceptDerived_fields g2).2.2.1]
    exact x3 hne

/-! ## Claim C16: the derivation applied to its own result -/

/-- C16, amended: the version-gated derivation only appends, and it is not idempotent.
Applied to a definition that is already its own result for the same version, it appends
to each of `MyCnfOptions`, `InitOptions`, `PostGrantsSql` and `MorePorts` exactly the
entries the first application appended, once more; for `InitOptions` and `PostGrantsSql`
these are the entries of the general-log, native-authentication and expose-tables rules
that apply. -/
theorem derive_options_appends (h : Host) (x : Externals) (tmp : String) (sdef : SandboxDef)
    (first second : Derived)
    (h1 : (derive_options h x tmp sdef).2 = Except.ok first)
    (h2 : (derive_options h x tmp first.sdef).2 = Except.ok second) :
    ∃ (cnf : List String) (ports : List Int),
      (first.sdef.MyCnfOptions = sdef.MyCnfOptions ++ cnf ∧
        second.sdef.MyCnfOptions = first.sdef.MyCnfOptions ++ cnf) ∧
      (first.sdef.InitOptions = sdef.InitOptions ++ appended_InitOptions x sdef ∧
        second.sdef.InitOptions = first.sdef.InitOptions ++ appended_InitOptions x sdef) ∧
      (first.sdef.PostGrantsSql = sdef.PostGrantsSql ++ appended_PostGrantsSql x sdef ∧
        second.sdef.PostGrantsSql
          = first.sdef.PostGrantsSql ++ appended_PostGrantsSql x sdef) ∧
      (first.sdef.MorePorts = sdef.MorePorts ++ ports ∧
        second.sdef.MorePorts = first.sdef.MorePorts ++ ports) ∧
      first.sdef.Version = sdef.Version ∧ second.sdef.Version = sdef.Version := by
  obtain ⟨_, _, -, -, hp, hc, -⟩ := derive_options_twice h x tmp sdef sdef first first
    (SameExceptDerived_refl _) rfl (Or.inl rfl) h1 h1
  obtain ⟨f1, -⟩ := derive_options_frame h x tmp sdef first h1
  obtain ⟨f2, -⟩ := derive_options_frame h x tmp first.sdef second h2
  have hcustom : first.sdef.CustomMysqld = sdef.CustomMysqld ∨
      (sdef.ExposeDdTables = true ∧ first.sdef.CustomMysqld = "mysqld-debug") := by
    by_cases hex : sdef.ExposeDdTables = true
    · rw [if_pos hex] at hc
      exact Or.inr ⟨hex, hc⟩
    · rw [if_neg hex] at hc
      exact Or.inl hc
  obtain ⟨cnf, ports, a, b, -⟩ := derive_options_twice h x tmp sdef first.sdef first second
    f1 hp hcustom h1 h2
  exact ⟨cnf, ports, ⟨a.1, b.1⟩, ⟨a.2.1, b.2.1⟩, ⟨a.2.2.1, b.2.2.1⟩, ⟨a.2.2.2, b.2.2.2⟩,
    (SameExceptDerived_fields f1).2.1,
    ((SameExceptDerived_fields f2).2.1).trans (SameExceptDerived_fields f1).2.1⟩

/-- Witness for the amended C16: version 5.7.30 with the general log enabled, derived
twice: the second result holds `general_log=1` twice. -/
theorem derive_options_appends_witness :
    ∃ cnf : List String,
      (["general_log=1"] : List String) = [] ++ cnf ∧
      (["general_log=1", "general_log=1"] : List String) = ["general_log=1"] ++ cnf := by
  obtain ⟨cnf, -, hcnf, -⟩ := derive_options_appends host_8_0_11 (externalsOf [] []) "/tmp"
    { sdef_8_0_11 with Version := "5.7.30", EnableGeneralLog := true }
    { sdef := { sdef_8_0_11 with Version := "5.7.30", EnableGeneralLog := true,
                                  MyCnfOptions := ["general_log=1"] },
      using_plugins := false, right_plugin_dir := true }
    { sdef := { sdef_8_0_11 with Version := "5.7.30", EnableGeneralLog := true,
                                  MyCnfOptions := ["general_log=1", "general_log=1"] },
      using_plugins := false, right_plugin_dir := true }
    (by decide) (by decide)
  exact ⟨cnf, hcnf.1, hcnf.2⟩

/-! ## Claim C18: exposing the data dictionary tables -/

theorem SameExceptPrepared_grants {s t : SandboxDef} (hf : SameExceptPrepared s t) :
    t.PostGrantsSql = s.PostGrantsSql ∧ t.MyCnfFile = s.MyCnfFile := by
  unfold SameExceptPrepared at hf
  rw [hf]
  exact ⟨rfl, rfl⟩

/-- With `ExposeDdTables` requested, a returning derivation has set `CustomMysqld` to
`mysqld-debug`, found that executable, and appended the expose-tables SQL. -/
theorem derive_options_expose (h : Host) (x : Externals) (tmp : String) (sdef : SandboxDef)
    (d : Derived) (hex : sdef.ExposeDdTables = true)
    (hd : (derive_options h x tmp sdef).2 = Except.ok d) :
    d.sdef.CustomMysqld = "mysqld-debug" ∧
    d.sdef.PostGrantsSql = sdef.PostGrantsSql ++ [x.expose_dd_tables] ∧
    h.ExecExists (sdef.Basedir ++ "/bin/" ++ "mysqld-debug") = true := by
  obtain ⟨c, m, a, -, -, hc, hx⟩ := derive_options_twice h x tmp sdef sdef d d
    (SameExceptDerived_refl _) rfl (Or.inl rfl) hd hd
  rw [if_pos hex] at hc
  refine ⟨hc, ?_, ?_⟩
  · rw [a.2.2.1]
    unfold appended_PostGrantsSql
    rw [if_pos hex]
  · have := hx (by rw [hc]; decide)
    rw [hc] at this
    exact this

/-- C18: when `ExposeDdTables` is requested, `CreateSingleSandbox` ends fatally if the
version is below 8.0.0, and ends fatally if `CustomMysqld` is neither empty nor
`"mysqld-debug"`. In every remaining case the rule sets `CustomMysqld` to `"mysqld-debug"`
(whether it was empty or already that) and appends the expose-tables SQL to
`PostGrantsSql`; every derivation that returns has done so, and every returning
`CreateSingleSandbox` has found the executable `mysqld-debug` and written the grants of
the request followed by the expose-tables SQL to `post_grants.sql`. -/
theorem CreateSingleSandbox_expose_dd_tables (h : Host) (x : Externals) (sdef : SandboxDef)
    (hex : sdef.ExposeDdTables = true) :
    (x.GreaterOrEqualVersion sdef.Version [8, 0, 0] = false →
      ∃ e, (CreateSingleSandbox h x sdef).2 = Except.error e) ∧
    (sdef.CustomMysqld ≠ "" → sdef.CustomMysqld ≠ "mysqld-debug" →
      ∃ e, (CreateSingleSandbox h x sdef).2 = Except.error e) ∧
    (x.GreaterOrEqualVersion sdef.Version [8, 0, 0] = true →
      (sdef.CustomMysqld = "" ∨ sdef.CustomMysqld = "mysqld-debug") →
      ∀ u r : Bool,
        rule_expose_dd_tables x { sdef := sdef, using_plugins := u, right_plugin_dir := r }
          = ([], Except.ok
              { sdef := { sdef with
                  PostGrantsSql := sdef.PostGrantsSql ++ [x.expose_dd_tables]
                  CustomMysqld := "mysqld-debug" },
                using_plugins := u, right_plugin_dir := r })) ∧
    (∀ tmp d, (derive_options h x tmp sdef).2 = Except.ok d →
      d.sdef.CustomMysqld = "mysqld-debug" ∧
      d.sdef.PostGrantsSql = sdef.PostGrantsSql ++ [x.expose_dd_tables]) ∧
    (∀ l, (CreateSingleSandbox h x sdef).2 = Except.ok l →
      x.GreaterOrEqualVersion sdef.Version [8, 0, 0] = true ∧
      (sdef.CustomMysqld = "" ∨ sdef.CustomMysqld = "mysqld-debug") ∧
      h.ExecExists (sdef.Basedir ++ "/bin/" ++ "mysqld-debug") = true ∧
      (Step.WriteStrings (sdef.PostGrantsSql ++ [x.expose_dd_tables])
          (sandbox_dir_of x sdef ++ "/post_grants.sql") ";"
            ∈ (CreateSingleSandbox h x sdef).1 ∨
        Step.AppendStrings (sdef.PostGrantsSql ++ [x.expose_dd_tables])
          (sandbox_dir_of x sdef ++ "/post_grants.sql") ";"
            ∈ (CreateSingleSandbox h x sdef).1)) := by
  have key : (x.GreaterOrEqualVersion sdef.Version [8, 0, 0] = false ∨
        (sdef.CustomMysqld ≠ "" ∧ sdef.CustomMysqld ≠ "mysqld-debug")) →
      ∀ l, (CreateSingleSandbox h x sdef).2 ≠ Except.ok l := by
    intro hbad l hok
    obtain ⟨p, d, s, l0, hp, hd, -⟩ := CreateSingleSandbox_ok h x sdef l hok
    obtain ⟨fp, -⟩ := prepare_ok h x sdef p hp
    obtain ⟨p1, p2, p3, -⟩ := SameExceptPrepared_fields fp
    obtain ⟨d1, d2, d3, s4, h1, h2, -⟩ := derive_options_ok h x _ _ d hd
    obtain ⟨f1, -, -⟩ := rule_enable_mysqlx_frame x _ _ d1 h1
    obtain ⟨q1, q2, -⟩ := SameExceptDerived_fields f1
    have q3 := rule_enable_mysqlx_CustomMysqld x _ _ d1 h1
    simp only at q1 q2 q3
    refine rule_expose_dd_tables_error x (rule_mysqlx_default x d1) ?_ ?_ d2 h2
    · rw [(rule_mysqlx_default_sdef x d1).1, q1, p1, hex]
    · rw [(rule_mysqlx_default_sdef x d1).1, q2, p2, q3, p3]
      exact hbad
  refine ⟨fun hv => except_error_of_not_ok _ (key (Or.inl hv)),
    fun c1 c2 => except_error_of_not_ok _ (key (Or.inr ⟨c1, c2⟩)), ?_, ?_, ?_⟩
  · intro hv hc u r
    unfold rule_expose_dd_tables
    have hnot : ¬ (sdef.CustomMysqld ≠ "" ∧ sdef.CustomMysqld ≠ "mysqld-debug") := by
      rintro ⟨a, b⟩
      rcases hc with hc | hc
      · exact a hc
      · exact b hc
    simp only [hex, hv, if_true, Bool.not_true, Bool.false_eq_true, if_false, hnot]
  · intro tmp d hd
    obtain ⟨a, b, -⟩ := derive_options_expose h x tmp sdef d hex hd
    exact ⟨a, b⟩
  · intro l hok
    have hv : x.GreaterOrEqualVersion sdef.Version [8, 0, 0] = true := by
      by_contra hv
      exact key (Or.inl (by simpa using hv)) l hok
    have hc : sdef.CustomMysqld = "" ∨ sdef.CustomMysqld = "mysqld-debug" := by
      by_contra hc
      push_neg at hc
      exact key (Or.inr hc) l hok
    obtain ⟨p, d, s, l0, hp, hd, hs, -, -, htrace⟩ := CreateSingleSandbox_ok h x sdef l hok
    obtain ⟨fp, hdir, -⟩ := prepare_ok h x sdef p hp
    obtain ⟨p1, -, -, p4, -⟩ := SameExceptPrepared_fields fp
    obtain ⟨p5, -⟩ := SameExceptPrepared_grants fp
    obtain ⟨-, b, c⟩ := derive_options_expose h x _ p.sdef d (p1.trans hex) hd
    obtain ⟨s5, -⟩ := SameExceptPrepared_grants (check_stage_ok h d.sdef s _ hs)
    rw [p4] at c
    rw [p5] at b
    have hpost : s.PostGrantsSql = sdef.PostGrantsSql ++ [x.expose_dd_tables] := s5.trans b
    refine ⟨hv, hc, c, ?_⟩
    rw [htrace, ← hdir]
    have hlen : s.PostGrantsSql.length > 0 := by
      rw [hpost]
      simp
    have hin : Step.WriteStrings s.PostGrantsSql (p.sandbox_dir ++ "/post_grants.sql") ";"
          ∈ scripts_stage x s p.sandbox_dir ∨
        Step.AppendStrings s.PostGrantsSql (p.sandbox_dir ++ "/post_grants.sql") ";"
          ∈ scripts_stage x s p.sandbox_dir := by
      unfold scripts_stage
      dsimp only
      rw [if_pos hlen]
      by_cases hf : x.FileExists_later (p.sandbox_dir ++ "/post_grants.sql") = true
      · right
        rw [if_pos hf]
        exact List.mem_append_right _ (List.mem_singleton.2 rfl)
      · left
        rw [if_neg hf]
        exact List.mem_append_right _ (List.mem_singleton.2 rfl)
    rw [hpost] at hin
    have hsub : ∀ st, st ∈ scripts_stage x s p.sandbox_dir →
        st ∈ (prepare h x sdef).1 ++ ((derive_options h x p.global_tmp_dir p.sdef).1 ++
          ((check_stage h d.sdef p.sandbox_dir).1 ++ ((init_stage h x s p.sandbox_dir).1 ++
            (scripts_stage x s p.sandbox_dir ++ (start_stage s p.sandbox_dir l0).1)))) := by
      intro st hst
      exact List.mem_append_right _ (List.mem_append_right _ (List.mem_append_right _
        (List.mem_append_right _ (List.mem_append_left _ hst))))
    rcases hin with hin | hin
    · exact Or.inl (hsub _ hin)
    · exact Or.inr (hsub _ hin)

/-- Witness for C18: with the debug server and its plugin directory in place, exposing the
tables for version 8.0.11 returns; `mysqld-debug` was found and the expose-tables SQL was
written to `post_grants.sql`. -/
theorem CreateSingleSandbox_expose_dd_tables_witness :
    (host_debug true).ExecExists (sdef_expose.Basedir ++ "/bin/" ++ "mysqld-debug") = true ∧
    (Step.WriteStrings (sdef_expose.PostGrantsSql ++ [(externalsOf [] []).expose_dd_tables])
        (sandbox_dir_of (externalsOf [] []) sdef_expose ++ "/post_grants.sql") ";"
          ∈ (CreateSingleSandbox (host_debug true) (externalsOf [] []) sdef_expose).1 ∨
      Step.AppendStrings (sdef_expose.PostGrantsSql ++ [(externalsOf [] []).expose_dd_tables])
        (sandbox_dir_of (externalsOf [] []) sdef_expose ++ "/post_grants.sql") ";"
          ∈ (CreateSingleSandbox (host_debug true) (externalsOf [] []) sdef_expose).1) :=
  ((CreateSingleSandbox_expose_dd_tables (host_debug true) (externalsOf [] []) sdef_expose
    rfl).2.2.2.2 [] (by decide)).2.2

/-! ## Claim C19: plugin-load directives and the plugin directory -/

theorem matchAnywhere_append_left (p : List Atom) (u v : List Char)
    (hm : matchAnywhere p v = true) : matchAnywhere p (u ++ v) = true := by
  induction u with
  | nil => exact hm
  | cons c cs ih =>
    simp only [List.cons_append, matchAnywhere, Bool.or_eq_true]
    exact Or.inr ih

theorem Includes_of_suffix (l1 l2 : List String) (pattern : String) (hp : l1 <:+ l2)
    (hi : Includes (slice_to_text l1) pattern = true) :
    Includes (slice_to_text l2) pattern = true := by
  obtain ⟨c, rfl⟩ := hp
  unfold Includes at hi ⊢
  rw [slice_to_text_append]
  exact matchAnywhere_append_left _ _ _ hi

theorem rule_plugin_check_right (d e : Derived)
    (hd : (rule_plugin_check d).2 = Except.ok e) (hu : d.using_plugins = true) :
    d.right_plugin_dir = true := by
  by_contra hr
  obtain ⟨m, hm⟩ := (rule_plugin_check_error_iff d).2 ⟨hu, by simpa using hr⟩
  rw [hd] at hm
  cases hm

/-- What a returning derivation has done about plugins: the explicit options begin the
final `MyCnfOptions` and the options of `MyCnfFile` end it; a plugin-load directive in that
text or in `SemiSyncOptions` has set `using_plugins`; and `using_plugins` is set only with
the plugin directory available. -/
theorem derive_options_plugins (h : Host) (x : Externals) (tmp : String) (sdef : SandboxDef)
    (d : Derived) (hd : (derive_options h x tmp sdef).2 = Except.ok d) :
    sdef.MyCnfOptions <+: d.sdef.MyCnfOptions ∧
    (sdef.MyCnfFile ≠ "" → GetOptionsFromFile x sdef.MyCnfFile <:+ d.sdef.MyCnfOptions) ∧
    ((Includes (slice_to_text d.sdef.MyCnfOptions) "plugin.load" = true ∨
        Includes sdef.SemiSyncOptions "plugin.load" = true) → d.using_plugins = true) ∧
    (d.using_plugins = true →
      forced_CustomMysqld sdef = "" ∨
        (forced_CustomMysqld sdef = "mysqld-debug" ∧
          h.DirExists (sdef.Basedir ++ "/lib/plugin/debug") = true)) := by
  obtain ⟨fd, ed⟩ := derive_options_frame h x tmp sdef d hd
  obtain ⟨-, -, -, d6⟩ := SameExceptDerived_fields fd
  obtain ⟨-, -, g3, -⟩ := SameExceptDerived_guards fd
  obtain ⟨d1, d2, d3, s4, h1, h2, h3, h4, h5⟩ := derive_options_ok h x tmp sdef d hd
  have he := rule_plugin_check_ok _ _ h5
  have hsd : d.sdef = rule_my_cnf_file x s4 := by
    rw [he, (rule_plugin_load_sdef _).1]
  have hfile : s4.MyCnfFile = sdef.MyCnfFile := by
    rw [← g3, hsd]
    unfold rule_my_cnf_file
    by_cases hf : s4.MyCnfFile = "" <;>
      by_cases hl : (GetOptionsFromFile x s4.MyCnfFile).length > 0 <;>
      simp [hf, hl]
  refine ⟨ed.1, ?_, ?_, ?_⟩
  · intro hf
    rw [hsd, rule_my_cnf_file_options x s4 (by rw [hfile]; exact hf), hfile]
    exact List.suffix_append _ _
  · intro hinc
    rw [he]
    apply rule_plugin_load_using
    simp only
    rw [← hsd]
    rcases hinc with hinc | hinc
    · exact Or.inl hinc
    · right; left
      rw [d6]
      exact hinc
  · intro hu
    have hr : d3.right_plugin_dir = true := by
      have := rule_plugin_check_right _ _ h5 (by rw [← he]; exact hu)
      rw [(rule_plugin_load_sdef _).2] at this
      exact this
    obtain ⟨f1, -, r1⟩ := rule_enable_mysqlx_frame x _ _ d1 h1
    obtain ⟨q1, -, q3, -⟩ := SameExceptDerived_fields f1
    have c1 := rule_enable_mysqlx_CustomMysqld x _ _ d1 h1
    simp only at q1 q3 c1 r1
    obtain ⟨f2, -, r2⟩ := rule_expose_dd_tables_frame x _ d2 h2
    obtain ⟨-, -, q4, -⟩ := SameExceptDerived_fields f2
    obtain ⟨-, -, c2⟩ := rule_expose_dd_tables_appended x _ d2 h2
    rw [(rule_mysqlx_default_sdef x d1).1] at q4 c2
    rw [q1, c1] at c2
    have hb2 : d2.sdef.Basedir = sdef.Basedir := by rw [q4, q3]
    have hforced : d2.sdef.CustomMysqld = forced_CustomMysqld sdef := by
      rw [c2]
      rfl
    rw [← hforced, ← hb2]
    by_cases hc : d2.sdef.CustomMysqld = ""
    · exact Or.inl hc
    · right
      by_contra hn
      have := (rule_custom_mysqld_ok h d2 d3 h3).2.1 hc hn
      rw [hr] at this
      cases this

/-- C19 as stated fails in its last clause: with no custom executable in the request, a
plugin-load directive makes `CreateSingleSandbox` end at the plugin check when
`ExposeDdTables` forces `mysqld-debug` and the debug plugin directory is missing; without
the directive the same request returns. -/
theorem CreateSingleSandbox_plugins_fatal_without_custom :
    ({ sdef_plugin with ExposeDdTables := true } : SandboxDef).CustomMysqld = "" ∧
    (CreateSingleSandbox (host_debug false) (externalsOf [] [])
        { sdef_plugin with ExposeDdTables := true }).2
      = Except.error ("The request of using mysqld-debug can't be honored.\n"
          ++ "This deployment is using a plugin, but the debug\n"
          ++ "directory for plugins was not found") ∧
    (CreateSingleSandbox (host_debug false) (externalsOf [] [])
        { sdef_plugin with ExposeDdTables := true, MyCnfOptions := [] }).2
      = Except.ok [] := by
  decide

/-- C19, amended: every returning derivation has the explicit options at the head of the
final `MyCnfOptions` and the options merged from `MyCnfFile` at its end, has marked the
deployment plugin-using when that text or `SemiSyncOptions` contains a plugin-load
directive, and is plugin-using only with the plugin directory available.
`CreateSingleSandbox` ends fatally whenever a directive is in the explicit options, in the
options of `MyCnfFile` or in `SemiSyncOptions` while the plugin directory is unavailable,
i.e. the custom executable (the requested one, or `mysqld-debug` forced by
`ExposeDdTables`) is set and is not `mysqld-debug` with an existing debug plugin directory.
When no custom executable is set and `ExposeDdTables` is not requested, the plugin check
never fails: the derivation returns as soon as the two extension-interface rules do. -/
theorem CreateSingleSandbox_plugins (h : Host) (x : Externals) (sdef : SandboxDef) :
    (∀ tmp d, (derive_options h x tmp sdef).2 = Except.ok d →
      sdef.MyCnfOptions <+: d.sdef.MyCnfOptions ∧
      (sdef.MyCnfFile ≠ "" → GetOptionsFromFile x sdef.MyCnfFile <:+ d.sdef.MyCnfOptions) ∧
      ((Includes (slice_to_text d.sdef.MyCnfOptions) "plugin.load" = true ∨
          Includes sdef.SemiSyncOptions "plugin.load" = true) → d.using_plugins = true) ∧
      (d.using_plugins = true →
        forced_CustomMysqld sdef = "" ∨
          (forced_CustomMysqld sdef = "mysqld-debug" ∧
            h.DirExists (sdef.Basedir ++ "/lib/plugin/debug") = true))) ∧
    (∀ d : Derived, (∃ e, (rule_plugin_check d).2 = Except.error e) ↔
      (d.using_plugins = true ∧ d.right_plugin_dir = false)) ∧
    ((Includes (slice_to_text sdef.MyCnfOptions) "plugin.load" = true ∨
        (sdef.MyCnfFile ≠ "" ∧
          Includes (slice_to_text (GetOptionsFromFile x sdef.MyCnfFile)) "plugin.load"
            = true) ∨
        Includes sdef.SemiSyncOptions "plugin.load" = true) →
      forced_CustomMysqld sdef ≠ "" →
      ¬ (forced_CustomMysqld sdef = "mysqld-debug" ∧
          h.DirExists (sdef.Basedir ++ "/lib/plugin/debug") = true) →
      ∃ e, (CreateSingleSandbox h x sdef).2 = Except.error e) ∧
    (sdef.CustomMysqld = "" → sdef.ExposeDdTables = false →
      ∀ (tmp : String) (d1 : Derived) (s4 : SandboxDef),
        (rule_enable_mysqlx x tmp
          { sdef := sdef, using_plugins := false, right_plugin_dir := true }).2
            = Except.ok d1 →
        (rule_mysqlx_8011 x tmp (rule_native_auth x (rule_general_log x d1.sdef))).2
            = Except.ok s4 →
        ∃ e, (derive_options h x tmp sdef).2 = Except.ok e) := by
  refine ⟨fun tmp d hd => derive_options_plugins h x tmp sdef d hd,
    rule_plugin_check_error_iff, ?_, ?_⟩
  · intro hinc hcm hdir
    apply except_error_of_not_ok
    intro l hok
    obtain ⟨p, d, s, l0, hp, hd, -⟩ := CreateSingleSandbox_ok h x sdef l hok
    obtain ⟨fp, -⟩ := prepare_ok h x sdef p hp
    obtain ⟨p1, -, p3, p4, p5, p6⟩ := SameExceptPrepared_fields fp
    obtain ⟨-, p7⟩ := SameExceptPrepared_grants fp
    obtain ⟨a1, a2, a3, a4⟩ := derive_options_plugins h x _ p.sdef d hd
    have hforced : forced_CustomMysqld p.sdef = forced_CustomMysqld sdef := by
      unfold forced_CustomMysqld
      rw [p1, p3]
    rw [hforced, p4] at a4
    rw [p5] at a1
    rw [p6] at a3
    rw [p7] at a2
    have hu : d.using_plugins = true := by
      apply a3
      rcases hinc with hinc | ⟨hf, hinc⟩ | hinc
      · exact Or.inl ( Includes_of_prefix _ _ _ a1 hinc)
      · exact Or.inl (Includes_of_suffix _ _ _ (a2 hf) hinc)
      · exact Or.inr hinc
    rcases a4 hu with hc | hc
    · exact hcm hc
    · exact hdir hc
  · intro hcm hex tmp d1 s4 h1 h4
    obtain ⟨f1, -, r1⟩ := rule_enable_mysqlx_frame x _ _ d1 h1
    obtain ⟨q1, -, -, -⟩ := SameExceptDerived_fields f1
    have c1 := rule_enable_mysqlx_CustomMysqld x _ _ d1 h1
    simp only at q1 c1 r1
    have hexp : (rule_expose_dd_tables x (rule_mysqlx_default x d1)).2
        = Except.ok (rule_mysqlx_default x d1) := by
      unfold rule_expose_dd_tables
      rw [if_neg]
      rw [(rule_mysqlx_default_sdef x d1).1, q1, hex]
      simp
    have hcus : (rule_custom_mysqld h (rule_mysqlx_default x d1)).2
        = Except.ok (rule_mysqlx_default x d1) := by
      unfold rule_custom_mysqld
      rw [if_neg]
      rw [(rule_mysqlx_default_sdef x d1).1, c1, hcm]
      simp
    have hchk : ∀ d : Derived, d.right_plugin_dir = true →
        (rule_plugin_check d).2 = Except.ok d := by
      intro d hd
      unfold rule_plugin_check
      rw [hd]
      cases d.using_plugins <;> rfl
    refine ⟨rule_plugin_load
      { rule_mysqlx_default x d1 with sdef := rule_my_cnf_file x s4 }, ?_⟩
    unfold derive_options
    rw [andThen_ok_iff]
    refine ⟨d1, h1, ?_⟩
    rw [andThen_ok_iff]
    refine ⟨_, hexp, ?_⟩
    rw [andThen_ok_iff]
    refine ⟨_, hcus, ?_⟩
    rw [andThen_ok_iff]
    refine ⟨s4, ?_, ?_⟩
    · rw [(rule_mysqlx_default_sdef x d1).1]
      exact h4
    · apply hchk
      rw [(rule_plugin_load_sdef _).2]
      simp only
      rw [(rule_mysqlx_default_sdef x d1).2, r1]

/-- Witness for the amended C19: the custom executable `mysqld-mine` exists and the
extension interface is off; a plugin-load directive among the explicit options makes the
call end at the plugin check, and so does one merged from the options file. -/
theorem CreateSingleSandbox_plugins_witness :
    (CreateSingleSandbox (host_debug true) (externalsOf [] [])
      { sdef_plugin with CustomMysqld := "mysqld-mine" }).2
        = Except.error ("The request of using mysqld-debug can't be honored.\n"
            ++ "This deployment is using a plugin, but the debug\n"
            ++ "directory for plugins was not found") ∧
    (∃ e, (CreateSingleSandbox (host_debug true) (externalsOf [] [])
      { sdef_plugin with CustomMysqld := "mysqld-mine" }).2 = Except.error e) ∧
    (∃ e, (CreateSingleSandbox (host_debug true)
      (externalsOf [] [{ Key := "plugin-load", Value := "foo.so" }])
      { sdef_plugin with MyCnfOptions := [], MyCnfFile := "/etc/my.cnf",
                         CustomMysqld := "mysqld-mine" }).2 = Except.error e) :=
  ⟨by decide,
    (CreateSingleSandbox_plugins (host_debug true) (externalsOf [] [])
      { sdef_plugin with CustomMysqld := "mysqld-mine" }).2.2.1
      (Or.inl (by decide)) (by decide) (by decide),
    (CreateSingleSandbox_plugins (host_debug true)
      (externalsOf [] [{ Key := "plugin-load", Value := "foo.so" }])
      { sdef_plugin with MyCnfOptions := [], MyCnfFile := "/etc/my.cnf",
                         CustomMysqld := "mysqld-mine" }).2.2.1
      (Or.inr (Or.inl ⟨by decide, by decide⟩)) (by decide) (by decide)⟩

/-! ## Claim C29: a lock marker that is a plain file -/

/-- C29: the code departs from the claim. The sandbox `/sb/msb` carries the lock marker
`no_clear` as a plain file, so that `is_locked` holds for it; `RemoveSandbox` tests the
markers with `ExecExists`, finds none, and plans the stop and the removal; run on the spot
it stops the sandbox and removes its directory. -/
theorem RemoveSandbox_plain_lock_marker :
    is_locked (hostOf ["/sb/msb"] ["/sb/msb/no_clear", "/sb/msb/stop"] ["/sb/msb/stop"] [])
        "/sb/msb" = true ∧
    RemoveSandbox (hostOf ["/sb/msb"] ["/sb/msb/no_clear", "/sb/msb/stop"] ["/sb/msb/stop"] [])
        (externalsOf [] []) "/sb" "msb" true
      = ([], Except.ok
          [{ Priority := 0, Command := { Cmd := "/sb/msb/stop", Args := [] } },
           { Priority := 1, Command := { Cmd := "rm", Args := ["-rf", "/sb/msb"] } }]) ∧
    RemoveSandbox (hostOf ["/sb/msb"] ["/sb/msb/no_clear", "/sb/msb/stop"] ["/sb/msb/stop"] [])
        (externalsOf [] []) "/sb" "msb" false
      = ([Event.printed "Running /sb/msb/stop\n",
          Event.Run_cmd "/sb/msb/stop",
          Event.printed "Running rm -rf /sb/msb\n",
          Event.Run_cmd_with_args "rm" ["-rf", "/sb/msb"],
          Event.printed "Directory /sb/msb deleted\n"], Except.ok []) := by
  decide

end Sandbox
